import Mathlib

/-!
Shallow embedding of the ezid package (src/ezid): a client for the EZID
persistent-identifier registry.  Python values are modelled by the inductive
type PyVal, Python exceptions by PyErr, and XML documents (xml.dom.minidom
trees) by XNode.  Each metadata value class of src/ezid/metadata_classes.py
is embedded as a constructor function (PyVal to canonical PyVal), a
serializer (canonical value times document to document) and a deserializer
(document to value), all in the Except PyErr monad so that raised exceptions
are explicit.  The module-level functions of src/ezid/__init__.py
(validate_metadata, mint, create_datacite_xml, xml_to_metadata and the
response handling of DOI.load, DOI.update_metadata, DOI.update_landing_page)
are embedded over those definitions, with the body of an HTTP response taken
as an input string.
-/

/-- Python values, as far as the ezid package manipulates them: byte or
unicode strings (Python basestring), integers, None, lists, tuples, and
string-keyed dictionaries (the only dictionaries the package builds). -/
inductive PyVal where
  | str (s : String)
  | int (n : Int)
  | none
  | list (xs : List PyVal)
  | tuple (xs : List PyVal)
  | dict (kvs : List (String × PyVal))
deriving Repr

/-- Python exceptions raised by the ezid package: the builtin TypeError,
ValueError, NameError, IndexError and AssertionError, and the exception
classes of src/ezid/exceptions.py that carry data (RequestError, UpdateError,
MintError with a message, NotFoundError with the identifier). -/
inductive PyErr where
  | typeError (msg : String)
  | valueError (msg : String)
  | nameError (name : String)
  | indexError
  | assertionError
  | requestError (msg : String)
  | updateError (msg : String)
  | mintError (msg : String)
  | notFoundError (identifier : String)
deriving Repr, DecidableEq

mutual

def pyBeq : PyVal → PyVal → Bool
  | .str a, .str b => a == b
  | .int a, .int b => a == b
  | .none, .none => true
  | .list a, .list b => pyBeqL a b
  | .tuple a, .tuple b => pyBeqL a b
  | .dict a, .dict b => pyBeqKvs a b
  | _, _ => false

def pyBeqL : List PyVal → List PyVal → Bool
  | [], [] => true
  | a :: as, b :: bs => pyBeq a b && pyBeqL as bs
  | _, _ => false

def pyBeqKvs : List (String × PyVal) → List (String × PyVal) → Bool
  | [], [] => true
  | (k1, v1) :: as, (k2, v2) :: bs => k1 == k2 && pyBeq v1 v2 && pyBeqKvs as bs
  | _, _ => false

end

mutual

theorem pyBeq_iff : ∀ a b : PyVal, pyBeq a b = true ↔ a = b
  | .str a, .str b => by simp [pyBeq]
  | .int a, .int b => by simp [pyBeq]
  | .none, .none => by simp [pyBeq]
  | .list a, .list b => by simp [pyBeq, pyBeqL_iff a b]
  | .tuple a, .tuple b => by simp [pyBeq, pyBeqL_iff a b]
  | .dict a, .dict b => by simp [pyBeq, pyBeqKvs_iff a b]
  | .str _, .int _ | .str _, .none | .str _, .list _ | .str _, .tuple _ | .str _, .dict _
  | .int _, .str _ | .int _, .none | .int _, .list _ | .int _, .tuple _ | .int _, .dict _
  | .none, .str _ | .none, .int _ | .none, .list _ | .none, .tuple _ | .none, .dict _
  | .list _, .str _ | .list _, .int _ | .list _, .none | .list _, .tuple _ | .list _, .dict _
  | .tuple _, .str _ | .tuple _, .int _ | .tuple _, .none | .tuple _, .list _ | .tuple _, .dict _
  | .dict _, .str _ | .dict _, .int _ | .dict _, .none | .dict _, .list _ | .dict _, .tuple _ =>
    by simp [pyBeq]

theorem pyBeqL_iff : ∀ a b : List PyVal, pyBeqL a b = true ↔ a = b
  | [], [] => by simp [pyBeqL]
  | a :: as, b :: bs => by
      simp [pyBeqL, pyBeq_iff a b, pyBeqL_iff as bs]
  | [], _ :: _ => by simp [pyBeqL]
  | _ :: _, [] => by simp [pyBeqL]

theorem pyBeqKvs_iff : ∀ a b : List (String × PyVal), pyBeqKvs a b = true ↔ a = b
  | [], [] => by simp [pyBeqKvs]
  | (k1, v1) :: as, (k2, v2) :: bs => by
      simp [pyBeqKvs, pyBeq_iff v1 v2, pyBeqKvs_iff as bs, and_assoc]
  | [], _ :: _ => by simp [pyBeqKvs]
  | _ :: _, [] => by simp [pyBeqKvs]

end

instance : DecidableEq PyVal := fun a b => decidable_of_iff _ (pyBeq_iff a b)

/-- Test for Python isinstance(v, basestring). -/
def PyVal.isStr : PyVal → Bool
  | .str _ => true
  | _ => false

/-- Test for Python isinstance(v, (tuple, list)). -/
def PyVal.isSeq : PyVal → Bool
  | .list _ => true
  | .tuple _ => true
  | _ => false

/-- Test for Python isinstance(v, (types.NoneType, basestring)). -/
def PyVal.isNoneOrStr : PyVal → Bool
  | .none => true
  | .str _ => true
  | _ => false

/-- Characters stripped by the Python str.strip method called with no
argument: space, tab, newline, carriage return, vertical tab, form feed. -/
def isPySpace (c : Char) : Bool :=
  c = ' ' || c = '\t' || c = '\n' || c = '\r' || c = '\x0b' || c = '\x0c'

/-- Python str.strip with no argument: remove leading and trailing
whitespace. -/
def pyStrip (s : String) : String :=
  String.mk (((s.toList.dropWhile isPySpace).reverse.dropWhile isPySpace).reverse)

/-- Numeric value of a hexadecimal digit, if the character is one. -/
def hexDigitVal (c : Char) : Option Nat :=
  if '0' ≤ c ∧ c ≤ '9' then some (c.toNat - '0'.toNat)
  else if 'a' ≤ c ∧ c ≤ 'f' then some (c.toNat - 'a'.toNat + 10)
  else if 'A' ≤ c ∧ c ≤ 'F' then some (c.toNat - 'A'.toNat + 10)
  else Option.none

/-- Modelled from the library: urllib.unquote percent-decoding on a character
list.  A percent sign followed by two hexadecimal digits is replaced by the
character with that code; any other percent sign is kept literally. -/
def pyUnquoteL : List Char → List Char
  | [] => []
  | '%' :: a :: b :: rest =>
      match hexDigitVal a, hexDigitVal b with
      | some ha, some hb => Char.ofNat (16 * ha + hb) :: pyUnquoteL rest
      | _, _ => '%' :: pyUnquoteL (a :: b :: rest)
  | c :: rest => c :: pyUnquoteL rest

/-- Modelled from the library: urllib.unquote percent-decoding. -/
def pyUnquote (s : String) : String :=
  String.mk (pyUnquoteL s.toList)

/-- Python substring containment, the expression sub in s. -/
def pyIn (sub s : String) : Prop :=
  sub.toList <:+: s.toList

instance (sub s : String) : Decidable (pyIn sub s) :=
  inferInstanceAs (Decidable (sub.toList <:+: s.toList))

/-- Python s.startswith(p). -/
def pyStartsWith (s p : String) : Bool := p.toList.isPrefixOf s.toList

/-- Python s[n:]. -/
def pyDrop (s : String) (n : Nat) : String := String.mk (s.toList.drop n)

/-- Python s.split(sep) for a one-character separator, on the character
list: one more part than there are separator occurrences. -/
def splitChar (c : Char) : List Char → List (List Char)
  | [] => [[]]
  | x :: xs =>
      let r := splitChar c xs
      if x = c then [] :: r
      else match r with
        | [] => [[x]]
        | y :: ys => (x :: y) :: ys

/-- Python s.split(sep) for a one-character separator. -/
def pySplitChar (c : Char) (s : String) : List String :=
  (splitChar c s.toList).map String.mk

/-- XML nodes as built by xml.dom.minidom for the documents this package
handles: text nodes and elements with an ordered attribute list and ordered
children.  A document is represented by its root element. -/
inductive XNode where
  | text (data : String)
  | element (tag : String) (attrs : List (String × String)) (children : List XNode)
deriving Repr

mutual

def xnBeq : XNode → XNode → Bool
  | .text a, .text b => a == b
  | .element t1 a1 c1, .element t2 a2 c2 => t1 == t2 && a1 == a2 && xnBeqL c1 c2
  | _, _ => false

def xnBeqL : List XNode → List XNode → Bool
  | [], [] => true
  | a :: as, b :: bs => xnBeq a b && xnBeqL as bs
  | _, _ => false

end

mutual

theorem xnBeq_iff : ∀ a b : XNode, xnBeq a b = true ↔ a = b
  | .text a, .text b => by simp [xnBeq]
  | .element t1 a1 c1, .element t2 a2 c2 => by
      simp [xnBeq, xnBeqL_iff c1 c2, and_assoc]
  | .text _, .element _ _ _ => by simp [xnBeq]
  | .element _ _ _, .text _ => by simp [xnBeq]

theorem xnBeqL_iff : ∀ a b : List XNode, xnBeqL a b = true ↔ a = b
  | [], [] => by simp [xnBeqL]
  | a :: as, b :: bs => by simp [xnBeqL, xnBeq_iff a b, xnBeqL_iff as bs]
  | [], _ :: _ => by simp [xnBeqL]
  | _ :: _, [] => by simp [xnBeqL]

end

instance : DecidableEq XNode := fun a b => decidable_of_iff _ (xnBeq_iff a b)

mutual

/-- Document-level getElementsByTagName: all elements with the given tag,
in document (preorder) order, the searched node included. -/
def elementsByTag (tag : String) : XNode → List XNode
  | .text _ => []
  | .element t a cs =>
      (if t = tag then [XNode.element t a cs] else []) ++ elementsByTagL tag cs

def elementsByTagL (tag : String) : List XNode → List XNode
  | [] => []
  | c :: cs => elementsByTag tag c ++ elementsByTagL tag cs

end

/-- Element-level getElementsByTagName: matching descendants of the node,
the node itself excluded, in document order. -/
def elGetElementsByTag (tag : String) : XNode → List XNode
  | .text _ => []
  | .element _ _ cs => elementsByTagL tag cs

/-- Embedding of xml_utils.xml_text: concatenation of the data of the
direct text-node children of an element. -/
def xml_text (el : XNode) : String :=
  match el with
  | .text _ => ""
  | .element _ _ cs =>
      (cs.map fun c => match c with | .text d => d | .element _ _ _ => "").foldl
        (fun a b => a ++ b) ""

/-- The minidom appendChild operation on an element node (never applied to a
text node by this package). -/
def appendChildN (c : XNode) : XNode → XNode
  | .text d => .text d
  | .element t a cs => .element t a (cs ++ [c])

/-- Append a list of children in order. -/
def appendChildren (new : List XNode) : XNode → XNode
  | .text d => .text d
  | .element t a cs => .element t a (cs ++ new)

/-- The minidom setAttribute operation on an attribute list: replace the
value in place if the name is present, else append the pair. -/
def setAttrL (name value : String) : List (String × String) → List (String × String)
  | [] => [(name, value)]
  | (n, v) :: rest =>
      if n = name then (n, value) :: rest else (n, v) :: setAttrL name value rest

/-- The minidom setAttribute operation on an element node. -/
def setAttrN (name value : String) : XNode → XNode
  | .text d => .text d
  | .element t a cs => .element t (setAttrL name value a) cs

/-- The minidom getAttribute operation: the value, or the empty string when
the attribute is absent. -/
def getAttrN (name : String) : XNode → String
  | .text _ => ""
  | .element _ a _ => ((a.find? fun p => p.1 = name).map fun p => p.2).getD ""

/-- The minidom hasAttribute operation. -/
def hasAttrN (name : String) : XNode → Bool
  | .text _ => false
  | .element _ a _ => (a.find? fun p => p.1 = name).isSome

mutual

/-- Apply f to the first element with the given tag in document order,
returning the rewritten tree and whether a match was found.  Together with a
uniqueness check this embeds the in-place mutation of the single element
elements[0] performed throughout the package. -/
def mapFirstAtTag (tag : String) (f : XNode → XNode) : XNode → XNode × Bool
  | .text d => (.text d, false)
  | .element t a cs =>
      if t = tag then (f (.element t a cs), true)
      else
        let r := mapFirstAtTagL tag f cs
        (.element t a r.1, r.2)

def mapFirstAtTagL (tag : String) (f : XNode → XNode) : List XNode → List XNode × Bool
  | [] => ([], false)
  | c :: cs =>
      let r := mapFirstAtTag tag f c
      if r.2 then (r.1 :: cs, true)
      else
        let rs := mapFirstAtTagL tag f cs
        (r.1 :: rs.1, rs.2)

end

/-- Find the unique element with the given tag, assert uniqueness as the
package does, and rewrite it with f. -/
def updateUniqueEl (tag : String) (f : XNode → XNode) (doc : XNode) :
    Except PyErr XNode :=
  if (elementsByTag tag doc).length = 1 then .ok (mapFirstAtTag tag f doc).1
  else .error .assertionError

/-- Embedding of xml_utils.xml_add_text: append a text node to the unique
element with the given tag (assertion failure if the tag is not unique). -/
def xml_add_text (doc : XNode) (tag value : String) : Except PyErr XNode :=
  updateUniqueEl tag (appendChildN (.text value)) doc

/-- Escape of character data written by minidom toxml. -/
def xmlEscape (s : String) : String :=
  s.foldl
    (fun acc c =>
      acc ++
        (if c = '&' then "&amp;" else if c = '<' then "&lt;"
         else if c = '>' then "&gt;" else if c = '"' then "&quot;"
         else String.mk [c]))
    ""

/-- Attribute list as serialized by minidom toxml. -/
def attrsToXml (attrs : List (String × String)) : String :=
  attrs.foldl (fun acc p => acc ++ " " ++ p.1 ++ "=\"" ++ xmlEscape p.2 ++ "\"") ""

mutual

def nodeToXml : XNode → String
  | .text d => xmlEscape d
  | .element t a cs =>
      if cs.isEmpty then "<" ++ t ++ attrsToXml a ++ "/>"
      else "<" ++ t ++ attrsToXml a ++ ">" ++ forestToXml cs ++ "</" ++ t ++ ">"

def forestToXml : List XNode → String
  | [] => ""
  | c :: cs => nodeToXml c ++ forestToXml cs

end

/-- Embedding of minidom doc.toxml on the documents this package builds. -/
def toxml (doc : XNode) : String :=
  "<?xml version=\"1.0\" ?>" ++ nodeToXml doc

/-- Shorthand for an attribute-free childless element of the template. -/
def emptyEl (tag : String) : XNode := .element tag [] []

/-- The parse tree of the base_xml template of src/ezid/__init__.py,
whitespace text nodes included as minidom keeps them. -/
def base_doc : XNode :=
  .element "resource"
    [("xmlns", "http://datacite.org/schema/kernel-3"),
     ("xmlns:xsi", "http://www.w3.org/2001/XMLSchema-instance"),
     ("xsi:schemaLocation",
      "http://datacite.org/schema/kernel-3 http://schema.datacite.org/meta/kernel-3/metadata.xsd")]
    [.text "\n  ", .element "identifier" [("identifierType", "DOI")] [],
     .text "\n  ", emptyEl "creators",
     .text "\n  ", .element "titles" [] [.text "\n    ", emptyEl "title", .text "\n  "],
     .text "\n  ", emptyEl "publisher",
     .text "\n  ", emptyEl "publicationYear",
     .text "\n  ", emptyEl "subjects",
     .text "\n  ", emptyEl "contributors",
     .text "\n  ", emptyEl "dates",
     .text "\n  ", emptyEl "resourceType",
     .text "\n  ", emptyEl "alternateIdentifiers",
     .text "\n  ", emptyEl "relatedIdentifiers",
     .text "\n  ", emptyEl "sizes",
     .text "\n  ", emptyEl "formats",
     .text "\n  ", emptyEl "version",
     .text "\n  ", emptyEl "rightsList",
     .text "\n  ", emptyEl "descriptions",
     .text "\n  ", emptyEl "geoLocations",
     .text "\n"]

/-- Modelled from the spec: metadata_classes.py imports datetype_values from
controlled_values.py, a source file of this repository that is not provided;
section 2 of the spec describes the controlled vocabularies as fixed sets of
legal string values (here: date types).  No claim depends on the exact
contents; the DataCite kernel-3 date types are used. -/
def datetype_values : List String :=
  ["Accepted", "Available", "Copyrighted", "Collected", "Created", "Issued",
   "Submitted", "Updated", "Valid"]

/-- Modelled from the spec: the controlled resource-type-general categories
imported from the missing controlled_values.py (DataCite kernel-3 values). -/
def resourcetypegeneral_values : List String :=
  ["Audiovisual", "Collection", "Dataset", "Event", "Image",
   "InteractiveResource", "Model", "PhysicalObject", "Service", "Software",
   "Sound", "Text", "Workflow", "Other"]

/-- Modelled from the spec: the controlled related-identifier types imported
from the missing controlled_values.py (DataCite kernel-3 values). -/
def relatedidentifiertype_values : List String :=
  ["ARK", "arXiv", "bibcode", "DOI", "EAN13", "EISSN", "Handle", "ISBN",
   "ISSN", "ISTC", "LISSN", "LSID", "PMID", "PURL", "UPC", "URL", "URN"]

/-- Modelled from the spec: the controlled related-identifier relation types
imported from the missing controlled_values.py (DataCite kernel-3 values). -/
def relatedidentifierrelationtype_values : List String :=
  ["IsCitedBy", "Cites", "IsSupplementTo", "IsSupplementedBy",
   "IsContinuedBy", "Continues", "IsNewVersionOf", "IsPreviousVersionOf",
   "IsPartOf", "HasPart", "IsReferencedBy", "References", "IsDocumentedBy",
   "Documents", "IsCompiledBy", "Compiles", "IsVariantFormOf",
   "IsOriginalFormOf", "IsIdenticalTo", "HasMetadata", "IsMetadataFor",
   "Reviews", "IsReviewedBy", "IsDerivedFrom", "IsSourceOf"]

/-- Modelled from the spec: the controlled description types imported from
the missing controlled_values.py (DataCite kernel-3 values). -/
def descriptiontype_values : List String :=
  ["Abstract", "Methods", "SeriesInformation", "TableOfContents", "Other"]


/-- Sequential mapping in the Except monad: the per-element loops of the
constructors and serializers, which stop at the first raised exception. -/
def pyMapM {α β : Type} (f : α → Except PyErr β) : List α → Except PyErr (List β)
  | [] => .ok []
  | x :: xs => do
      let y ← f x
      let ys ← pyMapM f xs
      .ok (y :: ys)

@[simp]
theorem except_bind_ok {α β : Type} (x : α) (f : α → Except PyErr β) :
    (Except.ok x >>= f : Except PyErr β) = f x := rfl

@[simp]
theorem except_bind_error {α β : Type} (e : PyErr) (f : α → Except PyErr β) :
    (Except.error e >>= f : Except PyErr β) = .error e := rfl

@[simp]
theorem except_pure_eq {α : Type} (x : α) : (pure x : Except PyErr α) = .ok x := rfl

@[simp]
theorem except_map_ok {α β : Type} (g : α → β) (x : α) :
    (Except.ok x : Except PyErr α).map g = .ok (g x) := rfl

@[simp]
theorem except_map_error {α β : Type} (g : α → β) (e : PyErr) :
    (Except.error e : Except PyErr α).map g = .error e := rfl

@[simp]
theorem except_toOption_ok {α : Type} (x : α) :
    (Except.ok x : Except PyErr α).toOption = some x := rfl

@[simp]
theorem except_toOption_error {α : Type} (e : PyErr) :
    (Except.error e : Except PyErr α).toOption = Option.none := rfl

/-- Embedding of the MVStringBase constructor. -/
def MVStringBase_init (value : PyVal) : Except PyErr PyVal :=
  match value with
  | .str s => .ok (.str s)
  | _ => .error (.valueError "value must be a basestring")

/-- The element check of the MVStringListBase constructor loop. -/
def stringListItem (v : PyVal) : Except PyErr PyVal :=
  match v with
  | .str s => Except.ok (PyVal.str s)
  | _ => Except.error (PyErr.valueError "value elements must be a basestrings")

/-- Embedding of the MVStringListBase constructor. -/
def MVStringListBase_init (value : PyVal) : Except PyErr PyVal :=
  match value with
  | .list xs | .tuple xs => do
      let out ← pyMapM stringListItem xs
      .ok (.list out)
  | _ => .error (.valueError "value must be a tuple or list")

/-- One element of the creators sequence: a bare string becomes a
(name, None) pair; a 2-sequence of a string and a string-or-None is kept as
a pair; anything else is rejected. -/
def MVCreators_elem (v : PyVal) : Except PyErr PyVal :=
  match v with
  | .str s => .ok (.tuple [.str s, .none])
  | .list ys | .tuple ys =>
      match ys with
      | [y0, y1] =>
          if !y0.isStr then
            .error (.valueError "creators elements must be basestrings or 2-tuples")
          else if !y1.isNoneOrStr then
            .error (.valueError "creators elements must be basestrings or 2-tuples")
          else .ok (.tuple [y0, y1])
      | _ => .error (.valueError "creators elements must be basestrings or 2-tuples")
  | _ => .error (.valueError "creators elements must be basestrings or 2-tuples")

/-- Embedding of the MVCreators constructor. -/
def MVCreators_init (value : PyVal) : Except PyErr PyVal :=
  match value with
  | .list xs | .tuple xs => do
      let out ← pyMapM MVCreators_elem xs
      .ok (.list out)
  | _ => .error (.valueError "creators must be a list or a tuple")

/-- Embedding of the Python re.search test of the pattern anchored by a
caret and a dollar around four digits: with Python re semantics the caret
anchors at the start of the string and the dollar matches either at the end
of the string or just before a newline that ends the string, so the strings
accepted are four ASCII digits optionally followed by one final newline. -/
def pyYearMatch (s : String) : Bool :=
  match s.toList with
  | [a, b, c, d] => a.isDigit && b.isDigit && c.isDigit && d.isDigit
  | [a, b, c, d, e] => a.isDigit && b.isDigit && c.isDigit && d.isDigit && e = '\n'
  | _ => false

/-- Embedding of the MVPublicationYear constructor. -/
def MVPublicationYear_init (value : PyVal) : Except PyErr PyVal :=
  match value with
  | .str s =>
      if pyYearMatch s then .ok (.str s)
      else .error (.valueError "publicationyear must be a four-digit number")
  | _ => .error (.valueError "publicationyear must be a basestring")

/-- One element of the subjects sequence: a bare string becomes a triple
with None scheme and None URI; a 2-sequence (subject, scheme) gets a None
URI; a 3-sequence is kept; the subject and the scheme must be strings and
the URI a string or None. -/
def MVSubjects_elem (v : PyVal) : Except PyErr PyVal :=
  match v with
  | .str s => .ok (.tuple [.str s, .none, .none])
  | .list ys | .tuple ys =>
      match ys with
      | [subject, scheme] =>
          if !subject.isStr then
            .error (.valueError "subjects elements must be strings or 2- or 3-tuples of strings")
          else if !scheme.isStr then
            .error (.valueError "subjects elements must be strings or 2- or 3-tuples of strings")
          else .ok (.tuple [subject, scheme, .none])
      | [subject, scheme, uri] =>
          if !subject.isStr then
            .error (.valueError "subjects elements must be strings or 2- or 3-tuples of strings")
          else if !scheme.isStr then
            .error (.valueError "subjects elements must be strings or 2- or 3-tuples of strings")
          else if !uri.isNoneOrStr then
            .error (.valueError "subjects elements must be strings or 2- or 3-tuples of strings")
          else .ok (.tuple [subject, scheme, uri])
      | _ => .error (.valueError "subjects elements must be strings or 2- or 3-tuples of strings")
  | _ => .error (.valueError "subjects elements must be strings or 2- or 3-tuples of strings")

/-- Embedding of the MVSubjects constructor (whose first error message
mentions contributors, as in the source). -/
def MVSubjects_init (value : PyVal) : Except PyErr PyVal :=
  match value with
  | .list xs | .tuple xs => do
      let out ← pyMapM MVSubjects_elem xs
      .ok (.list out)
  | _ => .error (.valueError "contributors must be a list or a tuple")

/-- One element of the contributors sequence. -/
def MVContributors_elem (v : PyVal) : Except PyErr PyVal :=
  match v with
  | .list ys | .tuple ys =>
      match ys with
      | [t, n] => MVContributors_check t n .none
      | [t, n, a] => MVContributors_check t n a
      | _ => .error (.valueError "contributors elements must be 2- or 3-tuples of strings")
  | _ => .error (.valueError "contributors elements must be 2- or 3-tuples of strings")
where
  MVContributors_check (t n a : PyVal) : Except PyErr PyVal :=
    if !t.isStr then
      .error (.valueError "contributors elements must be 2- or 3-tuples of strings")
    else if !n.isStr then
      .error (.valueError "contributors elements must be 2- or 3-tuples of strings")
    else if !a.isNoneOrStr then
      .error (.valueError "contributors elements must be 2- or 3-tuples of strings")
    else .ok (.tuple [t, n, a])

/-- Embedding of the MVContributors constructor. -/
def MVContributors_init (value : PyVal) : Except PyErr PyVal :=
  match value with
  | .list xs | .tuple xs => do
      let out ← pyMapM MVContributors_elem xs
      .ok (.list out)
  | _ => .error (.valueError "contributors must be a list or a tuple")

/-- One element of the dates sequence: the source first checks that every
part is a string, then that there are exactly two parts, then that the date
type is in the controlled vocabulary. -/
def MVDates_elem (v : PyVal) : Except PyErr PyVal :=
  match v with
  | .list ys | .tuple ys =>
      match ys.all PyVal.isStr with
      | false => .error (.valueError "dates elements must be 2-tuples of strings")
      | true =>
          match ys with
          | [.str t, d] =>
              if t ∈ datetype_values then .ok (.tuple [.str t, d])
              else .error (.valueError "bad value for datetype")
          | _ => .error (.valueError "dates elements must be 2-tuples of strings")
  | _ => .error (.valueError "dates elements must be 2-tuples of strings")

/-- Embedding of the MVDates constructor. -/
def MVDates_init (value : PyVal) : Except PyErr PyVal :=
  match value with
  | .list xs | .tuple xs => do
      let out ← pyMapM MVDates_elem xs
      .ok (.list out)
  | _ => .error (.valueError "dates must be a list or a tuple")

/-- Embedding of Python value.split(sep, 1): split on the first occurrence
of the separator only. -/
def pySplitOnce (sep : String) (s : String) : List String :=
  match s.splitOn sep with
  | [] => [s]
  | [x] => [x]
  | x :: rest => [x, String.intercalate sep rest]

/-- Embedding of the MVResourceType constructor. -/
def MVResourceType_init (value : PyVal) : Except PyErr PyVal :=
  match value with
  | .str s =>
      match pySplitOnce "/" s with
      | [p0, _] =>
          if p0 ∈ resourcetypegeneral_values then .ok (.str s)
          else .error (.valueError "bad value for resourceTypeGeneral")
      | _ =>
          .error (.valueError
            "resourcetype must have the form resourceTypeGeneral/resourceType")
  | _ => .error (.valueError "resourcetype must be a basestring")

/-- One element of the alternateidentifiers sequence. -/
def MVAlternateIdentifiers_elem (v : PyVal) : Except PyErr PyVal :=
  match v with
  | .list ys | .tuple ys =>
      match ys.all PyVal.isStr with
      | false =>
          .error (.valueError "alternateidentifiers elements must be 2-tuples of strings")
      | true =>
          match ys with
          | [y0, y1] => .ok (.tuple [y0, y1])
          | _ =>
              .error (.valueError "alternateidentifiers elements must be 2-tuples of strings")
  | _ => .error (.valueError "alternateidentifiers elements must be 2-tuples of strings")

/-- Embedding of the MVAlternateIdentifiers constructor. -/
def MVAlternateIdentifiers_init (value : PyVal) : Except PyErr PyVal :=
  match value with
  | .list xs | .tuple xs => do
      let out ← pyMapM MVAlternateIdentifiers_elem xs
      .ok (.list out)
  | _ => .error (.valueError "alternateidentifiers must be a list or a tuple")

/-- One element of the relatedidentifiers sequence: a 3-sequence of strings
whose second and third members are in their controlled vocabularies. -/
def MVRelatedIdentifiers_elem (v : PyVal) : Except PyErr PyVal :=
  match v with
  | .list ys | .tuple ys =>
      match ys with
      | [y0, y1, y2] =>
          match [y0, y1, y2].all PyVal.isStr with
          | false => .error (.valueError "relatedidentifiers elements must be strings")
          | true =>
              match y1, y2 with
              | .str t, .str r =>
                  if t ∉ relatedidentifiertype_values then
                    .error (.valueError "bad value for relatedidentifiertype")
                  else if r ∉ relatedidentifierrelationtype_values then
                    .error (.valueError "bad value for relatedidentifierrelationtype")
                  else .ok (.tuple [y0, .str t, .str r])
              | _, _ => .error (.valueError "relatedidentifiers elements must be strings")
      | _ => .error (.valueError "relatedidentifiers elements must be 3-tuples")
  | _ => .error (.valueError "relatedidentifiers elements must be 3-tuples")

/-- Embedding of the MVRelatedIdentifiers constructor. -/
def MVRelatedIdentifiers_init (value : PyVal) : Except PyErr PyVal :=
  match value with
  | .list xs | .tuple xs => do
      let out ← pyMapM MVRelatedIdentifiers_elem xs
      .ok (.list out)
  | _ => .error (.valueError "relatedidentifiers must be a list or tuple")

/-- One element of the rights sequence: a bare string becomes a
(rights, None) pair; a 2-sequence of a string and a string-or-None is kept. -/
def MVRights_elem (v : PyVal) : Except PyErr PyVal :=
  match v with
  | .str s => .ok (.tuple [.str s, .none])
  | .list ys | .tuple ys =>
      match ys with
      | [y0, y1] =>
          if !y0.isStr then
            .error (.valueError "rights elements must be strings or 2-tuples of strings")
          else if !y1.isNoneOrStr then
            .error (.valueError "rights elements must be strings or 2-tuples of strings")
          else .ok (.tuple [y0, y1])
      | _ => .error (.valueError "rights elements must be strings or 2-tuples of strings")
  | _ => .error (.valueError "rights elements must be strings or 2-tuples of strings")

/-- Embedding of the MVRights constructor. -/
def MVRights_init (value : PyVal) : Except PyErr PyVal :=
  match value with
  | .list xs | .tuple xs => do
      let out ← pyMapM MVRights_elem xs
      .ok (.list out)
  | _ => .error (.valueError "rights must be a list or a tuple")

/-- One element of the descriptions sequence. -/
def MVDescriptions_elem (v : PyVal) : Except PyErr PyVal :=
  match v with
  | .list ys | .tuple ys =>
      match ys.all PyVal.isStr with
      | false => .error (.valueError "descriptions elements must be 2-tuples of strings")
      | true =>
          match ys with
          | [.str t, d] =>
              if t ∈ descriptiontype_values then .ok (.tuple [.str t, d])
              else .error (.valueError "bad value for descriptiontype")
          | _ => .error (.valueError "descriptions elements must be 2-tuples of strings")
  | _ => .error (.valueError "descriptions elements must be 2-tuples of strings")

/-- Embedding of the MVDescriptions constructor. -/
def MVDescriptions_init (value : PyVal) : Except PyErr PyVal :=
  match value with
  | .list xs | .tuple xs => do
      let out ← pyMapM MVDescriptions_elem xs
      .ok (.list out)
  | _ => .error (.valueError "descriptions must be a list or a tuple")

/-- The element check of the MVGeoLocations constructor loop. -/
def geoLocationItem (v : PyVal) : Except PyErr PyVal :=
  match v with
  | .str s => Except.ok (PyVal.str s)
  | _ => Except.error (PyErr.valueError "geolocations values must be strings")

/-- Embedding of the MVGeoLocations constructor. -/
def MVGeoLocations_init (value : PyVal) : Except PyErr PyVal :=
  match value with
  | .list xs | .tuple xs => do
      let out ← pyMapM geoLocationItem xs
      .ok (.list out)
  | _ => .error (.valueError "geolocations must be a list or a tuple")

/-- Truthiness of the canonical auxiliary slot as tested by the Python
expressions if scheme: and if uri: in the serializers: None and the empty
string are falsy, a nonempty string is truthy. -/
def pyTruthyAux : PyVal → Option String
  | .str s => if s = "" then Option.none else some s
  | _ => Option.none

/-- Serializer of MVStringBase subclasses: xml_add_text of the canonical
string on the unique element with the class tag. -/
def MVStringBase_update_xml (tag : String) (value : PyVal) (doc : XNode) :
    Except PyErr XNode :=
  match value with
  | .str s => xml_add_text doc tag s
  | _ => .error (.typeError "value is not a string")

/-- Deserializer of MVStringBase subclasses: the text of the unique element
with the class tag. -/
def MVStringBase_extract (tag : String) (doc : XNode) : Except PyErr PyVal :=
  match elementsByTag tag doc with
  | [el] => .ok (.str (xml_text el))
  | _ => .error .assertionError

/-- The child element built per entry by the MVStringListBase serializer. -/
def stringListChild (tag : String) (v : PyVal) : Except PyErr XNode :=
  match v with
  | .str s => Except.ok (XNode.element tag [] [.text s])
  | _ => Except.error (PyErr.typeError "value element is not a string")

/-- Serializer of MVStringListBase subclasses: append one child element with
the class tag and the string as text, per entry, to the unique container. -/
def MVStringListBase_update_xml (containerTag tag : String) (value : PyVal)
    (doc : XNode) : Except PyErr XNode :=
  match value with
  | .list vs =>
      if (elementsByTag containerTag doc).length = 1 then do
        let children ← pyMapM (stringListChild tag) vs
        .ok (mapFirstAtTag containerTag (appendChildren children) doc).1
      else .error .assertionError
  | _ => .error (.typeError "value is not a list")

/-- Deserializer of MVStringListBase subclasses. -/
def MVStringListBase_extract (containerTag tag : String) (doc : XNode) :
    Except PyErr PyVal :=
  match elementsByTag containerTag doc with
  | [container] =>
      .ok (.list ((elGetElementsByTag tag container).map fun el => .str (xml_text el)))
  | _ => .error .assertionError

/-- The creator child element built by MVCreators.update_xml for one
canonical (name, affiliation) pair: a creator element holding a creatorName
element and, when the affiliation is not None, an affiliation element. -/
def creatorChild (p : PyVal) : Except PyErr XNode :=
  match p with
  | .tuple [.str name, .none] =>
      .ok (.element "creator" [] [.element "creatorName" [] [.text name]])
  | .tuple [.str name, .str aff] =>
      .ok (.element "creator" []
        [.element "creatorName" [] [.text name],
         .element "affiliation" [] [.text aff]])
  | _ => .error (.typeError "cannot unpack creator entry")

/-- Embedding of MVCreators.update_xml. -/
def MVCreators_update_xml (value : PyVal) (doc : XNode) : Except PyErr XNode :=
  match value with
  | .list vs =>
      if (elementsByTag "creators" doc).length = 1 then do
        let children ← pyMapM creatorChild vs
        .ok (mapFirstAtTag "creators" (appendChildren children) doc).1
      else .error .assertionError
  | _ => .error (.typeError "value is not a list")

/-- One creator read back by MVCreators.extract_from_xml: the text of the
first creatorName descendant (an IndexError if there is none) and the text
of the first affiliation descendant when one exists, else None. -/
def creatorOfEl (el : XNode) : Except PyErr PyVal :=
  match elGetElementsByTag "creatorName" el with
  | [] => .error .indexError
  | nameEl :: _ =>
      match elGetElementsByTag "affiliation" el with
      | [] => .ok (.tuple [.str (xml_text nameEl), .none])
      | affEl :: _ => .ok (.tuple [.str (xml_text nameEl), .str (xml_text affEl)])

/-- Embedding of MVCreators.extract_from_xml. -/
def MVCreators_extract (doc : XNode) : Except PyErr PyVal :=
  match elementsByTag "creators" doc with
  | [container] => do
      let vs ← pyMapM creatorOfEl (elGetElementsByTag "creator" container)
      .ok (.list vs)
  | _ => .error .assertionError

/-- Embedding of MVSubjects.update_xml: the source asserts that the subjects
container is unique, then creates one element per entry with the misspelled
tag subjet and never appends it to the container (metadata_classes.py lines
197 to 208), so the document is returned unchanged. -/
def MVSubjects_update_xml (value : PyVal) (doc : XNode) : Except PyErr XNode :=
  match value with
  | .list _ =>
      if (elementsByTag "subjects" doc).length = 1 then .ok doc
      else .error .assertionError
  | _ => .error (.typeError "value is not a list")

/-- The loop body of MVSubjects.extract_from_xml: the local names scheme and
uri are only assigned when the corresponding attribute is present, so when
the attribute is missing the name keeps the value of a previous iteration,
and on the first such element the name is unbound and the lookup raises
NameError (the source also reads the attribute subjectURI although the
serializer would write schemeURI). -/
def MVSubjects_extract_go :
    List XNode → Option String → Option String → List PyVal →
    Except PyErr (List PyVal)
  | [], _, _, acc => .ok acc.reverse
  | el :: rest, scheme0, uri0, acc =>
      let scheme := if hasAttrN "subjectScheme" el then
        some (getAttrN "subjectScheme" el) else scheme0
      let uri := if hasAttrN "subjectURI" el then
        some (getAttrN "subjectURI" el) else uri0
      match scheme, uri with
      | Option.none, _ => .error (.nameError "scheme")
      | some _, Option.none => .error (.nameError "uri")
      | some sch, some u =>
          MVSubjects_extract_go rest (some sch) (some u)
            (.tuple [.str (xml_text el), .str sch, .str u] :: acc)

/-- Embedding of MVSubjects.extract_from_xml. -/
def MVSubjects_extract (doc : XNode) : Except PyErr PyVal :=
  match elementsByTag "subjects" doc with
  | [container] => do
      let vs ← MVSubjects_extract_go (elGetElementsByTag "subject" container)
        Option.none Option.none []
      .ok (.list vs)
  | _ => .error .assertionError

/-- The contributor child element built by MVContributors.update_xml. -/
def contributorChild (p : PyVal) : Except PyErr XNode :=
  match p with
  | .tuple [.str t, .str n, .none] =>
      .ok (.element "contributor" [("contributorType", t)]
        [.element "contributorName" [] [.text n]])
  | .tuple [.str t, .str n, .str a] =>
      .ok (.element "contributor" [("contributorType", t)]
        [.element "contributorName" [] [.text n],
         .element "affiliation" [] [.text a]])
  | _ => .error (.typeError "cannot unpack contributor entry")

/-- Embedding of MVContributors.update_xml. -/
def MVContributors_update_xml (value : PyVal) (doc : XNode) : Except PyErr XNode :=
  match value with
  | .list vs =>
      if (elementsByTag "contributors" doc).length = 1 then do
        let children ← pyMapM contributorChild vs
        .ok (mapFirstAtTag "contributors" (appendChildren children) doc).1
      else .error .assertionError
  | _ => .error (.typeError "value is not a list")

/-- One contributor read back by MVContributors.extract_from_xml. -/
def contributorOfEl (el : XNode) : Except PyErr PyVal :=
  match elGetElementsByTag "contributorName" el with
  | [] => .error .indexError
  | nameEl :: _ =>
      match elGetElementsByTag "affiliation" el with
      | [] =>
          .ok (.tuple [.str (getAttrN "contributorType" el),
            .str (xml_text nameEl), .none])
      | affEl :: _ =>
          .ok (.tuple [.str (getAttrN "contributorType" el),
            .str (xml_text nameEl), .str (xml_text affEl)])

/-- Embedding of MVContributors.extract_from_xml. -/
def MVContributors_extract (doc : XNode) : Except PyErr PyVal :=
  match elementsByTag "contributors" doc with
  | [container] => do
      let vs ← pyMapM contributorOfEl (elGetElementsByTag "contributor" container)
      .ok (.list vs)
  | _ => .error .assertionError

/-- The date child element built by MVDates.update_xml. -/
def dateChild (p : PyVal) : Except PyErr XNode :=
  match p with
  | .tuple [.str t, .str d] =>
      .ok (.element "date" [("dateType", t)] [.text d])
  | _ => .error (.typeError "cannot unpack date entry")

/-- Embedding of MVDates.update_xml. -/
def MVDates_update_xml (value : PyVal) (doc : XNode) : Except PyErr XNode :=
  match value with
  | .list vs =>
      if (elementsByTag "dates" doc).length = 1 then do
        let children ← pyMapM dateChild vs
        .ok (mapFirstAtTag "dates" (appendChildren children) doc).1
      else .error .assertionError
  | _ => .error (.typeError "value is not a list")

/-- Embedding of MVDates.extract_from_xml. -/
def MVDates_extract (doc : XNode) : Except PyErr PyVal :=
  match elementsByTag "dates" doc with
  | [container] =>
      .ok (.list ((elGetElementsByTag "date" container).map fun el =>
        .tuple [.str (getAttrN "dateType" el), .str (xml_text el)]))
  | _ => .error .assertionError

/-- Embedding of MVResourceType.update_xml: the canonical string is split on
the first slash, the right part becomes the text of the resourceType element
and the left part its resourceTypeGeneral attribute. -/
def MVResourceType_update_xml (value : PyVal) (doc : XNode) : Except PyErr XNode :=
  match value with
  | .str s =>
      match pySplitOnce "/" s with
      | [p0, p1] =>
          updateUniqueEl "resourceType"
            (fun el => setAttrN "resourceTypeGeneral" p0 (appendChildN (.text p1) el))
            doc
      | _ => .error .indexError
  | _ => .error (.typeError "value is not a string")

/-- Embedding of MVResourceType.extract_from_xml. -/
def MVResourceType_extract (doc : XNode) : Except PyErr PyVal :=
  match elementsByTag "resourceType" doc with
  | [el] => .ok (.str (getAttrN "resourceTypeGeneral" el ++ "/" ++ xml_text el))
  | _ => .error .assertionError

/-- The alternateIdentifier child element built by
MVAlternateIdentifiers.update_xml. -/
def alternateIdentifierChild (p : PyVal) : Except PyErr XNode :=
  match p with
  | .tuple [.str t, .str i] =>
      .ok (.element "alternateIdentifier" [("alternateIdentifierType", t)] [.text i])
  | _ => .error (.typeError "cannot unpack alternateidentifier entry")

/-- Embedding of MVAlternateIdentifiers.update_xml. -/
def MVAlternateIdentifiers_update_xml (value : PyVal) (doc : XNode) :
    Except PyErr XNode :=
  match value with
  | .list vs =>
      if (elementsByTag "alternateIdentifiers" doc).length = 1 then do
        let children ← pyMapM alternateIdentifierChild vs
        .ok (mapFirstAtTag "alternateIdentifiers" (appendChildren children) doc).1
      else .error .assertionError
  | _ => .error (.typeError "value is not a list")

/-- Embedding of MVAlternateIdentifiers.extract_from_xml. -/
def MVAlternateIdentifiers_extract (doc : XNode) : Except PyErr PyVal :=
  match elementsByTag "alternateIdentifiers" doc with
  | [container] =>
      .ok (.list ((elGetElementsByTag "alternateIdentifier" container).map fun el =>
        .tuple [.str (getAttrN "alternateIdentifierType" el), .str (xml_text el)]))
  | _ => .error .assertionError

/-- The relatedIdentifier child element built by
MVRelatedIdentifiers.update_xml. -/
def relatedIdentifierChild (p : PyVal) : Except PyErr XNode :=
  match p with
  | .tuple [.str i, .str t, .str r] =>
      .ok (.element "relatedIdentifier"
        [("relatedIdentifierType", t), ("relationType", r)] [.text i])
  | _ => .error (.typeError "cannot unpack relatedidentifier entry")

/-- Embedding of MVRelatedIdentifiers.update_xml. -/
def MVRelatedIdentifiers_update_xml (value : PyVal) (doc : XNode) :
    Except PyErr XNode :=
  match value with
  | .list vs =>
      if (elementsByTag "relatedIdentifiers" doc).length = 1 then do
        let children ← pyMapM relatedIdentifierChild vs
        .ok (mapFirstAtTag "relatedIdentifiers" (appendChildren children) doc).1
      else .error .assertionError
  | _ => .error (.typeError "value is not a list")

/-- Embedding of MVRelatedIdentifiers.extract_from_xml. -/
def MVRelatedIdentifiers_extract (doc : XNode) : Except PyErr PyVal :=
  match elementsByTag "relatedIdentifiers" doc with
  | [container] =>
      .ok (.list ((elGetElementsByTag "relatedIdentifier" container).map fun el =>
        .tuple [.str (xml_text el), .str (getAttrN "relatedIdentifierType" el),
          .str (getAttrN "relationType" el)]))
  | _ => .error .assertionError

/-- The rights child element built by MVRights.update_xml: the rightsURI
attribute is set only when the canonical URI slot is truthy (not None and
not the empty string). -/
def rightsChild (p : PyVal) : Except PyErr XNode :=
  match p with
  | .tuple [.str r, u] =>
      match u with
      | .none | .str _ =>
          .ok (.element "rights"
            (match pyTruthyAux u with
             | some uv => [("rightsURI", uv)]
             | Option.none => [])
            [.text r])
      | _ => .error (.typeError "rights URI is not a string")
  | _ => .error (.typeError "cannot unpack rights entry")

/-- Embedding of MVRights.update_xml. -/
def MVRights_update_xml (value : PyVal) (doc : XNode) : Except PyErr XNode :=
  match value with
  | .list vs =>
      if (elementsByTag "rightsList" doc).length = 1 then do
        let children ← pyMapM rightsChild vs
        .ok (mapFirstAtTag "rightsList" (appendChildren children) doc).1
      else .error .assertionError
  | _ => .error (.typeError "value is not a list")

/-- Embedding of MVRights.extract_from_xml. -/
def MVRights_extract (doc : XNode) : Except PyErr PyVal :=
  match elementsByTag "rightsList" doc with
  | [container] =>
      .ok (.list ((elGetElementsByTag "rights" container).map fun el =>
        if hasAttrN "rightsURI" el then
          .tuple [.str (xml_text el), .str (getAttrN "rightsURI" el)]
        else
          .tuple [.str (xml_text el), .none]))
  | _ => .error .assertionError

/-- The description child element built by MVDescriptions.update_xml. -/
def descriptionChild (p : PyVal) : Except PyErr XNode :=
  match p with
  | .tuple [.str t, .str d] =>
      .ok (.element "description" [("descriptionType", t)] [.text d])
  | _ => .error (.typeError "cannot unpack description entry")

/-- Embedding of MVDescriptions.update_xml. -/
def MVDescriptions_update_xml (value : PyVal) (doc : XNode) : Except PyErr XNode :=
  match value with
  | .list vs =>
      if (elementsByTag "descriptions" doc).length = 1 then do
        let children ← pyMapM descriptionChild vs
        .ok (mapFirstAtTag "descriptions" (appendChildren children) doc).1
      else .error .assertionError
  | _ => .error (.typeError "value is not a list")

/-- Embedding of MVDescriptions.extract_from_xml: after the uniqueness
assertion on the descriptions container the source iterates over
contributors_el, a name that is not defined anywhere in the function
(metadata_classes.py line 609), so evaluating it raises NameError before any
description is read. -/
def MVDescriptions_extract (doc : XNode) : Except PyErr PyVal :=
  match elementsByTag "descriptions" doc with
  | [_] => .error (.nameError "contributors_el")
  | _ => .error .assertionError

/-- The geoLocation child element built by MVGeoLocations.update_xml. -/
def geoLocationChild (p : PyVal) : Except PyErr XNode :=
  match p with
  | .str v =>
      .ok (.element "geoLocation" [] [.element "geoLocationPlace" [] [.text v]])
  | _ => .error (.typeError "geolocation entry is not a string")

/-- Embedding of MVGeoLocations.update_xml. -/
def MVGeoLocations_update_xml (value : PyVal) (doc : XNode) : Except PyErr XNode :=
  match value with
  | .list vs =>
      if (elementsByTag "geoLocations" doc).length = 1 then do
        let children ← pyMapM geoLocationChild vs
        .ok (mapFirstAtTag "geoLocations" (appendChildren children) doc).1
      else .error .assertionError
  | _ => .error (.typeError "value is not a list")

/-- Embedding of MVGeoLocations.extract_from_xml. -/
def MVGeoLocations_extract (doc : XNode) : Except PyErr PyVal :=
  match elementsByTag "geoLocations" doc with
  | [container] =>
      .ok (.list ((elGetElementsByTag "geoLocationPlace" container).map fun el =>
        .str (xml_text el)))
  | _ => .error .assertionError

/-- A metadata value class as consulted through the metadata_values table:
its class-level mandatory flag, its constructor, its serializer and its
deserializer. -/
structure FieldCodec where
  mandatory : Bool
  init : PyVal → Except PyErr PyVal
  update_xml : PyVal → XNode → Except PyErr XNode
  extract_from_xml : XNode → Except PyErr PyVal

def MVCreators_codec : FieldCodec :=
  ⟨true, MVCreators_init, MVCreators_update_xml, MVCreators_extract⟩

def MVTitle_codec : FieldCodec :=
  ⟨true, MVStringBase_init, MVStringBase_update_xml "title", MVStringBase_extract "title"⟩

def MVPublisher_codec : FieldCodec :=
  ⟨true, MVStringBase_init, MVStringBase_update_xml "publisher",
   MVStringBase_extract "publisher"⟩

def MVPublicationYear_codec : FieldCodec :=
  ⟨true, MVPublicationYear_init, MVStringBase_update_xml "publicationYear",
   MVStringBase_extract "publicationYear"⟩

def MVSubjects_codec : FieldCodec :=
  ⟨false, MVSubjects_init, MVSubjects_update_xml, MVSubjects_extract⟩

def MVContributors_codec : FieldCodec :=
  ⟨false, MVContributors_init, MVContributors_update_xml, MVContributors_extract⟩

def MVDates_codec : FieldCodec :=
  ⟨false, MVDates_init, MVDates_update_xml, MVDates_extract⟩

def MVResourceType_codec : FieldCodec :=
  ⟨false, MVResourceType_init, MVResourceType_update_xml, MVResourceType_extract⟩

def MVAlternateIdentifiers_codec : FieldCodec :=
  ⟨false, MVAlternateIdentifiers_init, MVAlternateIdentifiers_update_xml,
   MVAlternateIdentifiers_extract⟩

def MVRelatedIdentifiers_codec : FieldCodec :=
  ⟨false, MVRelatedIdentifiers_init, MVRelatedIdentifiers_update_xml,
   MVRelatedIdentifiers_extract⟩

def MVSizes_codec : FieldCodec :=
  ⟨false, MVStringListBase_init, MVStringListBase_update_xml "sizes" "size",
   MVStringListBase_extract "sizes" "size"⟩

def MVFormats_codec : FieldCodec :=
  ⟨false, MVStringListBase_init, MVStringListBase_update_xml "formats" "format",
   MVStringListBase_extract "formats" "format"⟩

def MVVersion_codec : FieldCodec :=
  ⟨false, MVStringBase_init, MVStringBase_update_xml "version",
   MVStringBase_extract "version"⟩

def MVRights_codec : FieldCodec :=
  ⟨false, MVRights_init, MVRights_update_xml, MVRights_extract⟩

def MVDescriptions_codec : FieldCodec :=
  ⟨false, MVDescriptions_init, MVDescriptions_update_xml, MVDescriptions_extract⟩

def MVGeoLocations_codec : FieldCodec :=
  ⟨false, MVGeoLocations_init, MVGeoLocations_update_xml, MVGeoLocations_extract⟩

/-- The key-to-value-class table of src/ezid/__init__.py, in the order of the
source dictionary literal (a Python dict iterates in no guaranteed order;
functions whose behaviour could depend on the order are additionally
parameterized by an order below). -/
def metadata_values : List (String × FieldCodec) :=
  [("creators", MVCreators_codec),
   ("title", MVTitle_codec),
   ("publisher", MVPublisher_codec),
   ("publicationyear", MVPublicationYear_codec),
   ("subjects", MVSubjects_codec),
   ("contributors", MVContributors_codec),
   ("dates", MVDates_codec),
   ("resourcetype", MVResourceType_codec),
   ("alternateidentifiers", MVAlternateIdentifiers_codec),
   ("relatedidentifiers", MVRelatedIdentifiers_codec),
   ("sizes", MVSizes_codec),
   ("formats", MVFormats_codec),
   ("version", MVVersion_codec),
   ("rights", MVRights_codec),
   ("descriptions", MVDescriptions_codec),
   ("geolocations", MVGeoLocations_codec)]

/-- Lookup in the metadata_values table. -/
def lookupCodec (k : String) : Option FieldCodec :=
  (metadata_values.find? fun p => p.1 = k).map Prod.snd

/-- The first loop of validate_metadata: reject an unknown key, otherwise
run the value through the constructor of its value class and keep the
canonical value. -/
def validateEntries : List (String × PyVal) → Except PyErr (List (String × PyVal))
  | [] => .ok []
  | (k, v) :: rest =>
      match lookupCodec k with
      | Option.none => .error (.valueError ("unknown metadata key \"" ++ k ++ "\""))
      | some c => do
          let w ← c.init v
          let tail ← validateEntries rest
          .ok ((k, w) :: tail)

/-- The second loop of validate_metadata: the first table entry whose class
is mandatory and whose key is absent from the input. -/
def firstMissingMandatory (keys : List String) : Option String :=
  (metadata_values.find? fun p => p.2.mandatory && !(keys.contains p.1)).map Prod.fst

/-- Embedding of validate_metadata of src/ezid/__init__.py. -/
def validate_metadata (metadata : PyVal) : Except PyErr PyVal :=
  match metadata with
  | .dict kvs => do
      let md2 ← validateEntries kvs
      match firstMissingMandatory (kvs.map Prod.fst) with
      | some key =>
          .error (.valueError ("missing mandatory metadata key \"" ++ key ++ "\""))
      | Option.none => .ok (.dict md2)
  | _ => .error (.typeError "metadata must be a dictionary")

/-- The identifier text written by create_datacite_xml before its field
loop: the to-be-assigned sentinel when the identifier is absent, else doi:
plus the identifier. -/
def idTextOf : Option String → String
  | Option.none => "(:tba)"
  | some i => "doi:" ++ i

/-- The field loop of create_datacite_xml over a given iteration order of
the metadata_values table: for every field present in the metadata mapping,
rebuild the value object through the class constructor and run its
serializer against the working document. -/
def applyCodecs :
    List (String × FieldCodec) → List (String × PyVal) → XNode → Except PyErr XNode
  | [], _, doc => .ok doc
  | (key, c) :: rest, md, doc =>
      match md.find? fun p => p.1 = key with
      | Option.none => applyCodecs rest md doc
      | some kv => do
          let w ← c.init kv.2
          let doc2 ← c.update_xml w doc
          applyCodecs rest md doc2

/-- Embedding of create_datacite_xml up to the final toxml call, for a given
iteration order of the metadata_values table: parse the base template, set
the identifier element text to the sentinel or to doi: plus the identifier,
then run the field loop. -/
def create_datacite_doc_ordered (order : List (String × FieldCodec))
    (identifier : Option String) (metadata : List (String × PyVal)) :
    Except PyErr XNode := do
  let doc0 ← xml_add_text base_doc "identifier" (idTextOf identifier)
  applyCodecs order metadata doc0

/-- Embedding of create_datacite_xml as a document tree, with the table
iterated in source order. -/
def create_datacite_doc (identifier : Option String)
    (metadata : List (String × PyVal)) : Except PyErr XNode :=
  create_datacite_doc_ordered metadata_values identifier metadata

/-- Embedding of create_datacite_xml: the serialized text of the document
tree. -/
def create_datacite_xml (identifier : Option String)
    (metadata : List (String × PyVal)) : Except PyErr String :=
  (create_datacite_doc identifier metadata).map toxml

/-- Embedding of xml_to_metadata on an already parsed document, for a given
iteration order of the metadata_values table: run every deserializer
unconditionally and collect the results keyed by field name (minidom
parseString of text produced by toxml is modelled as the identity on the
tree representation). -/
def xml_to_metadata_doc_ordered (order : List (String × FieldCodec))
    (doc : XNode) : Except PyErr (List (String × PyVal)) :=
  pyMapM (fun p => do
    let v ← p.2.extract_from_xml doc
    pure (p.1, v)) order

/-- Embedding of xml_to_metadata on an already parsed document, with the
table iterated in source order. -/
def xml_to_metadata_doc (doc : XNode) : Except PyErr (List (String × PyVal)) :=
  xml_to_metadata_doc_ordered metadata_values doc

/-- Truthiness of the datacite and landing_page locals of DOI.load: None and
the empty string are falsy. -/
def pyTruthyOptStr : Option String → Bool
  | Option.none => false
  | some s => s ≠ ""

/-- Embedding of the response handling of DOI.load, lines 91 to 107 of
src/ezid/__init__.py: classify the response body and return the
percent-decoded datacite payload and the landing page (the subsequent
xml_to_metadata call is outside this function). -/
def load_response (identifier : String) (content : String) :
    Except PyErr (String × String) :=
  if pyStartsWith content "error:" then
    if decide (pyIn "no such identifier" content) then
      .error (.notFoundError identifier)
    else .error (.requestError (pyStrip (pyDrop content 6)))
  else if !pyStartsWith content "success:" then
    .error (.requestError "no success line in request response")
  else
    let r := (pySplitChar '\n' content).foldl
      (fun acc line =>
        let d := if pyStartsWith line "datacite: " then
          some (pyUnquote (pyDrop line 10)) else acc.1
        let t := if pyStartsWith line "_target: " then
          some (pyDrop line 9) else acc.2
        (d, t))
      ((Option.none : Option String), (Option.none : Option String))
    if !pyTruthyOptStr r.1 then
      .error (.requestError "no datacite field in request response")
    else if !pyTruthyOptStr r.2 then
      .error (.requestError "no landing page in request response")
    else .ok (r.1.getD "", r.2.getD "")

/-- Embedding of the response handling of mint, lines 167 to 178 of
src/ezid/__init__.py: classify the response body and scan the pipe-delimited
remainder for a stripped segment starting with doi:, returning it with the
prefix removed. -/
def mint_response (content : String) : Except PyErr String :=
  if pyStartsWith content "error:" then
    .error (.requestError (pyStrip (pyDrop content 6)))
  else if !pyStartsWith content "success:" then
    .error (.mintError "bad content returned from EZID")
  else
    match ((pySplitChar '|' (pyStrip (pyDrop content 8))).map pyStrip).find?
        (fun part => pyStartsWith part "doi:") with
    | some part => .ok (pyDrop part 4)
    | Option.none => .error (.mintError "no identifier returned from EZID")

/-- Embedding of mint: validation runs first, then the request body is
rendered with an absent identifier (urllib.quote and the line formatting of
_create_request_body never raise and are not modelled), then the transport
response body, taken as an input, is handled. -/
def mint (metadata : PyVal) (body : String) : Except PyErr String := do
  let md2 ← validate_metadata metadata
  match md2 with
  | .dict kvs => do
      let _ ← create_datacite_xml Option.none kvs
      mint_response body
  | _ => .error (.typeError "validated metadata is not a dictionary")

/-- The in-memory state of a DOI instance: its identifier, landing page and
canonical metadata mapping. -/
structure DOIState where
  identifier : String
  landing_page : String
  metadata : List (String × PyVal)
deriving Repr, DecidableEq

/-- Embedding of DOI.update_metadata as a state transformer: the result is
the raised exception, if any, together with the state of the instance after
the call.  The new metadata is validated, the request body is rendered
against the current landing page and identifier (urllib.quote and the line
formatting never raise and are not modelled), the transport posts it and the
response body, taken as an input, is classified; the metadata attribute is
assigned only on a success response. -/
def update_metadata (st : DOIState) (metadata : PyVal) (body : String) :
    Option PyErr × DOIState :=
  match validate_metadata metadata with
  | .error e => (some e, st)
  | .ok (.dict kvs) =>
      match create_datacite_xml (some st.identifier) kvs with
      | .error e => (some e, st)
      | .ok _ =>
          if pyStartsWith body "error:" then
            (some (.requestError (pyStrip (pyDrop body 6))), st)
          else if !pyStartsWith body "success:" then
            (some (.updateError "bad content returned from EZID"), st)
          else (Option.none, { st with metadata := kvs })
  | .ok _ => (some (.typeError "validated metadata is not a dictionary"), st)

/-- Embedding of DOI.update_landing_page as a state transformer: the request
body is rendered against the new landing page and the current identifier and
metadata, and the landing_page attribute is assigned only on a success
response. -/
def update_landing_page (st : DOIState) (landing_page : String) (body : String) :
    Option PyErr × DOIState :=
  match create_datacite_xml (some st.identifier) st.metadata with
  | .error e => (some e, st)
  | .ok _ =>
      if pyStartsWith body "error:" then
        (some (.requestError (pyStrip (pyDrop body 6))), st)
      else if !pyStartsWith body "success:" then
        (some (.updateError "bad content returned from EZID"), st)
      else (Option.none, { st with landing_page := landing_page })

/-- The sixteen container tags, one per entry of the metadata_values table,
in template order. -/
def slotTags : List String :=
  ["creators", "title", "publisher", "publicationYear", "subjects",
   "contributors", "dates", "resourceType", "alternateIdentifiers",
   "relatedIdentifiers", "sizes", "formats", "version", "rightsList",
   "descriptions", "geoLocations"]

/-- Tags that must not occur inside any subtree a serializer appends to its
container, so that tag lookups keep finding the template elements. -/
def cleanTags : List String := "identifier" :: "titles" :: slotTags

mutual

/-- No element with a tag from the given list occurs in the node, the node
itself included. -/
def tagsDisjoint (bad : List String) : XNode → Bool
  | .text _ => true
  | .element t _ cs => !bad.contains t && tagsDisjointL bad cs

def tagsDisjointL (bad : List String) : List XNode → Bool
  | [] => true
  | c :: cs => tagsDisjoint bad c && tagsDisjointL bad cs

end

mutual

theorem tagsDisjoint_elementsByTag (bad : List String) (t : String) (ht : t ∈ bad) :
    ∀ n : XNode, tagsDisjoint bad n = true → elementsByTag t n = []
  | .text _, _ => rfl
  | .element tg a cs, h => by
      unfold tagsDisjoint at h
      rcases Bool.and_eq_true_iff.mp h with ⟨h1, h2⟩
      unfold elementsByTag
      have htg : ¬(tg = t) := by
        intro he
        subst he
        simp at h1
        exact h1 ht
      rw [if_neg htg, tagsDisjointL_elementsByTag bad t ht cs h2]
      simp

theorem tagsDisjointL_elementsByTag (bad : List String) (t : String) (ht : t ∈ bad) :
    ∀ cs : List XNode, tagsDisjointL bad cs = true → elementsByTagL t cs = []
  | [], _ => rfl
  | c :: cs, h => by
      unfold tagsDisjointL at h
      rcases Bool.and_eq_true_iff.mp h with ⟨h1, h2⟩
      unfold elementsByTagL
      rw [tagsDisjoint_elementsByTag bad t ht c h1,
        tagsDisjointL_elementsByTag bad t ht cs h2]
      rfl

end

theorem elementsByTagL_append (t : String) (cs ds : List XNode) :
    elementsByTagL t (cs ++ ds) = elementsByTagL t cs ++ elementsByTagL t ds := by
  induction cs with
  | nil => rfl
  | cons c cs ih => simp [elementsByTagL, ih]

theorem tagsDisjointL_append (bad : List String) (cs ds : List XNode) :
    tagsDisjointL bad (cs ++ ds) = (tagsDisjointL bad cs && tagsDisjointL bad ds) := by
  induction cs with
  | nil => simp [tagsDisjointL]
  | cons c cs ih => simp [tagsDisjointL, ih, Bool.and_assoc]

/-- Application of a recorded sequence of setAttribute operations. -/
def applyAttrs (new : List (String × String)) (attrs : List (String × String)) :
    List (String × String) :=
  new.foldl (fun acc p => setAttrL p.1 p.2 acc) attrs

theorem applyAttrs_append (a b base : List (String × String)) :
    applyAttrs (a ++ b) base = applyAttrs b (applyAttrs a base) := by
  simp [applyAttrs, List.foldl_append]

/-- The state of one container element of the working document: the
setAttribute operations applied to it and the children appended to it since
the template was parsed. -/
def SlotFun : Type := String → List (String × String) × List XNode

/-- The container element with a given tag under the slot assignment. -/
def slotEl (f : SlotFun) (tag : String) : XNode :=
  .element tag (applyAttrs (f tag).1 []) ((f tag).2)

/-- The working document determined by the identifier element text and a
slot assignment: the base template with each container rewritten by its
slot.  Every intermediate document of create_datacite_xml has this shape. -/
def applySlots (idText : String) (f : SlotFun) : XNode :=
  .element "resource"
    [("xmlns", "http://datacite.org/schema/kernel-3"),
     ("xmlns:xsi", "http://www.w3.org/2001/XMLSchema-instance"),
     ("xsi:schemaLocation",
      "http://datacite.org/schema/kernel-3 http://schema.datacite.org/meta/kernel-3/metadata.xsd")]
    [.text "\n  ", .element "identifier" [("identifierType", "DOI")] [.text idText],
     .text "\n  ", slotEl f "creators",
     .text "\n  ", .element "titles" [] [.text "\n    ", slotEl f "title", .text "\n  "],
     .text "\n  ", slotEl f "publisher",
     .text "\n  ", slotEl f "publicationYear",
     .text "\n  ", slotEl f "subjects",
     .text "\n  ", slotEl f "contributors",
     .text "\n  ", slotEl f "dates",
     .text "\n  ", slotEl f "resourceType",
     .text "\n  ", slotEl f "alternateIdentifiers",
     .text "\n  ", slotEl f "relatedIdentifiers",
     .text "\n  ", slotEl f "sizes",
     .text "\n  ", slotEl f "formats",
     .text "\n  ", slotEl f "version",
     .text "\n  ", slotEl f "rightsList",
     .text "\n  ", slotEl f "descriptions",
     .text "\n  ", slotEl f "geoLocations",
     .text "\n"]

/-- The empty slot assignment: the template untouched. -/
def slotNil : SlotFun := fun _ => ([], [])

/-- Record further setAttribute operations and appended children on the slot
of one tag. -/
def slotUpdate (f : SlotFun) (t : String) (eff : List (String × String) × List XNode) :
    SlotFun :=
  fun tag => if tag = t then ((f t).1 ++ eff.1, (f t).2 ++ eff.2) else f tag

/-- No slot holds children that contain a clean tag, so every tag lookup of
the working document still resolves to the template elements. -/
def SlotsClean (f : SlotFun) : Prop :=
  ∀ tag t2, t2 ∈ cleanTags → elementsByTagL t2 (f tag).2 = []

theorem xml_add_text_base_doc (identifier : Option String) :
    xml_add_text base_doc "identifier" (idTextOf identifier) =
      .ok (applySlots (idTextOf identifier) slotNil) := by
  cases identifier <;> rfl

theorem elementsByTag_applySlots (t : String) (ht : t ∈ slotTags) (idText : String)
    (f : SlotFun) (hcl : SlotsClean f) :
    elementsByTag t (applySlots idText f) = [slotEl f t] := by
  have hsub : ∀ x ∈ slotTags, x ∈ cleanTags := by decide
  have h : ∀ tag, elementsByTagL t (f tag).2 = [] := fun tag => hcl tag t (hsub t ht)
  fin_cases ht <;>
    simp [applySlots, slotEl, elementsByTag, elementsByTagL, h]

theorem elementsByTag_applySlots_identifier (idText : String) (f : SlotFun)
    (hcl : SlotsClean f) :
    elementsByTag "identifier" (applySlots idText f) =
      [.element "identifier" [("identifierType", "DOI")] [.text idText]] := by
  have h : ∀ tag, elementsByTagL "identifier" (f tag).2 = [] := fun tag =>
    hcl tag "identifier" (by decide)
  simp [applySlots, slotEl, elementsByTag, elementsByTagL, h]

mutual

theorem mapFirstAtTag_of_empty (t : String) (g : XNode → XNode) :
    ∀ n : XNode, elementsByTag t n = [] → mapFirstAtTag t g n = (n, false)
  | .text d, _ => by simp [mapFirstAtTag]
  | .element tg a cs, h => by
      unfold elementsByTag at h
      unfold mapFirstAtTag
      by_cases hc : tg = t
      · simp [hc] at h
      · simp only [if_neg hc] at h ⊢
        simp at h
        rw [mapFirstAtTagL_of_empty t g cs h]

theorem mapFirstAtTagL_of_empty (t : String) (g : XNode → XNode) :
    ∀ cs : List XNode, elementsByTagL t cs = [] → mapFirstAtTagL t g cs = (cs, false)
  | [], _ => by simp [mapFirstAtTagL]
  | c :: cs, h => by
      unfold elementsByTagL at h
      rcases List.append_eq_nil.mp h with ⟨h1, h2⟩
      unfold mapFirstAtTagL
      rw [mapFirstAtTag_of_empty t g c h1, mapFirstAtTagL_of_empty t g cs h2]
      simp

end

theorem mapFirstAtTag_applySlots (t : String) (ht : t ∈ slotTags)
    (g : XNode → XNode) (idText : String) (f f2 : SlotFun) (hcl : SlotsClean f)
    (hg : g (slotEl f t) = slotEl f2 t)
    (hoff : ∀ tag, ¬(tag = t) → f2 tag = f tag) :
    (mapFirstAtTag t g (applySlots idText f)).1 = applySlots idText f2 := by
  have hsub : ∀ x ∈ slotTags, x ∈ cleanTags := by decide
  have hemp : ∀ tag, mapFirstAtTagL t g (f tag).2 = ((f tag).2, false) := fun tag =>
    mapFirstAtTagL_of_empty t g _ (hcl tag t (hsub t ht))
  fin_cases ht <;>
    (simp [applySlots, slotEl, mapFirstAtTag, mapFirstAtTagL, hemp, hoff];
     simpa [slotEl] using hg)

theorem mapM_ok_of_forall {α β : Type} (f : α → Except PyErr β) :
    ∀ xs : List α, (∀ x ∈ xs, ∃ y, f x = .ok y) → ∃ ys, pyMapM f xs = .ok ys
  | [], _ => ⟨[], rfl⟩
  | x :: xs, h => by
      rcases h x (by simp) with ⟨y, hy⟩
      rcases mapM_ok_of_forall f xs (fun a ha => h a (by simp [ha])) with ⟨ys, hys⟩
      exact ⟨y :: ys, by simp [pyMapM, hy, hys]⟩

theorem mapM_mem {α β : Type} (f : α → Except PyErr β) :
    ∀ (xs : List α) (ys : List β), pyMapM f xs = .ok ys →
      ∀ y ∈ ys, ∃ x ∈ xs, f x = .ok y
  | [], ys, h => by
      simp [pyMapM] at h
      subst h
      intro y hy
      simp at hy
  | x :: xs, ys, h => by
      unfold pyMapM at h
      rcases hx : f x with e | y0 <;> rw [hx] at h <;> simp at h
      rcases hxs : pyMapM f xs with e | ys0 <;> rw [hxs] at h <;> simp at h
      subst h
      intro y hy
      rcases List.mem_cons.mp hy with hy | hy
      · exact ⟨x, by simp, by rw [hx, hy]⟩
      · rcases mapM_mem f xs ys0 hxs y hy with ⟨x2, hx2, hfx2⟩
        exact ⟨x2, by simp [hx2], hfx2⟩

theorem mapM_id_of_forall {α : Type} (f : α → Except PyErr α) :
    ∀ xs : List α, (∀ x ∈ xs, f x = .ok x) → pyMapM f xs = .ok xs
  | [], _ => rfl
  | x :: xs, h => by
      have hx := h x (by simp)
      have hxs := mapM_id_of_forall f xs (fun a ha => h a (by simp [ha]))
      simp [pyMapM, hx, hxs]

theorem SlotsClean_slotNil : SlotsClean slotNil := by
  intro tag t2 _
  rfl

theorem SlotsClean_slotUpdate (f : SlotFun) (t : String)
    (eff : List (String × String) × List XNode) (hcl : SlotsClean f)
    (hd : tagsDisjointL cleanTags eff.2 = true) : SlotsClean (slotUpdate f t eff) := by
  intro tag t2 ht2
  unfold slotUpdate
  by_cases htag : tag = t
  · simp only [if_pos htag]
    rw [elementsByTagL_append, hcl t t2 ht2,
      tagsDisjointL_elementsByTag cleanTags t2 ht2 eff.2 hd]
    rfl
  · simp only [if_neg htag]
    exact hcl tag t2 ht2

/-- Canonical shape of one creators entry. -/
def CreatorPair (w : PyVal) : Prop :=
  (∃ s, w = .tuple [.str s, .none]) ∨ ∃ s a, w = .tuple [.str s, .str a]

theorem MVCreators_elem_shape (x w : PyVal) (h : MVCreators_elem x = .ok w) :
    CreatorPair w := by
  unfold MVCreators_elem at h
  rcases x with s | n | _ | ys | ys | kvs <;> simp at h
  · exact Or.inl ⟨s, h.symm⟩
  all_goals
    rcases ys with _ | ⟨y0, _ | ⟨y1, _ | _⟩⟩ <;> simp at h
  all_goals
    rcases y0 with s0 | _ | _ | _ | _ | _ <;> simp [PyVal.isStr] at h
  all_goals
    rcases y1 with s1 | _ | _ | _ | _ | _ <;> simp [PyVal.isNoneOrStr] at h
  · exact Or.inr ⟨s0, s1, h.symm⟩
  · exact Or.inl ⟨s0, h.symm⟩
  · exact Or.inr ⟨s0, s1, h.symm⟩
  · exact Or.inl ⟨s0, h.symm⟩

theorem MVCreators_elem_idem (w : PyVal) (h : CreatorPair w) :
    MVCreators_elem w = .ok w := by
  rcases h with ⟨s, rfl⟩ | ⟨s, a, rfl⟩ <;> rfl

theorem creatorChild_ok (w : PyVal) (h : CreatorPair w) :
    ∃ n, creatorChild w = .ok n ∧ tagsDisjoint cleanTags n = true ∧
      elementsByTag "creator" n = [n] ∧
      elGetElementsByTag "creatorName" n ≠ [] := by
  rcases h with ⟨s, rfl⟩ | ⟨s, a, rfl⟩
  · exact ⟨_, rfl, rfl, rfl, by simp [elGetElementsByTag, elementsByTagL, elementsByTag]⟩
  · exact ⟨_, rfl, rfl, rfl, by simp [elGetElementsByTag, elementsByTagL, elementsByTag]⟩

theorem MVCreators_init_canon (v w : PyVal) (h : MVCreators_init v = .ok w) :
    ∃ ws, w = .list ws ∧ ∀ p ∈ ws, CreatorPair p := by
  unfold MVCreators_init at h
  rcases v with _ | _ | _ | xs | xs | _ <;> simp at h
  all_goals
    rcases hm : pyMapM MVCreators_elem xs with e | ws <;> rw [hm] at h <;> simp at h
  all_goals
    exact ⟨ws, h.symm, fun p hp => by
      rcases mapM_mem _ xs ws hm p hp with ⟨x, _, hx⟩
      exact MVCreators_elem_shape x p hx⟩

theorem MVCreators_init_idem (ws : List PyVal) (h : ∀ p ∈ ws, CreatorPair p) :
    MVCreators_init (.list ws) = .ok (.list ws) := by
  unfold MVCreators_init
  simp [mapM_id_of_forall _ ws (fun p hp => MVCreators_elem_idem p (h p hp))]

theorem appendChildN_eq_appendChildren (c : XNode) :
    appendChildN c = appendChildren [c] := by
  funext n
  cases n <;> rfl

theorem pyMapM_ok_or_const {α : Type} (f : α → Except PyErr α) (e : PyErr) :
    ∀ xs : List α, (∀ x ∈ xs, f x = .ok x ∨ f x = .error e) →
      pyMapM f xs = .ok xs ∨ pyMapM f xs = .error e
  | [], _ => Or.inl rfl
  | x :: xs, h => by
      rcases h x (by simp) with hx | hx
      · rcases pyMapM_ok_or_const f e xs (fun a ha => h a (by simp [ha])) with hxs | hxs
        · exact Or.inl (by simp [pyMapM, hx, hxs])
        · exact Or.inr (by simp [pyMapM, hx, hxs])
      · exact Or.inr (by simp [pyMapM, hx])

theorem container_update_sim (t : String) (ht : t ∈ slotTags) (idText : String)
    (f : SlotFun) (hcl : SlotsClean f) (cs : List XNode) :
    (elementsByTag t (applySlots idText f)).length = 1 ∧
    (mapFirstAtTag t (appendChildren cs) (applySlots idText f)).1 =
      applySlots idText (slotUpdate f t ([], cs)) := by
  refine ⟨by rw [elementsByTag_applySlots t ht idText f hcl]; rfl, ?_⟩
  apply mapFirstAtTag_applySlots t ht _ idText f _ hcl
  · simp [appendChildren, slotEl, slotUpdate]
  · intro tag htag
    simp [slotUpdate, htag]

theorem MVStringBase_update_sim (tag : String) (ht : tag ∈ slotTags)
    (idText : String) (f : SlotFun) (hcl : SlotsClean f) (s : String) :
    MVStringBase_update_xml tag (.str s) (applySlots idText f) =
      .ok (applySlots idText (slotUpdate f tag ([], [.text s]))) := by
  have h := container_update_sim tag ht idText f hcl [.text s]
  unfold MVStringBase_update_xml xml_add_text updateUniqueEl
  simp [appendChildN_eq_appendChildren, h.1, h.2]

/-- Canonical shape of a plain string field value. -/
def StrVal (w : PyVal) : Prop := ∃ s, w = .str s

theorem MVStringBase_init_canon (v w : PyVal) (h : MVStringBase_init v = .ok w) :
    StrVal w ∧ v = w := by
  unfold MVStringBase_init at h
  rcases v with s | _ | _ | _ | _ | _ <;> simp at h
  exact ⟨⟨s, h.symm⟩, h⟩

theorem MVStringBase_init_idem (s : String) :
    MVStringBase_init (.str s) = .ok (.str s) := rfl

/-- Canonical shape of the publicationyear value. -/
def YearVal (w : PyVal) : Prop := ∃ s, w = .str s ∧ pyYearMatch s = true

theorem MVPublicationYear_init_canon (v w : PyVal)
    (h : MVPublicationYear_init v = .ok w) : YearVal w ∧ v = w := by
  unfold MVPublicationYear_init at h
  rcases v with s | _ | _ | _ | _ | _ <;> simp at h
  rcases hm : pyYearMatch s with _ | _ <;> rw [hm] at h <;> simp at h
  exact ⟨⟨s, h.symm, hm⟩, h⟩

theorem MVPublicationYear_init_idem (w : PyVal) (h : YearVal w) :
    MVPublicationYear_init w = .ok w := by
  rcases h with ⟨s, rfl, hm⟩
  unfold MVPublicationYear_init
  simp [hm]

/-- Canonical shape of a string-list field value. -/
def StrListVal (w : PyVal) : Prop :=
  ∃ ws, w = .list ws ∧ ∀ p ∈ ws, StrVal p

theorem stringListItem_shape (x w : PyVal) (h : stringListItem x = .ok w) :
    StrVal w := by
  unfold stringListItem at h
  rcases x with s | _ | _ | _ | _ | _ <;> simp at h
  exact ⟨s, h.symm⟩

theorem stringListItem_idem (w : PyVal) (h : StrVal w) :
    stringListItem w = .ok w := by
  rcases h with ⟨s, rfl⟩
  rfl

theorem MVStringListBase_init_canon (v w : PyVal)
    (h : MVStringListBase_init v = .ok w) : StrListVal w := by
  unfold MVStringListBase_init at h
  rcases v with _ | _ | _ | xs | xs | _ <;> simp at h
  all_goals
    rcases hm : pyMapM stringListItem xs with e | ws <;> rw [hm] at h <;> simp at h
  all_goals
    exact ⟨ws, h.symm, fun p hp => by
      rcases mapM_mem _ xs ws hm p hp with ⟨x, _, hx⟩
      exact stringListItem_shape x p hx⟩

theorem MVStringListBase_init_idem (ws : List PyVal) (h : ∀ p ∈ ws, StrVal p) :
    MVStringListBase_init (.list ws) = .ok (.list ws) := by
  unfold MVStringListBase_init
  simp [mapM_id_of_forall _ ws (fun p hp => stringListItem_idem p (h p hp))]

theorem stringListChild_ok (tag : String) (htag : tag ∉ cleanTags)
    (w : PyVal) (h : StrVal w) :
    ∃ n, stringListChild tag w = .ok n ∧ tagsDisjoint cleanTags n = true := by
  rcases h with ⟨s, rfl⟩
  exact ⟨_, rfl, by simp [tagsDisjoint, tagsDisjointL, htag]⟩

theorem MVStringListBase_update_sim (containerTag tag : String)
    (ht : containerTag ∈ slotTags) (idText : String) (f : SlotFun)
    (hcl : SlotsClean f) (ws : List PyVal) (cs : List XNode)
    (hm : pyMapM (stringListChild tag) ws = .ok cs) :
    MVStringListBase_update_xml containerTag tag (.list ws) (applySlots idText f) =
      .ok (applySlots idText (slotUpdate f containerTag ([], cs))) := by
  have h := container_update_sim containerTag ht idText f hcl cs
  unfold MVStringListBase_update_xml
  simp only [if_pos h.1, hm, except_bind_ok, h.2]

theorem MVCreators_update_sim (idText : String) (f : SlotFun) (hcl : SlotsClean f)
    (ws : List PyVal) (cs : List XNode) (hm : pyMapM creatorChild ws = .ok cs) :
    MVCreators_update_xml (.list ws) (applySlots idText f) =
      .ok (applySlots idText (slotUpdate f "creators" ([], cs))) := by
  have h := container_update_sim "creators" (by decide) idText f hcl cs
  unfold MVCreators_update_xml
  simp only [if_pos h.1, hm, except_bind_ok, h.2]

/-- Canonical shape of one geolocations entry. -/
theorem geoLocationItem_shape (x w : PyVal) (h : geoLocationItem x = .ok w) :
    StrVal w := by
  unfold geoLocationItem at h
  rcases x with s | _ | _ | _ | _ | _ <;> simp at h
  exact ⟨s, h.symm⟩

theorem geoLocationItem_idem (w : PyVal) (h : StrVal w) :
    geoLocationItem w = .ok w := by
  rcases h with ⟨s, rfl⟩
  rfl

theorem MVGeoLocations_init_canon (v w : PyVal)
    (h : MVGeoLocations_init v = .ok w) : StrListVal w := by
  unfold MVGeoLocations_init at h
  rcases v with _ | _ | _ | xs | xs | _ <;> simp at h
  all_goals
    rcases hm : pyMapM geoLocationItem xs with e | ws <;> rw [hm] at h <;> simp at h
  all_goals
    exact ⟨ws, h.symm, fun p hp => by
      rcases mapM_mem _ xs ws hm p hp with ⟨x, _, hx⟩
      exact geoLocationItem_shape x p hx⟩

theorem MVGeoLocations_init_idem (ws : List PyVal) (h : ∀ p ∈ ws, StrVal p) :
    MVGeoLocations_init (.list ws) = .ok (.list ws) := by
  unfold MVGeoLocations_init
  simp [mapM_id_of_forall _ ws (fun p hp => geoLocationItem_idem p (h p hp))]

theorem geoLocationChild_ok (w : PyVal) (h : StrVal w) :
    ∃ n, geoLocationChild w = .ok n ∧ tagsDisjoint cleanTags n = true := by
  rcases h with ⟨s, rfl⟩
  exact ⟨_, rfl, rfl⟩

theorem MVGeoLocations_update_sim (idText : String) (f : SlotFun)
    (hcl : SlotsClean f) (ws : List PyVal) (cs : List XNode)
    (hm : pyMapM geoLocationChild ws = .ok cs) :
    MVGeoLocations_update_xml (.list ws) (applySlots idText f) =
      .ok (applySlots idText (slotUpdate f "geoLocations" ([], cs))) := by
  have h := container_update_sim "geoLocations" (by decide) idText f hcl cs
  unfold MVGeoLocations_update_xml
  simp only [if_pos h.1, hm, except_bind_ok, h.2]

theorem isStr_cases (w : PyVal) (h : w.isStr = true) : ∃ s, w = .str s := by
  rcases w with s | _ | _ | _ | _ | _ <;> simp [PyVal.isStr] at h
  exact ⟨s, rfl⟩

theorem isNoneOrStr_cases (w : PyVal) (h : w.isNoneOrStr = true) :
    w = .none ∨ ∃ s, w = .str s := by
  rcases w with s | _ | _ | _ | _ | _ <;> simp [PyVal.isNoneOrStr] at h
  · exact Or.inr ⟨s, rfl⟩
  · exact Or.inl rfl

/-- The error raised by the subjects element check. -/
def subjectsSeqErr : PyErr :=
  .valueError "subjects elements must be strings or 2- or 3-tuples of strings"

/-- Canonical shape of one subjects entry: the scheme slot is None exactly
when the entry was given as a bare string, which is what makes the subjects
constructor reject its own canonical output. -/
def SubjTriple (w : PyVal) : Prop :=
  ∃ s sch uri, w = .tuple [.str s, sch, uri] ∧
    sch.isNoneOrStr = true ∧ uri.isNoneOrStr = true

theorem MVSubjects_elem_shape (x w : PyVal) (h : MVSubjects_elem x = .ok w) :
    SubjTriple w := by
  unfold MVSubjects_elem at h
  rcases x with s | n | _ | ys | ys | kvs <;> simp at h
  · exact ⟨s, .none, .none, h.symm, rfl, rfl⟩
  all_goals
    rcases ys with _ | ⟨y0, _ | ⟨y1, _ | ⟨y2, _ | _⟩⟩⟩ <;> simp at h
  all_goals
    rcases hy0 : y0.isStr with _ | _ <;> rw [hy0] at h <;> simp at h
  all_goals
    rcases hy1 : y1.isStr with _ | _ <;> rw [hy1] at h <;> simp at h
  all_goals
    rcases isStr_cases y0 hy0 with ⟨s0, rfl⟩
  all_goals
    rcases isStr_cases y1 hy1 with ⟨s1, rfl⟩
  all_goals
    try (rcases hy2 : y2.isNoneOrStr with _ | _ <;> rw [hy2] at h <;> simp at h)
  · exact ⟨s0, .str s1, .none, h.symm, rfl, rfl⟩
  · exact ⟨s0, .str s1, y2, h.symm, rfl, hy2⟩
  · exact ⟨s0, .str s1, .none, h.symm, rfl, rfl⟩
  · exact ⟨s0, .str s1, y2, h.symm, rfl, hy2⟩

theorem MVSubjects_elem_idem_or (w : PyVal) (h : SubjTriple w) :
    MVSubjects_elem w = .ok w ∨ MVSubjects_elem w = .error subjectsSeqErr := by
  rcases h with ⟨s, sch, uri, rfl, hsch, huri⟩
  rcases isNoneOrStr_cases sch hsch with rfl | ⟨s2, rfl⟩
  · exact Or.inr rfl
  · rcases isNoneOrStr_cases uri huri with rfl | ⟨s3, rfl⟩
    · exact Or.inl rfl
    · exact Or.inl rfl

theorem MVSubjects_init_canon (v w : PyVal) (h : MVSubjects_init v = .ok w) :
    ∃ ws, w = .list ws ∧ ∀ p ∈ ws, SubjTriple p := by
  unfold MVSubjects_init at h
  rcases v with _ | _ | _ | xs | xs | _ <;> simp at h
  all_goals
    rcases hm : pyMapM MVSubjects_elem xs with e | ws <;> rw [hm] at h <;> simp at h
  all_goals
    exact ⟨ws, h.symm, fun p hp => by
      rcases mapM_mem _ xs ws hm p hp with ⟨x, _, hx⟩
      exact MVSubjects_elem_shape x p hx⟩

theorem MVSubjects_init_idem_or (ws : List PyVal) (h : ∀ p ∈ ws, SubjTriple p) :
    MVSubjects_init (.list ws) = .ok (.list ws) ∨
    MVSubjects_init (.list ws) = .error subjectsSeqErr := by
  unfold MVSubjects_init
  rcases pyMapM_ok_or_const MVSubjects_elem subjectsSeqErr ws
      (fun p hp => MVSubjects_elem_idem_or p (h p hp)) with hm | hm
  · exact Or.inl (by simp [hm])
  · exact Or.inr (by simp [hm])

theorem MVSubjects_update_sim (idText : String) (f : SlotFun) (hcl : SlotsClean f)
    (ws : List PyVal) :
    MVSubjects_update_xml (.list ws) (applySlots idText f) =
      .ok (applySlots idText f) := by
  unfold MVSubjects_update_xml
  rw [elementsByTag_applySlots "subjects" (by decide) idText f hcl]
  rfl

/-- Canonical shape of one contributors entry. -/
def ContribTriple (w : PyVal) : Prop :=
  ∃ t n a, w = .tuple [.str t, .str n, a] ∧ a.isNoneOrStr = true

theorem MVContributors_check_shape (t n a w : PyVal)
    (h : MVContributors_elem.MVContributors_check t n a = .ok w) : ContribTriple w := by
  unfold MVContributors_elem.MVContributors_check at h
  rcases ht : t.isStr with _ | _ <;> rw [ht] at h <;> simp at h
  rcases hn : n.isStr with _ | _ <;> rw [hn] at h <;> simp at h
  rcases ha : a.isNoneOrStr with _ | _ <;> rw [ha] at h <;> simp at h
  rcases isStr_cases t ht with ⟨s0, rfl⟩
  rcases isStr_cases n hn with ⟨s1, rfl⟩
  exact ⟨s0, s1, a, h.symm, ha⟩

theorem MVContributors_elem_shape (x w : PyVal) (h : MVContributors_elem x = .ok w) :
    ContribTriple w := by
  unfold MVContributors_elem at h
  rcases x with s | n | _ | ys | ys | kvs <;> simp at h
  all_goals
    rcases ys with _ | ⟨y0, _ | ⟨y1, _ | ⟨y2, _ | _⟩⟩⟩ <;> simp at h
  all_goals
    exact MVContributors_check_shape _ _ _ w h

theorem MVContributors_elem_idem (w : PyVal) (h : ContribTriple w) :
    MVContributors_elem w = .ok w := by
  rcases h with ⟨t, n, a, rfl, ha⟩
  rcases isNoneOrStr_cases a ha with rfl | ⟨s, rfl⟩ <;> rfl

theorem contributorChild_ok (w : PyVal) (h : ContribTriple w) :
    ∃ n2, contributorChild w = .ok n2 ∧ tagsDisjoint cleanTags n2 = true ∧
      elementsByTag "contributor" n2 = [n2] ∧
      elGetElementsByTag "contributorName" n2 ≠ [] := by
  rcases h with ⟨t, n, a, rfl, ha⟩
  rcases isNoneOrStr_cases a ha with rfl | ⟨s, rfl⟩
  · exact ⟨_, rfl, rfl, rfl, by simp [elGetElementsByTag, elementsByTagL, elementsByTag]⟩
  · exact ⟨_, rfl, rfl, rfl, by simp [elGetElementsByTag, elementsByTagL, elementsByTag]⟩

theorem MVContributors_init_canon (v w : PyVal) (h : MVContributors_init v = .ok w) :
    ∃ ws, w = .list ws ∧ ∀ p ∈ ws, ContribTriple p := by
  unfold MVContributors_init at h
  rcases v with _ | _ | _ | xs | xs | _ <;> simp at h
  all_goals
    rcases hm : pyMapM MVContributors_elem xs with e | ws <;> rw [hm] at h <;> simp at h
  all_goals
    exact ⟨ws, h.symm, fun p hp => by
      rcases mapM_mem _ xs ws hm p hp with ⟨x, _, hx⟩
      exact MVContributors_elem_shape x p hx⟩

theorem MVContributors_init_idem (ws : List PyVal) (h : ∀ p ∈ ws, ContribTriple p) :
    MVContributors_init (.list ws) = .ok (.list ws) := by
  unfold MVContributors_init
  simp [mapM_id_of_forall _ ws (fun p hp => MVContributors_elem_idem p (h p hp))]

theorem MVContributors_update_sim (idText : String) (f : SlotFun)
    (hcl : SlotsClean f) (ws : List PyVal) (cs : List XNode)
    (hm : pyMapM contributorChild ws = .ok cs) :
    MVContributors_update_xml (.list ws) (applySlots idText f) =
      .ok (applySlots idText (slotUpdate f "contributors" ([], cs))) := by
  have h := container_update_sim "contributors" (by decide) idText f hcl cs
  unfold MVContributors_update_xml
  simp only [if_pos h.1, hm, except_bind_ok, h.2]

/-- Canonical shape of one dates entry. -/
def DatePair (w : PyVal) : Prop :=
  ∃ t d, w = .tuple [.str t, .str d] ∧ t ∈ datetype_values

theorem MVDates_elem_shape (x w : PyVal) (h : MVDates_elem x = .ok w) :
    DatePair w := by
  unfold MVDates_elem at h
  rcases x with s | n | _ | ys | ys | kvs <;> simp at h
  all_goals
    rcases hall : ys.all PyVal.isStr with _ | _ <;> rw [hall] at h <;> simp at h
  all_goals
    rcases ys with _ | ⟨y0, _ | ⟨y1, _ | _⟩⟩ <;> try simp at h
  all_goals
    simp [List.all_cons] at hall
  all_goals
    rcases isStr_cases y0 hall.1 with ⟨s0, rfl⟩
  all_goals
    by_cases hmem : s0 ∈ datetype_values <;> simp [hmem] at h
  all_goals
    rcases isStr_cases y1 hall.2 with ⟨s1, rfl⟩
  all_goals
    exact ⟨s0, s1, h.symm, hmem⟩

theorem MVDates_elem_idem (w : PyVal) (h : DatePair w) :
    MVDates_elem w = .ok w := by
  rcases h with ⟨t, d, rfl, hmem⟩
  unfold MVDates_elem
  simp [hmem, PyVal.isStr]

theorem dateChild_ok (w : PyVal) (h : DatePair w) :
    ∃ n, dateChild w = .ok n ∧ tagsDisjoint cleanTags n = true := by
  rcases h with ⟨t, d, rfl, _⟩
  exact ⟨_, rfl, rfl⟩

theorem MVDates_init_canon (v w : PyVal) (h : MVDates_init v = .ok w) :
    ∃ ws, w = .list ws ∧ ∀ p ∈ ws, DatePair p := by
  unfold MVDates_init at h
  rcases v with _ | _ | _ | xs | xs | _ <;> simp at h
  all_goals
    rcases hm : pyMapM MVDates_elem xs with e | ws <;> rw [hm] at h <;> simp at h
  all_goals
    exact ⟨ws, h.symm, fun p hp => by
      rcases mapM_mem _ xs ws hm p hp with ⟨x, _, hx⟩
      exact MVDates_elem_shape x p hx⟩

theorem MVDates_init_idem (ws : List PyVal) (h : ∀ p ∈ ws, DatePair p) :
    MVDates_init (.list ws) = .ok (.list ws) := by
  unfold MVDates_init
  simp [mapM_id_of_forall _ ws (fun p hp => MVDates_elem_idem p (h p hp))]

theorem MVDates_update_sim (idText : String) (f : SlotFun) (hcl : SlotsClean f)
    (ws : List PyVal) (cs : List XNode) (hm : pyMapM dateChild ws = .ok cs) :
    MVDates_update_xml (.list ws) (applySlots idText f) =
      .ok (applySlots idText (slotUpdate f "dates" ([], cs))) := by
  have h := container_update_sim "dates" (by decide) idText f hcl cs
  unfold MVDates_update_xml
  simp only [if_pos h.1, hm, except_bind_ok, h.2]

/-- Canonical shape of the resourcetype value. -/
def RTVal (w : PyVal) : Prop :=
  ∃ s p0 p1, w = .str s ∧ pySplitOnce "/" s = [p0, p1] ∧
    p0 ∈ resourcetypegeneral_values

theorem MVResourceType_init_canon (v w : PyVal)
    (h : MVResourceType_init v = .ok w) : RTVal w ∧ v = w := by
  unfold MVResourceType_init at h
  rcases v with s | _ | _ | _ | _ | _ <;> simp at h
  rcases hsp : pySplitOnce "/" s with _ | ⟨p0, _ | ⟨p1, _ | _⟩⟩ <;>
    rw [hsp] at h <;> simp at h
  by_cases hmem : p0 ∈ resourcetypegeneral_values <;> simp [hmem] at h
  exact ⟨⟨s, p0, p1, h.symm, hsp, hmem⟩, h⟩

theorem MVResourceType_init_idem (w : PyVal) (h : RTVal w) :
    MVResourceType_init w = .ok w := by
  rcases h with ⟨s, p0, p1, rfl, hsp, hmem⟩
  unfold MVResourceType_init
  simp [hsp, hmem]

theorem MVResourceType_update_sim (idText : String) (f : SlotFun)
    (hcl : SlotsClean f) (s p0 p1 : String) (hsp : pySplitOnce "/" s = [p0, p1]) :
    MVResourceType_update_xml (.str s) (applySlots idText f) =
      .ok (applySlots idText
        (slotUpdate f "resourceType" ([("resourceTypeGeneral", p0)], [.text p1]))) := by
  have h1 := elementsByTag_applySlots "resourceType" (by decide) idText f hcl
  have h2 : (mapFirstAtTag "resourceType"
      (fun el => setAttrN "resourceTypeGeneral" p0 (appendChildN (.text p1) el))
      (applySlots idText f)).1 =
      applySlots idText
        (slotUpdate f "resourceType" ([("resourceTypeGeneral", p0)], [.text p1])) := by
    apply mapFirstAtTag_applySlots "resourceType" (by decide) _ idText f _ hcl
    · simp [setAttrN, appendChildN, slotEl, slotUpdate, applyAttrs_append, applyAttrs]
    · intro tag htag
      simp [slotUpdate, htag]
  unfold MVResourceType_update_xml updateUniqueEl
  simp [hsp, h1, h2]

/-- Canonical shape of one alternateidentifiers entry. -/
def AltPair (w : PyVal) : Prop := ∃ t i, w = .tuple [.str t, .str i]

theorem MVAlternateIdentifiers_elem_shape (x w : PyVal)
    (h : MVAlternateIdentifiers_elem x = .ok w) : AltPair w := by
  unfold MVAlternateIdentifiers_elem at h
  rcases x with s | n | _ | ys | ys | kvs <;> simp at h
  all_goals
    rcases hall : ys.all PyVal.isStr with _ | _ <;> rw [hall] at h <;> simp at h
  all_goals
    rcases ys with _ | ⟨y0, _ | ⟨y1, _ | _⟩⟩ <;> try simp at h
  all_goals
    simp [List.all_cons] at hall
  all_goals
    rcases isStr_cases y0 hall.1 with ⟨s0, rfl⟩
  all_goals
    rcases isStr_cases y1 hall.2 with ⟨s1, rfl⟩
  all_goals
    exact ⟨s0, s1, h.symm⟩

theorem MVAlternateIdentifiers_elem_idem (w : PyVal) (h : AltPair w) :
    MVAlternateIdentifiers_elem w = .ok w := by
  rcases h with ⟨t, i, rfl⟩
  rfl

theorem alternateIdentifierChild_ok (w : PyVal) (h : AltPair w) :
    ∃ n, alternateIdentifierChild w = .ok n ∧ tagsDisjoint cleanTags n = true := by
  rcases h with ⟨t, i, rfl⟩
  exact ⟨_, rfl, rfl⟩

theorem MVAlternateIdentifiers_init_canon (v w : PyVal)
    (h : MVAlternateIdentifiers_init v = .ok w) :
    ∃ ws, w = .list ws ∧ ∀ p ∈ ws, AltPair p := by
  unfold MVAlternateIdentifiers_init at h
  rcases v with _ | _ | _ | xs | xs | _ <;> simp at h
  all_goals
    rcases hm : pyMapM MVAlternateIdentifiers_elem xs with e | ws <;>
      rw [hm] at h <;> simp at h
  all_goals
    exact ⟨ws, h.symm, fun p hp => by
      rcases mapM_mem _ xs ws hm p hp with ⟨x, _, hx⟩
      exact MVAlternateIdentifiers_elem_shape x p hx⟩

theorem MVAlternateIdentifiers_init_idem (ws : List PyVal)
    (h : ∀ p ∈ ws, AltPair p) :
    MVAlternateIdentifiers_init (.list ws) = .ok (.list ws) := by
  unfold MVAlternateIdentifiers_init
  simp [mapM_id_of_forall _ ws (fun p hp => MVAlternateIdentifiers_elem_idem p (h p hp))]

theorem MVAlternateIdentifiers_update_sim (idText : String) (f : SlotFun)
    (hcl : SlotsClean f) (ws : List PyVal) (cs : List XNode)
    (hm : pyMapM alternateIdentifierChild ws = .ok cs) :
    MVAlternateIdentifiers_update_xml (.list ws) (applySlots idText f) =
      .ok (applySlots idText (slotUpdate f "alternateIdentifiers" ([], cs))) := by
  have h := container_update_sim "alternateIdentifiers" (by decide) idText f hcl cs
  unfold MVAlternateIdentifiers_update_xml
  simp only [if_pos h.1, hm, except_bind_ok, h.2]

/-- Canonical shape of one relatedidentifiers entry. -/
def RelTriple (w : PyVal) : Prop :=
  ∃ i t r, w = .tuple [.str i, .str t, .str r] ∧
    t ∈ relatedidentifiertype_values ∧ r ∈ relatedidentifierrelationtype_values

theorem MVRelatedIdentifiers_elem_shape (x w : PyVal)
    (h : MVRelatedIdentifiers_elem x = .ok w) : RelTriple w := by
  unfold MVRelatedIdentifiers_elem at h
  rcases x with s | n | _ | ys | ys | kvs <;> simp at h
  all_goals
    rcases ys with _ | ⟨y0, _ | ⟨y1, _ | ⟨y2, _ | _⟩⟩⟩ <;> try simp at h
  all_goals
    rcases hy0 : y0.isStr with _ | _ <;> rw [hy0] at h <;> try simp at h
  all_goals
    rcases hy1 : y1.isStr with _ | _ <;> rw [hy1] at h <;> try simp at h
  all_goals
    rcases hy2 : y2.isStr with _ | _ <;> rw [hy2] at h <;> try simp at h
  all_goals
    rcases isStr_cases y0 hy0 with ⟨s0, rfl⟩
  all_goals
    rcases isStr_cases y1 hy1 with ⟨s1, rfl⟩
  all_goals
    rcases isStr_cases y2 hy2 with ⟨s2, rfl⟩
  all_goals
    simp at h
  all_goals
    by_cases hm1 : s1 ∈ relatedidentifiertype_values <;> simp [hm1] at h
  all_goals
    by_cases hm2 : s2 ∈ relatedidentifierrelationtype_values <;> simp [hm2] at h
  all_goals
    exact ⟨s0, s1, s2, h.symm, hm1, hm2⟩

theorem MVRelatedIdentifiers_elem_idem (w : PyVal) (h : RelTriple w) :
    MVRelatedIdentifiers_elem w = .ok w := by
  rcases h with ⟨i, t, r, rfl, hm1, hm2⟩
  unfold MVRelatedIdentifiers_elem
  simp [hm1, hm2, PyVal.isStr]

theorem relatedIdentifierChild_ok (w : PyVal) (h : RelTriple w) :
    ∃ n, relatedIdentifierChild w = .ok n ∧ tagsDisjoint cleanTags n = true := by
  rcases h with ⟨i, t, r, rfl, _, _⟩
  exact ⟨_, rfl, rfl⟩

theorem MVRelatedIdentifiers_init_canon (v w : PyVal)
    (h : MVRelatedIdentifiers_init v = .ok w) :
    ∃ ws, w = .list ws ∧ ∀ p ∈ ws, RelTriple p := by
  unfold MVRelatedIdentifiers_init at h
  rcases v with _ | _ | _ | xs | xs | _ <;> simp at h
  all_goals
    rcases hm : pyMapM MVRelatedIdentifiers_elem xs with e | ws <;>
      rw [hm] at h <;> simp at h
  all_goals
    exact ⟨ws, h.symm, fun p hp => by
      rcases mapM_mem _ xs ws hm p hp with ⟨x, _, hx⟩
      exact MVRelatedIdentifiers_elem_shape x p hx⟩

theorem MVRelatedIdentifiers_init_idem (ws : List PyVal)
    (h : ∀ p ∈ ws, RelTriple p) :
    MVRelatedIdentifiers_init (.list ws) = .ok (.list ws) := by
  unfold MVRelatedIdentifiers_init
  simp [mapM_id_of_forall _ ws (fun p hp => MVRelatedIdentifiers_elem_idem p (h p hp))]

theorem MVRelatedIdentifiers_update_sim (idText : String) (f : SlotFun)
    (hcl : SlotsClean f) (ws : List PyVal) (cs : List XNode)
    (hm : pyMapM relatedIdentifierChild ws = .ok cs) :
    MVRelatedIdentifiers_update_xml (.list ws) (applySlots idText f) =
      .ok (applySlots idText (slotUpdate f "relatedIdentifiers" ([], cs))) := by
  have h := container_update_sim "relatedIdentifiers" (by decide) idText f hcl cs
  unfold MVRelatedIdentifiers_update_xml
  simp only [if_pos h.1, hm, except_bind_ok, h.2]

/-- Canonical shape of one rights entry. -/
def RightsPair (w : PyVal) : Prop :=
  ∃ r u, w = .tuple [.str r, u] ∧ u.isNoneOrStr = true

theorem MVRights_elem_shape (x w : PyVal) (h : MVRights_elem x = .ok w) :
    RightsPair w := by
  unfold MVRights_elem at h
  rcases x with s | n | _ | ys | ys | kvs <;> simp at h
  · exact ⟨s, .none, h.symm, rfl⟩
  all_goals
    rcases ys with _ | ⟨y0, _ | ⟨y1, _ | _⟩⟩ <;> simp at h
  all_goals
    rcases hy0 : y0.isStr with _ | _ <;> rw [hy0] at h <;> simp at h
  all_goals
    rcases hy1 : y1.isNoneOrStr with _ | _ <;> rw [hy1] at h <;> simp at h
  all_goals
    rcases isStr_cases y0 hy0 with ⟨s0, rfl⟩
  all_goals
    exact ⟨s0, y1, h.symm, hy1⟩

theorem MVRights_elem_idem (w : PyVal) (h : RightsPair w) :
    MVRights_elem w = .ok w := by
  rcases h with ⟨r, u, rfl, hu⟩
  rcases isNoneOrStr_cases u hu with rfl | ⟨s, rfl⟩ <;> rfl

theorem rightsChild_ok (w : PyVal) (h : RightsPair w) :
    ∃ n, rightsChild w = .ok n ∧ tagsDisjoint cleanTags n = true := by
  rcases h with ⟨r, u, rfl, hu⟩
  rcases isNoneOrStr_cases u hu with rfl | ⟨s, rfl⟩
  · exact ⟨_, rfl, rfl⟩
  · unfold rightsChild pyTruthyAux
    by_cases hs : s = "" <;> simp [hs] <;> rfl

theorem MVRights_init_canon (v w : PyVal) (h : MVRights_init v = .ok w) :
    ∃ ws, w = .list ws ∧ ∀ p ∈ ws, RightsPair p := by
  unfold MVRights_init at h
  rcases v with _ | _ | _ | xs | xs | _ <;> simp at h
  all_goals
    rcases hm : pyMapM MVRights_elem xs with e | ws <;> rw [hm] at h <;> simp at h
  all_goals
    exact ⟨ws, h.symm, fun p hp => by
      rcases mapM_mem _ xs ws hm p hp with ⟨x, _, hx⟩
      exact MVRights_elem_shape x p hx⟩

theorem MVRights_init_idem (ws : List PyVal) (h : ∀ p ∈ ws, RightsPair p) :
    MVRights_init (.list ws) = .ok (.list ws) := by
  unfold MVRights_init
  simp [mapM_id_of_forall _ ws (fun p hp => MVRights_elem_idem p (h p hp))]

theorem MVRights_update_sim (idText : String) (f : SlotFun) (hcl : SlotsClean f)
    (ws : List PyVal) (cs : List XNode) (hm : pyMapM rightsChild ws = .ok cs) :
    MVRights_update_xml (.list ws) (applySlots idText f) =
      .ok (applySlots idText (slotUpdate f "rightsList" ([], cs))) := by
  have h := container_update_sim "rightsList" (by decide) idText f hcl cs
  unfold MVRights_update_xml
  simp only [if_pos h.1, hm, except_bind_ok, h.2]

/-- Canonical shape of one descriptions entry. -/
def DescPair (w : PyVal) : Prop :=
  ∃ t d, w = .tuple [.str t, .str d] ∧ t ∈ descriptiontype_values

theorem MVDescriptions_elem_shape (x w : PyVal) (h : MVDescriptions_elem x = .ok w) :
    DescPair w := by
  unfold MVDescriptions_elem at h
  rcases x with s | n | _ | ys | ys | kvs <;> simp at h
  all_goals
    rcases hall : ys.all PyVal.isStr with _ | _ <;> rw [hall] at h <;> simp at h
  all_goals
    rcases ys with _ | ⟨y0, _ | ⟨y1, _ | _⟩⟩ <;> try simp at h
  all_goals
    simp [List.all_cons] at hall
  all_goals
    rcases isStr_cases y0 hall.1 with ⟨s0, rfl⟩
  all_goals
    by_cases hmem : s0 ∈ descriptiontype_values <;> simp [hmem] at h
  all_goals
    rcases isStr_cases y1 hall.2 with ⟨s1, rfl⟩
  all_goals
    exact ⟨s0, s1, h.symm, hmem⟩

theorem MVDescriptions_elem_idem (w : PyVal) (h : DescPair w) :
    MVDescriptions_elem w = .ok w := by
  rcases h with ⟨t, d, rfl, hmem⟩
  unfold MVDescriptions_elem
  simp [hmem, PyVal.isStr]

theorem descriptionChild_ok (w : PyVal) (h : DescPair w) :
    ∃ n, descriptionChild w = .ok n ∧ tagsDisjoint cleanTags n = true := by
  rcases h with ⟨t, d, rfl, _⟩
  exact ⟨_, rfl, rfl⟩

theorem MVDescriptions_init_canon (v w : PyVal) (h : MVDescriptions_init v = .ok w) :
    ∃ ws, w = .list ws ∧ ∀ p ∈ ws, DescPair p := by
  unfold MVDescriptions_init at h
  rcases v with _ | _ | _ | xs | xs | _ <;> simp at h
  all_goals
    rcases hm : pyMapM MVDescriptions_elem xs with e | ws <;> rw [hm] at h <;> simp at h
  all_goals
    exact ⟨ws, h.symm, fun p hp => by
      rcases mapM_mem _ xs ws hm p hp with ⟨x, _, hx⟩
      exact MVDescriptions_elem_shape x p hx⟩

theorem MVDescriptions_init_idem (ws : List PyVal) (h : ∀ p ∈ ws, DescPair p) :
    MVDescriptions_init (.list ws) = .ok (.list ws) := by
  unfold MVDescriptions_init
  simp [mapM_id_of_forall _ ws (fun p hp => MVDescriptions_elem_idem p (h p hp))]

theorem MVDescriptions_update_sim (idText : String) (f : SlotFun)
    (hcl : SlotsClean f) (ws : List PyVal) (cs : List XNode)
    (hm : pyMapM descriptionChild ws = .ok cs) :
    MVDescriptions_update_xml (.list ws) (applySlots idText f) =
      .ok (applySlots idText (slotUpdate f "descriptions" ([], cs))) := by
  have h := container_update_sim "descriptions" (by decide) idText f hcl cs
  unfold MVDescriptions_update_xml
  simp only [if_pos h.1, hm, except_bind_ok, h.2]

/-- The XML container tag owned by each key of the metadata_values table. -/
def codecTag : String → String
  | "creators" => "creators"
  | "title" => "title"
  | "publisher" => "publisher"
  | "publicationyear" => "publicationYear"
  | "subjects" => "subjects"
  | "contributors" => "contributors"
  | "dates" => "dates"
  | "resourcetype" => "resourceType"
  | "alternateidentifiers" => "alternateIdentifiers"
  | "relatedidentifiers" => "relatedIdentifiers"
  | "sizes" => "sizes"
  | "formats" => "formats"
  | "version" => "version"
  | "rights" => "rightsList"
  | "descriptions" => "descriptions"
  | "geolocations" => "geoLocations"
  | _ => ""

/-- The attribute operations and appended children a serializer contributes
to its container for a canonical value: the net per-field effect of the
field loop of create_datacite_xml. -/
def entryEffect (key : String) (w : PyVal) : List (String × String) × List XNode :=
  match key with
  | "creators" =>
      match w with
      | .list ws => ([], (pyMapM creatorChild ws).toOption.getD [])
      | _ => ([], [])
  | "title" =>
      match w with
      | .str s => ([], [.text s])
      | _ => ([], [])
  | "publisher" =>
      match w with
      | .str s => ([], [.text s])
      | _ => ([], [])
  | "publicationyear" =>
      match w with
      | .str s => ([], [.text s])
      | _ => ([], [])
  | "subjects" => ([], [])
  | "contributors" =>
      match w with
      | .list ws => ([], (pyMapM contributorChild ws).toOption.getD [])
      | _ => ([], [])
  | "dates" =>
      match w with
      | .list ws => ([], (pyMapM dateChild ws).toOption.getD [])
      | _ => ([], [])
  | "resourcetype" =>
      match w with
      | .str s =>
          match pySplitOnce "/" s with
          | [p0, p1] => ([("resourceTypeGeneral", p0)], [.text p1])
          | _ => ([], [])
      | _ => ([], [])
  | "alternateidentifiers" =>
      match w with
      | .list ws => ([], (pyMapM alternateIdentifierChild ws).toOption.getD [])
      | _ => ([], [])
  | "relatedidentifiers" =>
      match w with
      | .list ws => ([], (pyMapM relatedIdentifierChild ws).toOption.getD [])
      | _ => ([], [])
  | "sizes" =>
      match w with
      | .list ws => ([], (pyMapM (stringListChild "size") ws).toOption.getD [])
      | _ => ([], [])
  | "formats" =>
      match w with
      | .list ws => ([], (pyMapM (stringListChild "format") ws).toOption.getD [])
      | _ => ([], [])
  | "version" =>
      match w with
      | .str s => ([], [.text s])
      | _ => ([], [])
  | "rights" =>
      match w with
      | .list ws => ([], (pyMapM rightsChild ws).toOption.getD [])
      | _ => ([], [])
  | "descriptions" =>
      match w with
      | .list ws => ([], (pyMapM descriptionChild ws).toOption.getD [])
      | _ => ([], [])
  | "geolocations" =>
      match w with
      | .list ws => ([], (pyMapM geoLocationChild ws).toOption.getD [])
      | _ => ([], [])
  | _ => ([], [])

/-- The well-formedness invariant of the slot assignment maintained by the
field loop: clean slots, an untouched subjects slot (the subjects serializer
never appends its elements), and creator and contributor entries that carry
their name child element. -/
def SlotsOK (f : SlotFun) : Prop :=
  SlotsClean f ∧ f "subjects" = ([], []) ∧
  (∀ n ∈ elementsByTagL "creator" (f "creators").2,
    elGetElementsByTag "creatorName" n ≠ []) ∧
  (∀ n ∈ elementsByTagL "contributor" (f "contributors").2,
    elGetElementsByTag "contributorName" n ≠ [])

theorem tagsDisjointL_of_forall (bad : List String) :
    ∀ cs : List XNode, (∀ n ∈ cs, tagsDisjoint bad n = true) →
      tagsDisjointL bad cs = true
  | [], _ => rfl
  | c :: cs, h => by
      simp [tagsDisjointL, h c (by simp),
        tagsDisjointL_of_forall bad cs (fun n hn => h n (by simp [hn]))]

theorem elementsByTagL_self (t : String) :
    ∀ cs : List XNode, (∀ n ∈ cs, elementsByTag t n = [n]) →
      elementsByTagL t cs = cs
  | [], _ => rfl
  | c :: cs, h => by
      unfold elementsByTagL
      rw [h c (by simp), elementsByTagL_self t cs (fun n hn => h n (by simp [hn]))]
      rfl

theorem slotUpdate_nil (f : SlotFun) (t : String) :
    slotUpdate f t ([], []) = f := by
  funext tag
  unfold slotUpdate
  by_cases h : tag = t
  · subst h
    simp
  · simp [h]

theorem slotUpdate_other (f : SlotFun) (t : String)
    (eff : List (String × String) × List XNode) (tag : String) (h : ¬(tag = t)) :
    slotUpdate f t eff tag = f tag := by
  simp [slotUpdate, h]

theorem SlotsOK_slotUpdate_other (f : SlotFun) (t : String)
    (eff : List (String × String) × List XNode) (hok : SlotsOK f)
    (hd : tagsDisjointL cleanTags eff.2 = true)
    (h1 : ¬("subjects" = t)) (h2 : ¬("creators" = t)) (h3 : ¬("contributors" = t)) :
    SlotsOK (slotUpdate f t eff) := by
  refine ⟨SlotsClean_slotUpdate f t eff hok.1 hd, ?_, ?_, ?_⟩
  · rw [slotUpdate_other f t eff "subjects" h1]
    exact hok.2.1
  · rw [slotUpdate_other f t eff "creators" h2]
    exact hok.2.2.1
  · rw [slotUpdate_other f t eff "contributors" h3]
    exact hok.2.2.2

theorem SlotsOK_slotUpdate_creators (f : SlotFun) (cs : List XNode) (hok : SlotsOK f)
    (hd : tagsDisjointL cleanTags cs = true)
    (hself : ∀ n ∈ cs, elementsByTag "creator" n = [n])
    (hname : ∀ n ∈ cs, elGetElementsByTag "creatorName" n ≠ []) :
    SlotsOK (slotUpdate f "creators" ([], cs)) := by
  refine ⟨SlotsClean_slotUpdate f "creators" ([], cs) hok.1 hd, ?_, ?_, ?_⟩
  · rw [slotUpdate_other f "creators" ([], cs) "subjects" (by decide)]
    exact hok.2.1
  · intro n hn
    simp [slotUpdate, elementsByTagL_append, elementsByTagL_self "creator" cs hself] at hn
    rcases hn with hn | hn
    · exact hok.2.2.1 n hn
    · exact hname n hn
  · rw [slotUpdate_other f "creators" ([], cs) "contributors" (by decide)]
    exact hok.2.2.2

theorem SlotsOK_slotUpdate_contributors (f : SlotFun) (cs : List XNode)
    (hok : SlotsOK f) (hd : tagsDisjointL cleanTags cs = true)
    (hself : ∀ n ∈ cs, elementsByTag "contributor" n = [n])
    (hname : ∀ n ∈ cs, elGetElementsByTag "contributorName" n ≠ []) :
    SlotsOK (slotUpdate f "contributors" ([], cs)) := by
  refine ⟨SlotsClean_slotUpdate f "contributors" ([], cs) hok.1 hd, ?_, ?_, ?_⟩
  · rw [slotUpdate_other f "contributors" ([], cs) "subjects" (by decide)]
    exact hok.2.1
  · rw [slotUpdate_other f "contributors" ([], cs) "creators" (by decide)]
    exact hok.2.2.1
  · intro n hn
    simp [slotUpdate, elementsByTagL_append, elementsByTagL_self "contributor" cs hself] at hn
    rcases hn with hn | hn
    · exact hok.2.2.2 n hn
    · exact hname n hn

/-- Every value of the metadata mapping is the canonical output of the
constructor of its field class, as validate_metadata guarantees. -/
def MdCanon (md : List (String × PyVal)) : Prop :=
  ∀ k c, (k, c) ∈ metadata_values → ∀ kv, md.find? (fun p => p.1 = k) = some kv →
    ∃ v, c.init v = .ok kv.2

set_option maxHeartbeats 1000000 in
theorem applyCodecs_entry (ek : String) (ec : FieldCodec)
    (he : (ek, ec) ∈ metadata_values)
    (kv : String × PyVal) (hcanon : ∃ v, ec.init v = .ok kv.2)
    (idText : String) (f : SlotFun) (hok : SlotsOK f) :
    (ec.init kv.2 = .error subjectsSeqErr ∧ ek = "subjects") ∨
    (ec.init kv.2 = .ok kv.2 ∧
      ec.update_xml kv.2 (applySlots idText f) =
        .ok (applySlots idText (slotUpdate f (codecTag ek) (entryEffect ek kv.2))) ∧
      SlotsOK (slotUpdate f (codecTag ek) (entryEffect ek kv.2))) := by
  unfold metadata_values at he
  rcases he with _ | ⟨_, _ | ⟨_, _ | ⟨_, _ | ⟨_, _ | ⟨_, _ | ⟨_, _ | ⟨_, _ | ⟨_,
    _ | ⟨_, _ | ⟨_, _ | ⟨_, _ | ⟨_, _ | ⟨_, _ | ⟨_, _ | ⟨_, _ | ⟨_, h⟩⟩⟩⟩⟩⟩⟩⟩⟩⟩⟩⟩⟩⟩⟩⟩
  · -- creators
    obtain ⟨v, hv⟩ := hcanon
    simp only [MVCreators_codec] at hv ⊢
    obtain ⟨ws, hws, hall⟩ := MVCreators_init_canon v kv.2 hv
    obtain ⟨cs, hcs⟩ := mapM_ok_of_forall _ ws
      (fun p hp => (creatorChild_ok p (hall p hp)).imp fun n hn => hn.1)
    have hprops : ∀ n ∈ cs, tagsDisjoint cleanTags n = true ∧
        elementsByTag "creator" n = [n] ∧ elGetElementsByTag "creatorName" n ≠ [] := by
      intro n hn
      rcases mapM_mem _ ws cs hcs n hn with ⟨p, hp, hpn⟩
      rcases creatorChild_ok p (hall p hp) with ⟨n2, hn2, hd2, hself2, hname2⟩
      rw [hn2] at hpn
      injection hpn with h2
      subst h2
      exact ⟨hd2, hself2, hname2⟩
    have heff : entryEffect "creators" (.list ws) = ([], cs) := by
      simp [entryEffect, hcs]
    refine Or.inr ⟨?_, ?_, ?_⟩
    · rw [hws]
      exact MVCreators_init_idem ws hall
    · rw [hws]
      simp only [codecTag, heff]
      exact MVCreators_update_sim idText f hok.1 ws cs hcs
    · rw [hws]
      simp only [codecTag, heff]
      exact SlotsOK_slotUpdate_creators f cs hok
        (tagsDisjointL_of_forall _ cs (fun n hn => (hprops n hn).1))
        (fun n hn => (hprops n hn).2.1) (fun n hn => (hprops n hn).2.2)
  · -- title
    obtain ⟨v, hv⟩ := hcanon
    simp only [MVTitle_codec] at hv ⊢
    obtain ⟨⟨s, hs⟩, _⟩ := MVStringBase_init_canon v kv.2 hv
    refine Or.inr ⟨?_, ?_, ?_⟩
    · rw [hs]
      exact MVStringBase_init_idem s
    · rw [hs]
      simp only [codecTag, entryEffect]
      exact MVStringBase_update_sim "title" (by decide) idText f hok.1 s
    · rw [hs]
      simp only [codecTag, entryEffect]
      exact SlotsOK_slotUpdate_other f "title" ([], [.text s]) hok rfl
        (by decide) (by decide) (by decide)
  · -- publisher
    obtain ⟨v, hv⟩ := hcanon
    simp only [MVPublisher_codec] at hv ⊢
    obtain ⟨⟨s, hs⟩, _⟩ := MVStringBase_init_canon v kv.2 hv
    refine Or.inr ⟨?_, ?_, ?_⟩
    · rw [hs]
      exact MVStringBase_init_idem s
    · rw [hs]
      simp only [codecTag, entryEffect]
      exact MVStringBase_update_sim "publisher" (by decide) idText f hok.1 s
    · rw [hs]
      simp only [codecTag, entryEffect]
      exact SlotsOK_slotUpdate_other f "publisher" ([], [.text s]) hok rfl
        (by decide) (by decide) (by decide)
  · -- publicationyear
    obtain ⟨v, hv⟩ := hcanon
    simp only [MVPublicationYear_codec] at hv ⊢
    obtain ⟨hy, _⟩ := MVPublicationYear_init_canon v kv.2 hv
    rcases hy with ⟨s, hs, hm⟩
    refine Or.inr ⟨?_, ?_, ?_⟩
    · rw [hs]
      exact MVPublicationYear_init_idem _ ⟨s, rfl, hm⟩
    · rw [hs]
      simp only [codecTag, entryEffect]
      exact MVStringBase_update_sim "publicationYear" (by decide) idText f hok.1 s
    · rw [hs]
      simp only [codecTag, entryEffect]
      exact SlotsOK_slotUpdate_other f "publicationYear" ([], [.text s]) hok rfl
        (by decide) (by decide) (by decide)
  · -- subjects
    obtain ⟨v, hv⟩ := hcanon
    simp only [MVSubjects_codec] at hv ⊢
    obtain ⟨ws, hws, hall⟩ := MVSubjects_init_canon v kv.2 hv
    rcases MVSubjects_init_idem_or ws hall with hi | hi
    · refine Or.inr ⟨?_, ?_, ?_⟩
      · rw [hws]
        exact hi
      · rw [hws]
        simp only [codecTag, entryEffect, slotUpdate_nil]
        exact MVSubjects_update_sim idText f hok.1 ws
      · rw [hws]
        simp only [codecTag, entryEffect, slotUpdate_nil]
        exact hok
    · refine Or.inl ⟨?_, by simp⟩
      rw [hws]
      exact hi
  · -- contributors
    obtain ⟨v, hv⟩ := hcanon
    simp only [MVContributors_codec] at hv ⊢
    obtain ⟨ws, hws, hall⟩ := MVContributors_init_canon v kv.2 hv
    obtain ⟨cs, hcs⟩ := mapM_ok_of_forall _ ws
      (fun p hp => (contributorChild_ok p (hall p hp)).imp fun n hn => hn.1)
    have hprops : ∀ n ∈ cs, tagsDisjoint cleanTags n = true ∧
        elementsByTag "contributor" n = [n] ∧
        elGetElementsByTag "contributorName" n ≠ [] := by
      intro n hn
      rcases mapM_mem _ ws cs hcs n hn with ⟨p, hp, hpn⟩
      rcases contributorChild_ok p (hall p hp) with ⟨n2, hn2, hd2, hself2, hname2⟩
      rw [hn2] at hpn
      injection hpn with h2
      subst h2
      exact ⟨hd2, hself2, hname2⟩
    have heff : entryEffect "contributors" (.list ws) = ([], cs) := by
      simp [entryEffect, hcs]
    refine Or.inr ⟨?_, ?_, ?_⟩
    · rw [hws]
      exact MVContributors_init_idem ws hall
    · rw [hws]
      simp only [codecTag, heff]
      exact MVContributors_update_sim idText f hok.1 ws cs hcs
    · rw [hws]
      simp only [codecTag, heff]
      exact SlotsOK_slotUpdate_contributors f cs hok
        (tagsDisjointL_of_forall _ cs (fun n hn => (hprops n hn).1))
        (fun n hn => (hprops n hn).2.1) (fun n hn => (hprops n hn).2.2)
  · -- dates
    obtain ⟨v, hv⟩ := hcanon
    simp only [MVDates_codec] at hv ⊢
    obtain ⟨ws, hws, hall⟩ := MVDates_init_canon v kv.2 hv
    obtain ⟨cs, hcs⟩ := mapM_ok_of_forall _ ws
      (fun p hp => (dateChild_ok p (hall p hp)).imp fun n hn => hn.1)
    have hd : tagsDisjointL cleanTags cs = true := by
      apply tagsDisjointL_of_forall
      intro n hn
      rcases mapM_mem _ ws cs hcs n hn with ⟨p, hp, hpn⟩
      rcases dateChild_ok p (hall p hp) with ⟨n2, hn2, hdn⟩
      rw [hn2] at hpn
      injection hpn with h2
      subst h2
      exact hdn
    have heff : entryEffect "dates" (.list ws) = ([], cs) := by
      simp [entryEffect, hcs]
    refine Or.inr ⟨?_, ?_, ?_⟩
    · rw [hws]
      exact MVDates_init_idem ws hall
    · rw [hws]
      simp only [codecTag, heff]
      exact MVDates_update_sim idText f hok.1 ws cs hcs
    · rw [hws]
      simp only [codecTag, heff]
      exact SlotsOK_slotUpdate_other f "dates" ([], cs) hok hd
        (by decide) (by decide) (by decide)
  · -- resourcetype
    obtain ⟨v, hv⟩ := hcanon
    simp only [MVResourceType_codec] at hv ⊢
    obtain ⟨hrt, _⟩ := MVResourceType_init_canon v kv.2 hv
    rcases hrt with ⟨s, p0, p1, hs, hsp, hmem⟩
    have heff : entryEffect "resourcetype" (.str s) =
        ([("resourceTypeGeneral", p0)], [.text p1]) := by
      simp [entryEffect, hsp]
    refine Or.inr ⟨?_, ?_, ?_⟩
    · rw [hs]
      exact MVResourceType_init_idem _ ⟨s, p0, p1, rfl, hsp, hmem⟩
    · rw [hs]
      simp only [codecTag, heff]
      exact MVResourceType_update_sim idText f hok.1 s p0 p1 hsp
    · rw [hs]
      simp only [codecTag, heff]
      exact SlotsOK_slotUpdate_other f "resourceType"
        ([("resourceTypeGeneral", p0)], [.text p1]) hok rfl
        (by decide) (by decide) (by decide)
  · -- alternateidentifiers
    obtain ⟨v, hv⟩ := hcanon
    simp only [MVAlternateIdentifiers_codec] at hv ⊢
    obtain ⟨ws, hws, hall⟩ := MVAlternateIdentifiers_init_canon v kv.2 hv
    obtain ⟨cs, hcs⟩ := mapM_ok_of_forall _ ws
      (fun p hp => (alternateIdentifierChild_ok p (hall p hp)).imp fun n hn => hn.1)
    have hd : tagsDisjointL cleanTags cs = true := by
      apply tagsDisjointL_of_forall
      intro n hn
      rcases mapM_mem _ ws cs hcs n hn with ⟨p, hp, hpn⟩
      rcases alternateIdentifierChild_ok p (hall p hp) with ⟨n2, hn2, hdn⟩
      rw [hn2] at hpn
      injection hpn with h2
      subst h2
      exact hdn
    have heff : entryEffect "alternateidentifiers" (.list ws) = ([], cs) := by
      simp [entryEffect, hcs]
    refine Or.inr ⟨?_, ?_, ?_⟩
    · rw [hws]
      exact MVAlternateIdentifiers_init_idem ws hall
    · rw [hws]
      simp only [codecTag, heff]
      exact MVAlternateIdentifiers_update_sim idText f hok.1 ws cs hcs
    · rw [hws]
      simp only [codecTag, heff]
      exact SlotsOK_slotUpdate_other f "alternateIdentifiers" ([], cs) hok hd
        (by decide) (by decide) (by decide)
  · -- relatedidentifiers
    obtain ⟨v, hv⟩ := hcanon
    simp only [MVRelatedIdentifiers_codec] at hv ⊢
    obtain ⟨ws, hws, hall⟩ := MVRelatedIdentifiers_init_canon v kv.2 hv
    obtain ⟨cs, hcs⟩ := mapM_ok_of_forall _ ws
      (fun p hp => (relatedIdentifierChild_ok p (hall p hp)).imp fun n hn => hn.1)
    have hd : tagsDisjointL cleanTags cs = true := by
      apply tagsDisjointL_of_forall
      intro n hn
      rcases mapM_mem _ ws cs hcs n hn with ⟨p, hp, hpn⟩
      rcases relatedIdentifierChild_ok p (hall p hp) with ⟨n2, hn2, hdn⟩
      rw [hn2] at hpn
      injection hpn with h2
      subst h2
      exact hdn
    have heff : entryEffect "relatedidentifiers" (.list ws) = ([], cs) := by
      simp [entryEffect, hcs]
    refine Or.inr ⟨?_, ?_, ?_⟩
    · rw [hws]
      exact MVRelatedIdentifiers_init_idem ws hall
    · rw [hws]
      simp only [codecTag, heff]
      exact MVRelatedIdentifiers_update_sim idText f hok.1 ws cs hcs
    · rw [hws]
      simp only [codecTag, heff]
      exact SlotsOK_slotUpdate_other f "relatedIdentifiers" ([], cs) hok hd
        (by decide) (by decide) (by decide)
  · -- sizes
    obtain ⟨v, hv⟩ := hcanon
    simp only [MVSizes_codec] at hv ⊢
    obtain ⟨ws, hws, hall⟩ := MVStringListBase_init_canon v kv.2 hv
    obtain ⟨cs, hcs⟩ := mapM_ok_of_forall _ ws
      (fun p hp => (stringListChild_ok "size" (by decide) p (hall p hp)).imp
        fun n hn => hn.1)
    have hd : tagsDisjointL cleanTags cs = true := by
      apply tagsDisjointL_of_forall
      intro n hn
      rcases mapM_mem _ ws cs hcs n hn with ⟨p, hp, hpn⟩
      rcases stringListChild_ok "size" (by decide) p (hall p hp) with ⟨n2, hn2, hdn⟩
      rw [hn2] at hpn
      injection hpn with h2
      subst h2
      exact hdn
    have heff : entryEffect "sizes" (.list ws) = ([], cs) := by
      simp [entryEffect, hcs]
    refine Or.inr ⟨?_, ?_, ?_⟩
    · rw [hws]
      exact MVStringListBase_init_idem ws hall
    · rw [hws]
      simp only [codecTag, heff]
      exact MVStringListBase_update_sim "sizes" "size" (by decide) idText f hok.1 ws cs hcs
    · rw [hws]
      simp only [codecTag, heff]
      exact SlotsOK_slotUpdate_other f "sizes" ([], cs) hok hd
        (by decide) (by decide) (by decide)
  · -- formats
    obtain ⟨v, hv⟩ := hcanon
    simp only [MVFormats_codec] at hv ⊢
    obtain ⟨ws, hws, hall⟩ := MVStringListBase_init_canon v kv.2 hv
    obtain ⟨cs, hcs⟩ := mapM_ok_of_forall _ ws
      (fun p hp => (stringListChild_ok "format" (by decide) p (hall p hp)).imp
        fun n hn => hn.1)
    have hd : tagsDisjointL cleanTags cs = true := by
      apply tagsDisjointL_of_forall
      intro n hn
      rcases mapM_mem _ ws cs hcs n hn with ⟨p, hp, hpn⟩
      rcases stringListChild_ok "format" (by decide) p (hall p hp) with ⟨n2, hn2, hdn⟩
      rw [hn2] at hpn
      injection hpn with h2
      subst h2
      exact hdn
    have heff : entryEffect "formats" (.list ws) = ([], cs) := by
      simp [entryEffect, hcs]
    refine Or.inr ⟨?_, ?_, ?_⟩
    · rw [hws]
      exact MVStringListBase_init_idem ws hall
    · rw [hws]
      simp only [codecTag, heff]
      exact MVStringListBase_update_sim "formats" "format" (by decide) idText f
        hok.1 ws cs hcs
    · rw [hws]
      simp only [codecTag, heff]
      exact SlotsOK_slotUpdate_other f "formats" ([], cs) hok hd
        (by decide) (by decide) (by decide)
  · -- version
    obtain ⟨v, hv⟩ := hcanon
    simp only [MVVersion_codec] at hv ⊢
    obtain ⟨⟨s, hs⟩, _⟩ := MVStringBase_init_canon v kv.2 hv
    refine Or.inr ⟨?_, ?_, ?_⟩
    · rw [hs]
      exact MVStringBase_init_idem s
    · rw [hs]
      simp only [codecTag, entryEffect]
      exact MVStringBase_update_sim "version" (by decide) idText f hok.1 s
    · rw [hs]
      simp only [codecTag, entryEffect]
      exact SlotsOK_slotUpdate_other f "version" ([], [.text s]) hok rfl
        (by decide) (by decide) (by decide)
  · -- rights
    obtain ⟨v, hv⟩ := hcanon
    simp only [MVRights_codec] at hv ⊢
    obtain ⟨ws, hws, hall⟩ := MVRights_init_canon v kv.2 hv
    obtain ⟨cs, hcs⟩ := mapM_ok_of_forall _ ws
      (fun p hp => (rightsChild_ok p (hall p hp)).imp fun n hn => hn.1)
    have hd : tagsDisjointL cleanTags cs = true := by
      apply tagsDisjointL_of_forall
      intro n hn
      rcases mapM_mem _ ws cs hcs n hn with ⟨p, hp, hpn⟩
      rcases rightsChild_ok p (hall p hp) with ⟨n2, hn2, hdn⟩
      rw [hn2] at hpn
      injection hpn with h2
      subst h2
      exact hdn
    have heff : entryEffect "rights" (.list ws) = ([], cs) := by
      simp [entryEffect, hcs]
    refine Or.inr ⟨?_, ?_, ?_⟩
    · rw [hws]
      exact MVRights_init_idem ws hall
    · rw [hws]
      simp only [codecTag, heff]
      exact MVRights_update_sim idText f hok.1 ws cs hcs
    · rw [hws]
      simp only [codecTag, heff]
      exact SlotsOK_slotUpdate_other f "rightsList" ([], cs) hok hd
        (by decide) (by decide) (by decide)
  · -- descriptions
    obtain ⟨v, hv⟩ := hcanon
    simp only [MVDescriptions_codec] at hv ⊢
    obtain ⟨ws, hws, hall⟩ := MVDescriptions_init_canon v kv.2 hv
    obtain ⟨cs, hcs⟩ := mapM_ok_of_forall _ ws
      (fun p hp => (descriptionChild_ok p (hall p hp)).imp fun n hn => hn.1)
    have hd : tagsDisjointL cleanTags cs = true := by
      apply tagsDisjointL_of_forall
      intro n hn
      rcases mapM_mem _ ws cs hcs n hn with ⟨p, hp, hpn⟩
      rcases descriptionChild_ok p (hall p hp) with ⟨n2, hn2, hdn⟩
      rw [hn2] at hpn
      injection hpn with h2
      subst h2
      exact hdn
    have heff : entryEffect "descriptions" (.list ws) = ([], cs) := by
      simp [entryEffect, hcs]
    refine Or.inr ⟨?_, ?_, ?_⟩
    · rw [hws]
      exact MVDescriptions_init_idem ws hall
    · rw [hws]
      simp only [codecTag, heff]
      exact MVDescriptions_update_sim idText f hok.1 ws cs hcs
    · rw [hws]
      simp only [codecTag, heff]
      exact SlotsOK_slotUpdate_other f "descriptions" ([], cs) hok hd
        (by decide) (by decide) (by decide)
  · -- geolocations
    obtain ⟨v, hv⟩ := hcanon
    simp only [MVGeoLocations_codec] at hv ⊢
    obtain ⟨ws, hws, hall⟩ := MVGeoLocations_init_canon v kv.2 hv
    obtain ⟨cs, hcs⟩ := mapM_ok_of_forall _ ws
      (fun p hp => (geoLocationChild_ok p (hall p hp)).imp fun n hn => hn.1)
    have hd : tagsDisjointL cleanTags cs = true := by
      apply tagsDisjointL_of_forall
      intro n hn
      rcases mapM_mem _ ws cs hcs n hn with ⟨p, hp, hpn⟩
      rcases geoLocationChild_ok p (hall p hp) with ⟨n2, hn2, hdn⟩
      rw [hn2] at hpn
      injection hpn with h2
      subst h2
      exact hdn
    have heff : entryEffect "geolocations" (.list ws) = ([], cs) := by
      simp [entryEffect, hcs]
    refine Or.inr ⟨?_, ?_, ?_⟩
    · rw [hws]
      exact MVGeoLocations_init_idem ws hall
    · rw [hws]
      simp only [codecTag, heff]
      exact MVGeoLocations_update_sim idText f hok.1 ws cs hcs
    · rw [hws]
      simp only [codecTag, heff]
      exact SlotsOK_slotUpdate_other f "geoLocations" ([], cs) hok hd
        (by decide) (by decide) (by decide)
  · cases h

def exceptIsOk {α : Type} : Except PyErr α → Bool
  | .ok _ => true
  | .error _ => false

/-- Whether the field loop raises at this table entry: the entry has a value
in the metadata mapping and the class constructor rejects it. -/
def entryFailsB (md : List (String × PyVal)) (e : String × FieldCodec) : Bool :=
  match md.find? (fun p => p.1 = e.1) with
  | Option.none => false
  | some kv => !(exceptIsOk (e.2.init kv.2))

/-- The slot-level effect of one iteration of the field loop. -/
def foldStep (md : List (String × PyVal)) (f : SlotFun) (e : String × FieldCodec) :
    SlotFun :=
  match md.find? (fun p => p.1 = e.1) with
  | Option.none => f
  | some kv => slotUpdate f (codecTag e.1) (entryEffect e.1 kv.2)

theorem applyCodecs_sim (md : List (String × PyVal)) (hmd : MdCanon md)
    (idText : String) :
    ∀ (order : List (String × FieldCodec)), (∀ x ∈ order, x ∈ metadata_values) →
    ∀ f : SlotFun, SlotsOK f →
      (applyCodecs order md (applySlots idText f) =
        (if order.any (entryFailsB md) then Except.error subjectsSeqErr
         else .ok (applySlots idText (order.foldl (foldStep md) f)))) ∧
      (order.any (entryFailsB md) = false → SlotsOK (order.foldl (foldStep md) f))
  | [], _, f, hok => ⟨by simp [applyCodecs], fun _ => hok⟩
  | e :: rest, horder, f, hok => by
      obtain ⟨ek, ec⟩ := e
      have hmem : (ek, ec) ∈ metadata_values := horder (ek, ec) (by simp)
      have hrest : ∀ x ∈ rest, x ∈ metadata_values := fun x hx => horder x (by simp [hx])
      rcases hfind : md.find? (fun p => p.1 = ek) with _ | kv
      · have hfail : entryFailsB md (ek, ec) = false := by simp [entryFailsB, hfind]
        have hstep : foldStep md f (ek, ec) = f := by simp [foldStep, hfind]
        have hred : applyCodecs ((ek, ec) :: rest) md (applySlots idText f) =
            applyCodecs rest md (applySlots idText f) := by
          conv_lhs => rw [applyCodecs]
          rw [hfind]
        refine ⟨?_, ?_⟩
        · rw [hred, (applyCodecs_sim md hmd idText rest hrest f hok).1, List.any_cons,
            hfail, Bool.false_or, List.foldl_cons, hstep]
        · intro hany
          rw [List.any_cons, hfail, Bool.false_or] at hany
          rw [List.foldl_cons, hstep]
          exact (applyCodecs_sim md hmd idText rest hrest f hok).2 hany
      · have hcanon : ∃ v, ec.init v = .ok kv.2 := hmd ek ec hmem kv hfind
        rcases applyCodecs_entry ek ec hmem kv hcanon idText f hok with
          ⟨herr, _⟩ | ⟨hinit, hupd, hok2⟩
        · have hfail : entryFailsB md (ek, ec) = true := by
            simp [entryFailsB, hfind]
            rw [herr]
            rfl
          have hred : applyCodecs ((ek, ec) :: rest) md (applySlots idText f) =
              .error subjectsSeqErr := by
            conv_lhs => rw [applyCodecs]
            rw [hfind]
            simp [herr]
          refine ⟨?_, ?_⟩
          · rw [hred, List.any_cons, hfail, Bool.true_or]
            rfl
          · intro hany
            rw [List.any_cons, hfail, Bool.true_or] at hany
            simp at hany
        · have hfail : entryFailsB md (ek, ec) = false := by
            simp [entryFailsB, hfind]
            rw [hinit]
            rfl
          have hstep : foldStep md f (ek, ec) =
              slotUpdate f (codecTag ek) (entryEffect ek kv.2) := by
            simp [foldStep, hfind]
          have hred : applyCodecs ((ek, ec) :: rest) md (applySlots idText f) =
              applyCodecs rest md
                (applySlots idText (slotUpdate f (codecTag ek) (entryEffect ek kv.2))) := by
            conv_lhs => rw [applyCodecs]
            rw [hfind]
            simp [hinit, hupd]
          refine ⟨?_, ?_⟩
          · rw [hred, (applyCodecs_sim md hmd idText rest hrest _ hok2).1,
              List.any_cons, hfail, Bool.false_or, List.foldl_cons, hstep]
          · intro hany
            rw [List.any_cons, hfail, Bool.false_or] at hany
            rw [List.foldl_cons, hstep]
            exact (applyCodecs_sim md hmd idText rest hrest _ hok2).2 hany

/-- The keys of the metadata_values table, in source order. -/
def metadataKeys : List String :=
  ["creators", "title", "publisher", "publicationyear", "subjects",
   "contributors", "dates", "resourcetype", "alternateidentifiers",
   "relatedidentifiers", "sizes", "formats", "version", "rights",
   "descriptions", "geolocations"]

theorem metadata_values_keys : metadata_values.map Prod.fst = metadataKeys := rfl

theorem key_inj_of_nodup_map {α β : Type} (g : α → β) :
    ∀ l : List α, (l.map g).Nodup → ∀ x ∈ l, ∀ y ∈ l, g x = g y → x = y
  | [], _, x, hx, _, _, _ => absurd hx (by simp)
  | a :: l, hn, x, hx, y, hy, hg => by
      simp [List.nodup_cons] at hn
      rcases List.mem_cons.mp hx with rfl | hx2
      · rcases List.mem_cons.mp hy with rfl | hy2
        · rfl
        · exact absurd hg.symm (hn.1 y hy2)
      · rcases List.mem_cons.mp hy with rfl | hy2
        · exact absurd hg (hn.1 x hx2)
        · exact key_inj_of_nodup_map g l hn.2 x hx2 y hy2 hg

theorem table_key_inj (x : String × FieldCodec) (hx : x ∈ metadata_values)
    (y : String × FieldCodec) (hy : y ∈ metadata_values) (h : x.1 = y.1) : x = y := by
  apply key_inj_of_nodup_map Prod.fst metadata_values _ x hx y hy h
  rw [metadata_values_keys]
  decide

theorem codecTag_inj_on_keys :
    ∀ k1 ∈ metadataKeys, ∀ k2 ∈ metadataKeys, ¬(k1 = k2) →
      ¬(codecTag k1 = codecTag k2) := by
  decide

theorem slotUpdate_comm (f : SlotFun) (t1 t2 : String)
    (e1 e2 : List (String × String) × List XNode) (h : ¬(t1 = t2)) :
    slotUpdate (slotUpdate f t1 e1) t2 e2 = slotUpdate (slotUpdate f t2 e2) t1 e1 := by
  have h2 : ¬(t2 = t1) := fun hh => h hh.symm
  funext tag
  unfold slotUpdate
  by_cases ha : tag = t1
  · subst ha
    simp [h, h2]
  · by_cases hb : tag = t2
    · subst hb
      simp [h, h2]
    · simp [ha, hb]

theorem foldStep_comm (md : List (String × PyVal)) (x y : String × FieldCodec)
    (hx : x ∈ metadata_values) (hy : y ∈ metadata_values) (f : SlotFun) :
    foldStep md (foldStep md f x) y = foldStep md (foldStep md f y) x := by
  by_cases hxy : x = y
  · subst hxy
    rfl
  · have hk : ¬(x.1 = y.1) := fun h => hxy (table_key_inj x hx y hy h)
    have ht : ¬(codecTag x.1 = codecTag y.1) :=
      codecTag_inj_on_keys x.1
        (by rw [show metadataKeys = metadata_values.map Prod.fst from rfl]
            exact List.mem_map_of_mem Prod.fst hx)
        y.1
        (by rw [show metadataKeys = metadata_values.map Prod.fst from rfl]
            exact List.mem_map_of_mem Prod.fst hy)
        hk
    unfold foldStep
    rcases hfx : md.find? (fun p => p.1 = x.1) with _ | kvx <;>
      rcases hfy : md.find? (fun p => p.1 = y.1) with _ | kvy <;>
        simp only [hfx, hfy]
    exact slotUpdate_comm f (codecTag x.1) (codecTag y.1)
      (entryEffect x.1 kvx.2) (entryEffect y.1 kvy.2) ht

theorem foldl_foldStep_perm (md : List (String × PyVal)) :
    ∀ {l1 l2 : List (String × FieldCodec)}, l1.Perm l2 →
      (∀ x ∈ l1, x ∈ metadata_values) → ∀ f : SlotFun,
      l1.foldl (foldStep md) f = l2.foldl (foldStep md) f := by
  intro l1 l2 hperm
  induction hperm with
  | nil => intro _ f; rfl
  | cons x h ih =>
      intro hl f
      simp only [List.foldl_cons]
      exact ih (fun a ha => hl a (by simp [ha])) (foldStep md f x)
  | swap x y l =>
      intro hl f
      simp only [List.foldl_cons]
      rw [foldStep_comm md y x (hl y (by simp)) (hl x (by simp)) f]
  | trans h1 h2 ih1 ih2 =>
      intro hl f
      rw [ih1 hl f, ih2 (fun a ha => hl a (h1.symm.subset ha)) f]

theorem any_perm {α : Type} (p : α → Bool) {l1 l2 : List α} (h : l1.Perm l2) :
    l1.any p = l2.any p := by
  rcases ha : l1.any p with _ | _
  · symm
    rw [List.any_eq_false] at ha ⊢
    exact fun a h2 => ha a (h.symm.subset h2)
  · symm
    rw [List.any_eq_true] at ha ⊢
    rcases ha with ⟨a, ha1, ha2⟩
    exact ⟨a, h.subset ha1, ha2⟩

theorem SlotsOK_slotNil : SlotsOK slotNil :=
  ⟨SlotsClean_slotNil, rfl, fun n hn => absurd hn (by simp [slotNil, elementsByTagL]),
   fun n hn => absurd hn (by simp [slotNil, elementsByTagL])⟩

theorem find_of_mem_nodup {β : Type} :
    ∀ l : List (String × β), (l.map Prod.fst).Nodup →
      ∀ (k : String) (c : β), (k, c) ∈ l →
        l.find? (fun p => p.1 = k) = some (k, c)
  | [], _, k, c, h => absurd h (by simp)
  | (k0, c0) :: l, hn, k, c, h => by
      rw [List.map_cons, List.nodup_cons] at hn
      obtain ⟨hn1, hn2⟩ := hn
      rcases List.mem_cons.mp h with heq | hmem
      · injection heq with h1 h2
        subst h1
        subst h2
        simp [List.find?]
      · have hk : ¬(k0 = k) := by
          intro hkk
          apply hn1
          rw [hkk]
          exact List.mem_map.mpr ⟨(k, c), hmem, rfl⟩
        rw [List.find?]
        simp [hk]
        exact find_of_mem_nodup l hn2 k c hmem

theorem lookupCodec_of_mem (k : String) (c : FieldCodec)
    (h : (k, c) ∈ metadata_values) : lookupCodec k = some c := by
  unfold lookupCodec
  rw [find_of_mem_nodup metadata_values (by rw [metadata_values_keys]; decide) k c h]
  rfl

theorem validateEntries_canon :
    ∀ (kvs out : List (String × PyVal)), validateEntries kvs = .ok out →
      ∀ (k : String) (c : FieldCodec), (k, c) ∈ metadata_values →
        ∀ kv, out.find? (fun p => p.1 = k) = some kv → ∃ v, c.init v = .ok kv.2
  | [], out, h, k, c, hmem, kv, hfind => by
      simp [validateEntries] at h
      subst h
      simp at hfind
  | (k0, v0) :: kvs, out, h, k, c, hmem, kv, hfind => by
      unfold validateEntries at h
      rcases hl : lookupCodec k0 with _ | c0 <;> rw [hl] at h <;> simp at h
      rcases hi : c0.init v0 with e | w0 <;> rw [hi] at h <;> simp at h
      rcases ht : validateEntries kvs with e | tail <;> rw [ht] at h <;> simp at h
      subst h
      rw [List.find?] at hfind
      by_cases hk : k0 = k
      · subst hk
        simp at hfind
        subst hfind
        have : c = c0 := by
          have h2 := lookupCodec_of_mem k0 c hmem
          rw [hl] at h2
          injection h2 with h3
          exact h3.symm
        subst this
        exact ⟨v0, hi⟩
      · simp [hk] at hfind
        exact validateEntries_canon kvs tail ht k c hmem kv hfind

theorem validate_MdCanon (raw : PyVal) (md : List (String × PyVal))
    (hval : validate_metadata raw = .ok (.dict md)) : MdCanon md := by
  intro k c hmem kv hfind
  unfold validate_metadata at hval
  rcases raw with _ | _ | _ | _ | _ | kvs <;> simp at hval
  rcases he : validateEntries kvs with e | out <;> rw [he] at hval <;> simp at hval
  rcases hm : firstMissingMandatory (kvs.map Prod.fst) with _ | key <;>
    rw [hm] at hval <;> simp at hval
  subst hval
  exact validateEntries_canon kvs _ he k c hmem kv hfind

theorem create_doc_ordered_sim (identifier : Option String)
    (md : List (String × PyVal)) (hmd : MdCanon md)
    (order : List (String × FieldCodec))
    (horder : ∀ x ∈ order, x ∈ metadata_values) :
    (create_datacite_doc_ordered order identifier md =
      (if order.any (entryFailsB md) then Except.error subjectsSeqErr
       else .ok (applySlots (idTextOf identifier)
         (order.foldl (foldStep md) slotNil)))) ∧
    (order.any (entryFailsB md) = false →
      SlotsOK (order.foldl (foldStep md) slotNil)) := by
  have hsim := applyCodecs_sim md hmd (idTextOf identifier) order horder slotNil
    SlotsOK_slotNil
  refine ⟨?_, hsim.2⟩
  unfold create_datacite_doc_ordered
  rw [xml_add_text_base_doc identifier]
  simp only [except_bind_ok]
  exact hsim.1

theorem MVStringBase_extract_ok (tag : String) (ht : tag ∈ slotTags)
    (idText : String) (f : SlotFun) (hcl : SlotsClean f) :
    ∃ w, MVStringBase_extract tag (applySlots idText f) = .ok w := by
  unfold MVStringBase_extract
  rw [elementsByTag_applySlots tag ht idText f hcl]
  exact ⟨_, rfl⟩

theorem MVStringListBase_extract_ok (containerTag tag : String)
    (ht : containerTag ∈ slotTags) (idText : String) (f : SlotFun)
    (hcl : SlotsClean f) :
    ∃ w, MVStringListBase_extract containerTag tag (applySlots idText f) = .ok w := by
  unfold MVStringListBase_extract
  rw [elementsByTag_applySlots containerTag ht idText f hcl]
  exact ⟨_, rfl⟩

theorem MVDates_extract_ok (idText : String) (f : SlotFun) (hcl : SlotsClean f) :
    ∃ w, MVDates_extract (applySlots idText f) = .ok w := by
  unfold MVDates_extract
  rw [elementsByTag_applySlots "dates" (by decide) idText f hcl]
  exact ⟨_, rfl⟩

theorem MVResourceType_extract_ok (idText : String) (f : SlotFun)
    (hcl : SlotsClean f) :
    ∃ w, MVResourceType_extract (applySlots idText f) = .ok w := by
  unfold MVResourceType_extract
  rw [elementsByTag_applySlots "resourceType" (by decide) idText f hcl]
  exact ⟨_, rfl⟩

theorem MVAlternateIdentifiers_extract_ok (idText : String) (f : SlotFun)
    (hcl : SlotsClean f) :
    ∃ w, MVAlternateIdentifiers_extract (applySlots idText f) = .ok w := by
  unfold MVAlternateIdentifiers_extract
  rw [elementsByTag_applySlots "alternateIdentifiers" (by decide) idText f hcl]
  exact ⟨_, rfl⟩

theorem MVRelatedIdentifiers_extract_ok (idText : String) (f : SlotFun)
    (hcl : SlotsClean f) :
    ∃ w, MVRelatedIdentifiers_extract (applySlots idText f) = .ok w := by
  unfold MVRelatedIdentifiers_extract
  rw [elementsByTag_applySlots "relatedIdentifiers" (by decide) idText f hcl]
  exact ⟨_, rfl⟩

theorem MVRights_extract_ok (idText : String) (f : SlotFun) (hcl : SlotsClean f) :
    ∃ w, MVRights_extract (applySlots idText f) = .ok w := by
  unfold MVRights_extract
  rw [elementsByTag_applySlots "rightsList" (by decide) idText f hcl]
  exact ⟨_, rfl⟩

theorem MVGeoLocations_extract_ok (idText : String) (f : SlotFun)
    (hcl : SlotsClean f) :
    ∃ w, MVGeoLocations_extract (applySlots idText f) = .ok w := by
  unfold MVGeoLocations_extract
  rw [elementsByTag_applySlots "geoLocations" (by decide) idText f hcl]
  exact ⟨_, rfl⟩

theorem MVSubjects_extract_applySlots (idText : String) (f : SlotFun)
    (hok : SlotsOK f) :
    MVSubjects_extract (applySlots idText f) = .ok (.list []) := by
  unfold MVSubjects_extract
  rw [elementsByTag_applySlots "subjects" (by decide) idText f hok.1]
  have h2 : elGetElementsByTag "subject" (slotEl f "subjects") = [] := by
    unfold elGetElementsByTag slotEl
    rw [hok.2.1]
    rfl
  simp [h2, MVSubjects_extract_go]

theorem creatorOfEl_ok (n : XNode) (h : elGetElementsByTag "creatorName" n ≠ []) :
    ∃ w, creatorOfEl n = .ok w := by
  unfold creatorOfEl
  rcases hc : elGetElementsByTag "creatorName" n with _ | ⟨nameEl, rest⟩
  · exact absurd hc h
  · rcases elGetElementsByTag "affiliation" n with _ | _ <;> exact ⟨_, rfl⟩

theorem MVCreators_extract_ok (idText : String) (f : SlotFun) (hok : SlotsOK f) :
    ∃ w, MVCreators_extract (applySlots idText f) = .ok w := by
  unfold MVCreators_extract
  rw [elementsByTag_applySlots "creators" (by decide) idText f hok.1]
  have hc : elGetElementsByTag "creator" (slotEl f "creators") =
      elementsByTagL "creator" (f "creators").2 := rfl
  obtain ⟨vs, hvs⟩ := mapM_ok_of_forall creatorOfEl
    (elementsByTagL "creator" (f "creators").2)
    (fun n hn => creatorOfEl_ok n (hok.2.2.1 n hn))
  refine ⟨.list vs, ?_⟩
  simp [hc, hvs]

theorem contributorOfEl_ok (n : XNode)
    (h : elGetElementsByTag "contributorName" n ≠ []) :
    ∃ w, contributorOfEl n = .ok w := by
  unfold contributorOfEl
  rcases hc : elGetElementsByTag "contributorName" n with _ | ⟨nameEl, rest⟩
  · exact absurd hc h
  · rcases elGetElementsByTag "affiliation" n with _ | _ <;> exact ⟨_, rfl⟩

theorem MVContributors_extract_ok (idText : String) (f : SlotFun) (hok : SlotsOK f) :
    ∃ w, MVContributors_extract (applySlots idText f) = .ok w := by
  unfold MVContributors_extract
  rw [elementsByTag_applySlots "contributors" (by decide) idText f hok.1]
  have hc : elGetElementsByTag "contributor" (slotEl f "contributors") =
      elementsByTagL "contributor" (f "contributors").2 := rfl
  obtain ⟨vs, hvs⟩ := mapM_ok_of_forall contributorOfEl
    (elementsByTagL "contributor" (f "contributors").2)
    (fun n hn => contributorOfEl_ok n (hok.2.2.2 n hn))
  refine ⟨.list vs, ?_⟩
  simp [hc, hvs]

theorem MVDescriptions_extract_applySlots (idText : String) (f : SlotFun)
    (hcl : SlotsClean f) :
    MVDescriptions_extract (applySlots idText f) = .error (.nameError "contributors_el") := by
  unfold MVDescriptions_extract
  rw [elementsByTag_applySlots "descriptions" (by decide) idText f hcl]

theorem extract_ok_of_ne_descriptions (ek : String) (ec : FieldCodec)
    (he : (ek, ec) ∈ metadata_values) (hne : ¬(ek = "descriptions"))
    (idText : String) (f : SlotFun) (hok : SlotsOK f) :
    ∃ w, ec.extract_from_xml (applySlots idText f) = .ok w := by
  unfold metadata_values at he
  rcases he with _ | ⟨_, _ | ⟨_, _ | ⟨_, _ | ⟨_, _ | ⟨_, _ | ⟨_, _ | ⟨_, _ | ⟨_,
    _ | ⟨_, _ | ⟨_, _ | ⟨_, _ | ⟨_, _ | ⟨_, _ | ⟨_, _ | ⟨_, _ | ⟨_, h⟩⟩⟩⟩⟩⟩⟩⟩⟩⟩⟩⟩⟩⟩⟩⟩
  · exact MVCreators_extract_ok idText f hok
  · exact MVStringBase_extract_ok "title" (by decide) idText f hok.1
  · exact MVStringBase_extract_ok "publisher" (by decide) idText f hok.1
  · exact MVStringBase_extract_ok "publicationYear" (by decide) idText f hok.1
  · exact ⟨_, MVSubjects_extract_applySlots idText f hok⟩
  · exact MVContributors_extract_ok idText f hok
  · exact MVDates_extract_ok idText f hok.1
  · exact MVResourceType_extract_ok idText f hok.1
  · exact MVAlternateIdentifiers_extract_ok idText f hok.1
  · exact MVRelatedIdentifiers_extract_ok idText f hok.1
  · exact MVStringListBase_extract_ok "sizes" "size" (by decide) idText f hok.1
  · exact MVStringListBase_extract_ok "formats" "format" (by decide) idText f hok.1
  · exact MVStringBase_extract_ok "version" (by decide) idText f hok.1
  · exact MVRights_extract_ok idText f hok.1
  · exact absurd rfl hne
  · exact MVGeoLocations_extract_ok idText f hok.1
  · cases h

theorem xml_to_metadata_ordered_err (idText : String) (f : SlotFun)
    (hok : SlotsOK f) :
    ∀ order : List (String × FieldCodec), (∀ x ∈ order, x ∈ metadata_values) →
      ("descriptions", MVDescriptions_codec) ∈ order →
      xml_to_metadata_doc_ordered order (applySlots idText f) =
        .error (.nameError "contributors_el")
  | [], _, hdesc => absurd hdesc (by simp)
  | (ek, ec) :: rest, horder, hdesc => by
      unfold xml_to_metadata_doc_ordered
      unfold pyMapM
      by_cases hne : ek = "descriptions"
      · subst hne
        have hc : ec = MVDescriptions_codec := by
          have h1 := table_key_inj ("descriptions", ec)
            (horder ("descriptions", ec) (by simp))
            ("descriptions", MVDescriptions_codec) (by unfold metadata_values; simp) rfl
          injection h1 with _ h2
        subst hc
        rw [show MVDescriptions_codec.extract_from_xml (applySlots idText f) =
          .error (.nameError "contributors_el") from
            MVDescriptions_extract_applySlots idText f hok.1]
        rfl
      · obtain ⟨w, hw⟩ := extract_ok_of_ne_descriptions ek ec
          (horder (ek, ec) (by simp)) hne idText f hok
        rw [hw]
        have hdesc2 : ("descriptions", MVDescriptions_codec) ∈ rest := by
          rcases List.mem_cons.mp hdesc with heq | h2
          · injection heq with h3 _
            exact absurd h3.symm hne
          · exact h2
        have hrest := xml_to_metadata_ordered_err idText f hok rest
          (fun x hx => horder x (by simp [hx])) hdesc2
        unfold xml_to_metadata_doc_ordered at hrest
        simp only [except_pure_eq] at hrest
        simp [hrest]

/-- A heap of Python dictionary objects for the frame analysis of
validate_metadata: addresses below next are allocated. -/
structure Store where
  next : Nat
  mem : Nat → List (String × PyVal)

/-- Allocation of a fresh dictionary, as performed by the literal in
md2 = at line 151 of src/ezid/__init__.py. -/
def storeAlloc (σ : Store) (d : List (String × PyVal)) : Nat × Store :=
  (σ.next, ⟨σ.next + 1, fun b => if b = σ.next then d else σ.mem b⟩)

/-- In-place replacement of the dictionary stored at one address. -/
def storeWrite (σ : Store) (a : Nat) (d : List (String × PyVal)) : Store :=
  ⟨σ.next, fun b => if b = a then d else σ.mem b⟩

/-- Python dictionary item assignment: replace the value of an existing
key in place, otherwise append the new pair at the end. -/
def dictSet : List (String × PyVal) → String → PyVal → List (String × PyVal)
  | [], k, v => [(k, v)]
  | (k1, v1) :: rest, k, v =>
      if k1 = k then (k1, v) :: rest else (k1, v1) :: dictSet rest k v

/-- Repeated dictionary item assignment, left to right. -/
def dictInsertAll (d : List (String × PyVal)) (pairs : List (String × PyVal)) :
    List (String × PyVal) :=
  pairs.foldl (fun acc kw => dictSet acc kw.1 kw.2) d

/-- The first loop of validate_metadata acting on the store: each
iteration performs the item assignment into the dictionary at outAddr. -/
def validateEntriesSt (outAddr : Nat) :
    List (String × PyVal) → Store → Except PyErr Store
  | [], σ => .ok σ
  | (k, v) :: rest, σ =>
      match lookupCodec k with
      | Option.none => .error (.valueError ("unknown metadata key \"" ++ k ++ "\""))
      | some c => do
          let w ← c.init v
          validateEntriesSt outAddr rest
            (storeWrite σ outAddr (dictSet (σ.mem outAddr) k w))

/-- Store-passing embedding of validate_metadata of src/ezid/__init__.py:
the input mapping lives at address mdAddr, the dictionary literal
allocates md2 fresh, the first loop assigns into md2 in place, and the
second loop reads the input mapping again. The result is the address of
md2 together with the final store. -/
def validate_metadata_st (σ : Store) (mdAddr : Nat) : Except PyErr (Nat × Store) :=
  match storeAlloc σ [] with
  | (outAddr, σ1) => do
      let σ2 ← validateEntriesSt outAddr (σ.mem mdAddr) σ1
      match firstMissingMandatory ((σ2.mem mdAddr).map Prod.fst) with
      | some key =>
          .error (.valueError ("missing mandatory metadata key \"" ++ key ++ "\""))
      | Option.none => .ok (outAddr, σ2)

theorem storeWrite_mem_self (σ : Store) (a : Nat) (d : List (String × PyVal)) :
    (storeWrite σ a d).mem a = d := by
  simp [storeWrite]

theorem storeWrite_mem_ne (σ : Store) (a b : Nat) (d : List (String × PyVal))
    (h : ¬(b = a)) : (storeWrite σ a d).mem b = σ.mem b := by
  simp [storeWrite, h]

theorem storeWrite_storeWrite (σ : Store) (a : Nat) (d1 d2 : List (String × PyVal)) :
    storeWrite (storeWrite σ a d1) a d2 = storeWrite σ a d2 := by
  unfold storeWrite
  simp only [Store.mk.injEq, true_and]
  funext b
  by_cases h : b = a <;> simp [h]

theorem storeWrite_self (σ : Store) (a : Nat) : storeWrite σ a (σ.mem a) = σ := by
  cases σ with
  | mk n m =>
      unfold storeWrite
      simp only [Store.mk.injEq, true_and]
      funext b
      by_cases h : b = a <;> simp [h]

theorem dictSet_not_mem : ∀ (d : List (String × PyVal)) (k : String) (v : PyVal),
    k ∉ d.map Prod.fst → dictSet d k v = d ++ [(k, v)]
  | [], k, v, _ => rfl
  | (k1, v1) :: rest, k, v, h => by
      have h1 : ¬(k1 = k) := by
        intro he
        exact h (by simp [he])
      have h2 : k ∉ rest.map Prod.fst := by
        intro he
        exact h (by simp [he])
      unfold dictSet
      rw [if_neg h1, dictSet_not_mem rest k v h2]
      rfl

theorem dictInsertAll_disjoint :
    ∀ (pairs d : List (String × PyVal)), (pairs.map Prod.fst).Nodup →
      (∀ k ∈ pairs.map Prod.fst, k ∉ d.map Prod.fst) →
      dictInsertAll d pairs = d ++ pairs
  | [], d, _, _ => by simp [dictInsertAll]
  | (k, v) :: rest, d, hnd, hdisj => by
      rw [List.map_cons, List.nodup_cons] at hnd
      have h1 : dictSet d k v = d ++ [(k, v)] :=
        dictSet_not_mem d k v (hdisj k (by simp))
      rw [show dictInsertAll d ((k, v) :: rest) =
        dictInsertAll (dictSet d k v) rest from rfl, h1]
      have h2 : ∀ x ∈ rest.map Prod.fst, x ∉ (d ++ [(k, v)]).map Prod.fst := by
        intro x hx
        rw [List.map_append]
        intro hmem
        rcases List.mem_append.mp hmem with h3 | h3
        · exact hdisj x (by simp [hx]) h3
        · simp at h3
          exact hnd.1 (h3 ▸ hx)
      rw [dictInsertAll_disjoint rest (d ++ [(k, v)]) hnd.2 h2]
      simp

theorem validateEntries_keys :
    ∀ (entries md2 : List (String × PyVal)), validateEntries entries = .ok md2 →
      md2.map Prod.fst = entries.map Prod.fst
  | [], md2, h => by
      unfold validateEntries at h
      injection h with h1
      rw [← h1]
  | (k, v) :: rest, md2, h => by
      unfold validateEntries at h
      rcases hl : lookupCodec k with _ | c <;> rw [hl] at h
      · simp at h
      · replace h : (do
            let w ← c.init v
            let tail ← validateEntries rest
            Except.ok ((k, w) :: tail)) = Except.ok md2 := h
        rcases hi : c.init v with e | w <;> rw [hi] at h <;> try simp at h
        rcases ht : validateEntries rest with e | tail <;> rw [ht] at h <;>
          simp at h
        rw [← h, List.map_cons, List.map_cons,
          validateEntries_keys rest tail ht]

theorem validateEntriesSt_eq :
    ∀ (entries : List (String × PyVal)) (σ : Store) (outAddr : Nat),
      validateEntriesSt outAddr entries σ =
        match validateEntries entries with
        | .error e => .error e
        | .ok md2 => .ok (storeWrite σ outAddr (dictInsertAll (σ.mem outAddr) md2))
  | [], σ, outAddr => by
      unfold validateEntriesSt validateEntries
      simp [dictInsertAll, storeWrite_self]
  | (k, v) :: rest, σ, outAddr => by
      unfold validateEntriesSt validateEntries
      rcases hl : lookupCodec k with _ | c
      · rfl
      · show (do
            let w ← c.init v
            validateEntriesSt outAddr rest
              (storeWrite σ outAddr (dictSet (σ.mem outAddr) k w))) =
          match (do
            let w ← c.init v
            let tail ← validateEntries rest
            Except.ok ((k, w) :: tail)) with
          | .error e => .error e
          | .ok md2 => .ok (storeWrite σ outAddr (dictInsertAll (σ.mem outAddr) md2))
        rcases hi : c.init v with e | w
        · simp [hi]
        · simp only [hi, except_bind_ok]
          rw [validateEntriesSt_eq rest _ outAddr]
          rcases ht : validateEntries rest with e | tail <;>
            simp only [ht, except_bind_ok, except_bind_error]
          rw [storeWrite_mem_self, storeWrite_storeWrite]
          rfl

/-- The store after the dictionary literal of validate_metadata allocates
md2 at the fresh address. -/
def allocStep (σ : Store) : Store :=
  ⟨σ.next + 1, fun b => if b = σ.next then [] else σ.mem b⟩

theorem allocStep_mem_next (σ : Store) : (allocStep σ).mem σ.next = [] := by
  simp [allocStep]

theorem allocStep_mem_ne (σ : Store) (a : Nat) (h : ¬(a = σ.next)) :
    (allocStep σ).mem a = σ.mem a := by
  simp [allocStep, h]

theorem validate_metadata_st_ok (σ : Store) (mdAddr : Nat) (res : Nat × Store)
    (hval : validate_metadata_st σ mdAddr = .ok res) :
    ∃ md2, validateEntries (σ.mem mdAddr) = .ok md2 ∧
      res = (σ.next, storeWrite (allocStep σ) σ.next
        (dictInsertAll ((allocStep σ).mem σ.next) md2)) := by
  replace hval : (do
      let σ2 ← validateEntriesSt σ.next (σ.mem mdAddr) (allocStep σ)
      match firstMissingMandatory ((σ2.mem mdAddr).map Prod.fst) with
      | some key =>
          Except.error (PyErr.valueError
            ("missing mandatory metadata key \"" ++ key ++ "\""))
      | Option.none => Except.ok (σ.next, σ2)) = Except.ok res := hval
  rw [validateEntriesSt_eq] at hval
  rcases hve : validateEntries (σ.mem mdAddr) with e | md2 <;> rw [hve] at hval
  · exact Except.noConfusion hval
  · replace hval : (match firstMissingMandatory
        (((storeWrite (allocStep σ) σ.next
            (dictInsertAll ((allocStep σ).mem σ.next) md2)).mem mdAddr).map
          Prod.fst) with
      | some key =>
          Except.error (PyErr.valueError
            ("missing mandatory metadata key \"" ++ key ++ "\""))
      | Option.none =>
          Except.ok (σ.next, storeWrite (allocStep σ) σ.next
            (dictInsertAll ((allocStep σ).mem σ.next) md2))) = Except.ok res := hval
    rcases hfm : firstMissingMandatory
        (((storeWrite (allocStep σ) σ.next
            (dictInsertAll ((allocStep σ).mem σ.next) md2)).mem mdAddr).map
          Prod.fst) with _ | key <;> rw [hfm] at hval
    · injection hval with h
      exact ⟨md2, rfl, h.symm⟩
    · exact Except.noConfusion hval

/-- Claim C10: validate_metadata never mutates the mapping it is given: on
every store in which the input mapping is an allocated object with distinct
keys, a successful call leaves every previously allocated object (the input
mapping included) holding exactly the value it held before the call,
returns a mapping allocated at a fresh address distinct from the input
address, and the returned mapping has the same key list as the input
mapping. -/
theorem validate_metadata_no_mutation (σ : Store) (mdAddr : Nat)
    (hlt : mdAddr < σ.next)
    (hnd : ((σ.mem mdAddr).map Prod.fst).Nodup)
    (res : Nat × Store)
    (hval : validate_metadata_st σ mdAddr = .ok res) :
    res.1 = σ.next ∧ ¬(res.1 = mdAddr) ∧
    (∀ a, a < σ.next → res.2.mem a = σ.mem a) ∧
    res.2.mem mdAddr = σ.mem mdAddr ∧
    (res.2.mem res.1).map Prod.fst = (σ.mem mdAddr).map Prod.fst := by
  obtain ⟨md2, hve, hres⟩ := validate_metadata_st_ok σ mdAddr res hval
  have hkeys : md2.map Prod.fst = (σ.mem mdAddr).map Prod.fst :=
    validateEntries_keys _ _ hve
  have hd : dictInsertAll ((allocStep σ).mem σ.next) md2 = md2 := by
    rw [allocStep_mem_next,
      dictInsertAll_disjoint md2 [] (hkeys ▸ hnd) (by intro k _ hk; simp at hk)]
    simp
  have hne : ¬(σ.next = mdAddr) := fun h => absurd (h ▸ hlt) (Nat.lt_irrefl _)
  have h1 : res.1 = σ.next := by rw [hres]
  have h2 : res.2 = storeWrite (allocStep σ) σ.next
      (dictInsertAll ((allocStep σ).mem σ.next) md2) := by rw [hres]
  refine ⟨h1, ?_, ?_, ?_, ?_⟩
  · rw [h1]
    exact hne
  · intro a ha
    have ha2 : ¬(a = σ.next) := Nat.ne_of_lt ha
    rw [h2, storeWrite_mem_ne _ _ _ _ ha2, allocStep_mem_ne σ a ha2]
  · have ha2 : ¬(mdAddr = σ.next) := fun h => hne h.symm
    rw [h2, storeWrite_mem_ne _ _ _ _ ha2, allocStep_mem_ne σ mdAddr ha2]
  · rw [h1, h2, storeWrite_mem_self, hd, hkeys]

/-- A store holding one metadata mapping at address 0. -/
def c10Store : Store :=
  ⟨1, fun a => if a = 0 then
    [("creators", .list [.str "Jane Doe"]), ("title", .str "T"),
     ("publisher", .str "P"), ("publicationyear", .str "1999")] else []⟩

/-- The result of running validate_metadata on that store. -/
def c10Res : Nat × Store :=
  (validate_metadata_st c10Store 0).toOption.getD (0, c10Store)

/-- Witness for claim C10 at a concrete store. -/
theorem validate_metadata_no_mutation_witness :
    0 < c10Store.next ∧ ((c10Store.mem 0).map Prod.fst).Nodup ∧
    validate_metadata_st c10Store 0 = .ok c10Res ∧
    c10Res.1 = c10Store.next ∧ ¬(c10Res.1 = 0) ∧
    c10Res.2.mem 0 = c10Store.mem 0 ∧
    (c10Res.2.mem c10Res.1).map Prod.fst = (c10Store.mem 0).map Prod.fst := by
  have hok : validate_metadata_st c10Store 0 = .ok c10Res := by rfl
  have h := validate_metadata_no_mutation c10Store 0 (by decide) (by decide)
    c10Res hok
  exact ⟨by decide, by decide, hok, h.1, h.2.1, h.2.2.2.1, h.2.2.2.2⟩

/-- A canonical subjects value: one (subject, subjectScheme, schemeURI)
triple with an absent URI. -/
def c1SubjectsVal : PyVal := .list [.tuple [.str "math", .str "LCSH", .none]]

/-- A canonical descriptions value: one (descriptionType, description)
pair with a controlled type. -/
def c1DescVal : PyVal := .list [.tuple [.str "Abstract", .str "An abstract."]]

/-- Claim C1: the round-trip property fails in the code for two codecs.
The canonical subjects value [("math", "LCSH", absent)] is accepted by
the subjects constructor unchanged and its serialization into the base
template succeeds, yet deserializing the serialized document yields the
empty list, because the serializer builds orphan elements with the
misspelled tag subjet and never attaches them to the container.  The
canonical descriptions value is serialized correctly, but the
descriptions deserializer raises a NameError for the undefined name
contributors_el on every document with a descriptions container,
including the one its own serializer produced. -/
theorem roundtrip_failure :
    MVSubjects_codec.init c1SubjectsVal = .ok c1SubjectsVal ∧
    (do
      let d0 ← xml_add_text base_doc "identifier" "(:tba)"
      let d1 ← MVSubjects_codec.update_xml c1SubjectsVal d0
      MVSubjects_codec.extract_from_xml d1) = .ok (.list []) ∧
    ¬(c1SubjectsVal = .list []) ∧
    MVDescriptions_codec.init c1DescVal = .ok c1DescVal ∧
    (do
      let d0 ← xml_add_text base_doc "identifier" "(:tba)"
      let d1 ← MVDescriptions_codec.update_xml c1DescVal d0
      MVDescriptions_codec.extract_from_xml d1) =
      .error (.nameError "contributors_el") :=
  ⟨rfl, rfl, by decide, rfl, rfl⟩

theorem pyMapM_bare_str (g : PyVal → Except PyErr PyVal)
    (hg : ∀ s : String, g (.str s) = .ok (.tuple [.str s, .none])) :
    ∀ ss : List String, pyMapM g (ss.map PyVal.str) =
      .ok (ss.map fun s => .tuple [.str s, .none])
  | [] => rfl
  | s :: ss => by
      simp [pyMapM, hg s, pyMapM_bare_str g hg ss]

/-- Claim C2 counterexample: the rights constructor rejects the bare
string "CC-BY" standing for the whole value: a bare string is accepted
only as an element of the sequence, not in place of the sequence. -/
theorem rights_bare_string_rejected :
    MVRights_codec.init (.str "CC-BY") =
      .error (.valueError "rights must be a list or a tuple") := rfl

/-- Claim C2 (amended): shape flexibility holds at the element level: a
bare string element normalizes to a (value, absent) pair, so the raw
input creators = ["Jane Doe"] normalizes to [("Jane Doe", absent)] and a
rights sequence of bare strings such as ["CC-BY"] normalizes to pairs
with absent auxiliaries; a bare string in place of the whole rights
sequence is rejected with a ValueError. -/
theorem bare_string_normalization (ss : List String) :
    MVCreators_init (.list (ss.map PyVal.str)) =
      .ok (.list (ss.map fun s => .tuple [.str s, .none])) ∧
    MVRights_init (.list (ss.map PyVal.str)) =
      .ok (.list (ss.map fun s => .tuple [.str s, .none])) ∧
    (∀ s : String, MVRights_init (.str s) =
      .error (.valueError "rights must be a list or a tuple")) := by
  refine ⟨?_, ?_, fun s => rfl⟩
  · show (do
        let out ← pyMapM MVCreators_elem (ss.map PyVal.str)
        Except.ok (PyVal.list out)) =
      Except.ok (.list (ss.map fun s => .tuple [.str s, .none]))
    rw [pyMapM_bare_str MVCreators_elem (fun s => rfl) ss]
    rfl
  · show (do
        let out ← pyMapM MVRights_elem (ss.map PyVal.str)
        Except.ok (PyVal.list out)) =
      Except.ok (.list (ss.map fun s => .tuple [.str s, .none]))
    rw [pyMapM_bare_str MVRights_elem (fun s => rfl) ss]
    rfl

/-- Witness for claim C2 at the two values named by the specification. -/
theorem bare_string_normalization_witness :
    MVCreators_init (.list [.str "Jane Doe"]) =
      .ok (.list [.tuple [.str "Jane Doe", .none]]) ∧
    MVRights_init (.str "CC-BY") =
      .error (.valueError "rights must be a list or a tuple") := by
  have h := bare_string_normalization ["Jane Doe"]
  exact ⟨h.1, h.2.2 "CC-BY"⟩

theorem pyYearMatch_iff (s : String) :
    pyYearMatch s = true ↔
      ((s.toList.length = 4 ∧ ∀ c ∈ s.toList, c.isDigit = true) ∨
       (s.toList.length = 5 ∧ s.toList.drop 4 = ['\n'] ∧
        ∀ c ∈ s.toList.take 4, c.isDigit = true)) := by
  unfold pyYearMatch
  rcases ht : s.toList with _ | ⟨a, _ | ⟨b, _ | ⟨c, _ | ⟨d, _ | ⟨e, _ | ⟨g, l⟩⟩⟩⟩⟩⟩ <;>
    simp <;> tauto

/-- Claim C7 counterexample: the string of the four digits 1999 followed
by a newline is accepted by the publicationYear constructor, although it
is not four ASCII digits and nothing else. -/
theorem publicationyear_newline_accepted :
    MVPublicationYear_codec.init (.str "1999\n") = .ok (.str "1999\n") ∧
    "1999\n".toList.length = 5 := ⟨rfl, by decide⟩

/-- Claim C7 (amended): the publicationYear constructor succeeds exactly
on the strings of four ASCII digits optionally followed by one final
newline, because the dollar anchor of Python re.search also matches just
before a string-final newline; every other string is rejected with a
ValueError at construction time, every non-string with a ValueError, and
the serializer performs no check: it writes any string into the
publicationYear element. -/
theorem publicationyear_check (s : String) :
    (MVPublicationYear_init (.str s) = .ok (.str s) ↔
      ((s.toList.length = 4 ∧ ∀ c ∈ s.toList, c.isDigit = true) ∨
       (s.toList.length = 5 ∧ s.toList.drop 4 = ['\n'] ∧
        ∀ c ∈ s.toList.take 4, c.isDigit = true))) ∧
    (pyYearMatch s = false →
      MVPublicationYear_init (.str s) =
        .error (.valueError "publicationyear must be a four-digit number")) ∧
    (∀ v : PyVal, (∀ u, ¬(v = .str u)) →
      MVPublicationYear_init v =
        .error (.valueError "publicationyear must be a basestring")) ∧
    (∀ (idText : String) (f : SlotFun), SlotsClean f →
      MVPublicationYear_codec.update_xml (.str s) (applySlots idText f) =
        .ok (applySlots idText (slotUpdate f "publicationYear" ([], [.text s])))) := by
  refine ⟨?_, ?_, ?_, ?_⟩
  · rw [← pyYearMatch_iff]
    unfold MVPublicationYear_init
    rcases h : pyYearMatch s with _ | _ <;> simp [h]
  · intro h
    simp [MVPublicationYear_init, h]
  · intro v hv
    rcases v with u | _ | _ | _ | _ | _
    · exact absurd rfl (hv u)
    all_goals rfl
  · intro idText f hcl
    exact MVStringBase_update_sim "publicationYear" (by decide) idText f hcl s

/-- Witness for claim C7: a digits-and-newline string is accepted, a
three-digit string is rejected, a non-string is rejected, and the
serializer writes a non-year string without complaint. -/
theorem publicationyear_check_witness :
    MVPublicationYear_init (.str "1999\n") = .ok (.str "1999\n") ∧
    MVPublicationYear_init (.str "199") =
      .error (.valueError "publicationyear must be a four-digit number") ∧
    MVPublicationYear_init (.int 1999) =
      .error (.valueError "publicationyear must be a basestring") ∧
    MVPublicationYear_codec.update_xml (.str "not a year")
        (applySlots "(:tba)" slotNil) =
      .ok (applySlots "(:tba)"
        (slotUpdate slotNil "publicationYear" ([], [.text "not a year"]))) := by
  have h1 := publicationyear_check "1999\n"
  have h2 := publicationyear_check "199"
  have h3 := publicationyear_check "not a year"
  refine ⟨(h1.1).mpr (Or.inr ⟨by decide, by decide, by decide⟩),
    h2.2.1 (by decide), ?_, ?_⟩
  · exact h2.2.2.1 (.int 1999) (fun u h => PyVal.noConfusion h)
  · exact h3.2.2.2 "(:tba)" slotNil SlotsClean_slotNil

/-- Claim C3: for every response body returned by the transport during
update_metadata on a record whose new metadata validates and renders, a
body beginning with error: raises RequestError with the stripped
remainder and leaves the state exactly as before the call, a body not
beginning with success: raises UpdateError and leaves the state exactly
as before the call, and the in-memory metadata is replaced with the
validated new metadata exactly when the body begins with success:. -/
theorem update_metadata_state (st : DOIState) (metadata : PyVal) (body : String)
    (kvs : List (String × PyVal)) (x : String)
    (hval : validate_metadata metadata = .ok (.dict kvs))
    (hcr : create_datacite_xml (some st.identifier) kvs = .ok x) :
    (pyStartsWith body "error:" = true →
      update_metadata st metadata body =
        (some (.requestError (pyStrip (pyDrop body 6))), st)) ∧
    (pyStartsWith body "error:" = false → pyStartsWith body "success:" = false →
      update_metadata st metadata body =
        (some (.updateError "bad content returned from EZID"), st)) ∧
    (pyStartsWith body "error:" = false → pyStartsWith body "success:" = true →
      update_metadata st metadata body =
        (Option.none, { st with metadata := kvs })) := by
  refine ⟨fun he => ?_, fun he hs => ?_, fun he hs => ?_⟩
  · simp [update_metadata, hval, hcr, he]
  · simp [update_metadata, hval, hcr, he, hs]
  · simp [update_metadata, hval, hcr, he, hs]

/-- A DOI instance before an update_metadata call. -/
def c3St : DOIState := ⟨"10.5072/FK2", "http://example.org/x", []⟩

/-- A raw metadata mapping with the four mandatory fields. -/
def c3Md : PyVal :=
  .dict [("creators", .list [.str "Jane Doe"]), ("title", .str "T"),
    ("publisher", .str "P"), ("publicationyear", .str "1999")]

/-- Its canonical form. -/
def c3Kvs : List (String × PyVal) :=
  [("creators", .list [.tuple [.str "Jane Doe", .none]]), ("title", .str "T"),
   ("publisher", .str "P"), ("publicationyear", .str "1999")]

/-- The XML rendered for the request body. -/
def c3Xml : String :=
  (create_datacite_xml (some c3St.identifier) c3Kvs).toOption.getD ""

/-- Witness for claim C3 on concrete error and success bodies. -/
theorem update_metadata_state_witness :
    validate_metadata c3Md = .ok (.dict c3Kvs) ∧
    create_datacite_xml (some c3St.identifier) c3Kvs = .ok c3Xml ∧
    update_metadata c3St c3Md "error: bad" =
      (some (.requestError (pyStrip (pyDrop "error: bad" 6))), c3St) ∧
    update_metadata c3St c3Md "obscure" =
      (some (.updateError "bad content returned from EZID"), c3St) ∧
    update_metadata c3St c3Md "success: ok" =
      (Option.none, { c3St with metadata := c3Kvs }) := by
  have hval : validate_metadata c3Md = .ok (.dict c3Kvs) := by rfl
  have hcr : create_datacite_xml (some c3St.identifier) c3Kvs = .ok c3Xml := by rfl
  have h1 := update_metadata_state c3St c3Md "error: bad" c3Kvs c3Xml hval hcr
  have h2 := update_metadata_state c3St c3Md "obscure" c3Kvs c3Xml hval hcr
  have h3 := update_metadata_state c3St c3Md "success: ok" c3Kvs c3Xml hval hcr
  exact ⟨hval, hcr, h1.1 (by decide), h2.2.1 (by decide) (by decide),
    h3.2.2 (by decide) (by decide)⟩

/-- The success-line reading of the mint scan, following the words of the
specification: only the pipe-delimited segments of the remainder of the
success line itself are scanned for a doi: segment. -/
def mint_response_first_line (content : String) : Except PyErr String :=
  match ((pySplitChar '|'
      (String.mk ((pyDrop content 8).toList.takeWhile fun c => ¬(c = '\n')))).map
      pyStrip).find? (fun part => pyStartsWith part "doi:") with
  | some part => .ok (pyDrop part 4)
  | Option.none => .error (.mintError "no identifier returned from EZID")

/-- Claim C5 counterexample: on the body "success: a|\ndoi:10.1/x" the
scan is over the whole remaining body, not over the success line: no
segment of the success line begins with doi:, so the claim predicts
MintError, but mint_response finds the doi: segment on the second line
and returns 10.1/x. -/
theorem mint_scans_whole_body :
    mint_response "success: a|\ndoi:10.1/x" = .ok "10.1/x" ∧
    mint_response_first_line "success: a|\ndoi:10.1/x" =
      .error (.mintError "no identifier returned from EZID") := ⟨rfl, rfl⟩

/-- Claim C5 (amended): for every transport response body that begins
with success: (and not with error:), the whole remaining body is
stripped and split on pipes, each segment is stripped: if some segment
begins with doi: then mint returns the first such segment with the doi:
prefix removed, and if no segment begins with doi: then mint raises
MintError. -/
theorem mint_response_amended (content : String)
    (he : pyStartsWith content "error:" = false)
    (hs : pyStartsWith content "success:" = true) :
    ((∃ p ∈ (pySplitChar '|' (pyStrip (pyDrop content 8))).map pyStrip,
        pyStartsWith p "doi:" = true) →
      ∃ p, ((pySplitChar '|' (pyStrip (pyDrop content 8))).map pyStrip).find?
          (fun part => pyStartsWith part "doi:") = some p ∧
        pyStartsWith p "doi:" = true ∧ mint_response content = .ok (pyDrop p 4)) ∧
    ((∀ p ∈ (pySplitChar '|' (pyStrip (pyDrop content 8))).map pyStrip,
        pyStartsWith p "doi:" = false) →
      mint_response content =
        .error (.mintError "no identifier returned from EZID")) := by
  constructor
  · intro hex
    obtain ⟨p, hp1, hp2⟩ := hex
    have hsome : (((pySplitChar '|' (pyStrip (pyDrop content 8))).map pyStrip).find?
        (fun part => pyStartsWith part "doi:")).isSome :=
      List.find?_isSome.mpr ⟨p, hp1, hp2⟩
    obtain ⟨q, hq⟩ := Option.isSome_iff_exists.mp hsome
    have hq2 := List.find?_some hq
    refine ⟨q, hq, hq2, ?_⟩
    simp [mint_response, he, hs, hq]
  · intro hall
    have hnone : ((pySplitChar '|' (pyStrip (pyDrop content 8))).map pyStrip).find?
        (fun part => pyStartsWith part "doi:") = Option.none :=
      List.find?_eq_none.mpr (fun x hx => by simp [hall x hx])
    simp [mint_response, he, hs, hnone]

/-- Witness for claim C5 on the success body named by the specification. -/
theorem mint_response_amended_witness :
    (pyStartsWith "success: doi:10.5072/FK2xyz | ark:/some/ark" "error:" = false) ∧
    (pyStartsWith "success: doi:10.5072/FK2xyz | ark:/some/ark" "success:" = true) ∧
    mint_response "success: doi:10.5072/FK2xyz | ark:/some/ark" =
      .ok "10.5072/FK2xyz" := by
  have h := mint_response_amended "success: doi:10.5072/FK2xyz | ark:/some/ark"
    (by decide) (by decide)
  obtain ⟨p, hp1, hp2, hp3⟩ := h.1 ⟨"doi:10.5072/FK2xyz", by decide, by decide⟩
  have hp : p = "doi:10.5072/FK2xyz" := by
    have hfind : (((pySplitChar '|' (pyStrip
        (pyDrop "success: doi:10.5072/FK2xyz | ark:/some/ark" 8))).map
          pyStrip).find? (fun part => pyStartsWith part "doi:")) =
        some "doi:10.5072/FK2xyz" := by rfl
    rw [hfind] at hp1
    injection hp1 with h2
    exact h2.symm
  subst hp
  exact ⟨by decide, by decide, hp3⟩

theorem load_fold_no_datacite :
    ∀ (ls : List String) (acc : Option String × Option String),
      (∀ line ∈ ls, pyStartsWith line "datacite: " = false) →
      (ls.foldl (fun acc line =>
        (if pyStartsWith line "datacite: " = true then
          some (pyUnquote (pyDrop line 10)) else acc.1,
         if pyStartsWith line "_target: " = true then
          some (pyDrop line 9) else acc.2)) acc).1 = acc.1
  | [], _, _ => rfl
  | l :: ls, acc, h => by
      rw [List.foldl_cons,
        load_fold_no_datacite ls _ (fun x hx => h x (by simp [hx]))]
      simp [h l (by simp)]

theorem load_fold_no_target :
    ∀ (ls : List String) (acc : Option String × Option String),
      (∀ line ∈ ls, pyStartsWith line "_target: " = false) →
      (ls.foldl (fun acc line =>
        (if pyStartsWith line "datacite: " = true then
          some (pyUnquote (pyDrop line 10)) else acc.1,
         if pyStartsWith line "_target: " = true then
          some (pyDrop line 9) else acc.2)) acc).2 = acc.2
  | [], _, _ => rfl
  | l :: ls, acc, h => by
      rw [List.foldl_cons,
        load_fold_no_target ls _ (fun x hx => h x (by simp [hx]))]
      simp [h l (by simp)]

/-- Claim C6 counterexample: the error: classification of load looks only
at the start of the body, not at every line: this body has a line that
begins with error: and contains the substring no such identifier, so the
claim predicts NotFoundError, but load raises the generic no-success
RequestError. -/
theorem load_error_line_not_scanned :
    ((pySplitChar '\n' "x\nerror: no such identifier y").any
      (fun l => pyStartsWith l "error:" && decide (pyIn "no such identifier" l))
      = true) ∧
    load_response "X" "x\nerror: no such identifier y" =
      .error (.requestError "no success line in request response") ∧
    ¬(load_response "X" "x\nerror: no such identifier y" =
      .error (.notFoundError "X")) := by
  have hres : load_response "X" "x\nerror: no such identifier y" =
      .error (.requestError "no success line in request response") := by rfl
  refine ⟨by decide, hres, ?_⟩
  rw [hres]
  simp

/-- Claim C6 (amended): the response-body classification of load: a body
(not a line) beginning with error: yields NotFoundError when the body
contains the substring no such identifier and otherwise RequestError
with the stripped remainder of the body; a body beginning with neither
error: nor success: yields the no-success RequestError; a success body
none of whose lines begins with the datacite: prefix yields the
no-datacite RequestError; and a success body none of whose lines begins
with the _target: prefix yields the no-datacite or the no-landing-page
RequestError. -/
theorem load_response_amended (identifier content : String) :
    (pyStartsWith content "error:" = true → pyIn "no such identifier" content →
      load_response identifier content = .error (.notFoundError identifier)) ∧
    (pyStartsWith content "error:" = true →
      ¬pyIn "no such identifier" content →
      load_response identifier content =
        .error (.requestError (pyStrip (pyDrop content 6)))) ∧
    (pyStartsWith content "error:" = false →
      pyStartsWith content "success:" = false →
      load_response identifier content =
        .error (.requestError "no success line in request response")) ∧
    (pyStartsWith content "error:" = false →
      pyStartsWith content "success:" = true →
      (∀ line ∈ pySplitChar '\n' content,
        pyStartsWith line "datacite: " = false) →
      load_response identifier content =
        .error (.requestError "no datacite field in request response")) ∧
    (pyStartsWith content "error:" = false →
      pyStartsWith content "success:" = true →
      (∀ line ∈ pySplitChar '\n' content,
        pyStartsWith line "_target: " = false) →
      (load_response identifier content =
        .error (.requestError "no datacite field in request response") ∨
       load_response identifier content =
        .error (.requestError "no landing page in request response"))) := by
  refine ⟨fun he hin => ?_, fun he hin => ?_, fun he hs => ?_,
    fun he hs hd => ?_, fun he hs ht => ?_⟩
  · simp [load_response, he, decide_eq_true hin]
  · simp [load_response, he, decide_eq_false hin]
  · simp [load_response, he, hs]
  · have hfold := load_fold_no_datacite (pySplitChar '\n' content)
      (Option.none, Option.none) hd
    simp [load_response, he, hs, hfold, pyTruthyOptStr]
  · have hfold := load_fold_no_target (pySplitChar '\n' content)
      (Option.none, Option.none) ht
    rcases hfd : pyTruthyOptStr ((pySplitChar '\n' content).foldl
      (fun acc line =>
        (if pyStartsWith line "datacite: " = true then
          some (pyUnquote (pyDrop line 10)) else acc.1,
         if pyStartsWith line "_target: " = true then
          some (pyDrop line 9) else acc.2)) (Option.none, Option.none)).1
      with _ | _
    · left
      simp [load_response, he, hs, hfd]
    · right
      have hn : pyTruthyOptStr Option.none = false := rfl
      simp [load_response, he, hs, hfd, hfold, hn]

/-- Witness for claim C6: a not-found error body and a success body with
no datacite: line, at concrete inputs. -/
theorem load_response_amended_witness :
    (pyStartsWith "error: no such identifier foo" "error:" = true) ∧
    pyIn "no such identifier" "error: no such identifier foo" ∧
    load_response "X" "error: no such identifier foo" =
      .error (.notFoundError "X") ∧
    load_response "X" "success: y" =
      .error (.requestError "no datacite field in request response") := by
  have h1 := load_response_amended "X" "error: no such identifier foo"
  have h2 := load_response_amended "X" "success: y"
  have hin : pyIn "no such identifier" "error: no such identifier foo" := by
    decide
  refine ⟨by decide, hin, h1.1 (by decide) hin, ?_⟩
  exact h2.2.2.2.1 (by decide) (by decide) (by decide)

theorem validateEntries_forall2 :
    ∀ (kvs md2 : List (String × PyVal)),
      validateEntries kvs = .ok md2 ↔
      List.Forall₂ (fun kv kw => kv.1 = kw.1 ∧
        ∃ c, lookupCodec kv.1 = some c ∧ c.init kv.2 = .ok kw.2) kvs md2
  | [], md2 => by
      constructor
      · intro h
        unfold validateEntries at h
        injection h with h1
        rw [← h1]
        exact List.Forall₂.nil
      · intro h
        cases h
        rfl
  | (k, v) :: rest, md2 => by
      constructor
      · intro h
        unfold validateEntries at h
        rcases hl : lookupCodec k with _ | c <;> rw [hl] at h
        · simp at h
        · replace h : (do
              let w ← c.init v
              let tail ← validateEntries rest
              Except.ok ((k, w) :: tail)) = Except.ok md2 := h
          rcases hi : c.init v with e | w <;> rw [hi] at h <;> try simp at h
          rcases ht : validateEntries rest with e | tail <;> rw [ht] at h <;>
            simp at h
          rw [← h]
          exact List.Forall₂.cons ⟨rfl, c, hl, hi⟩
            ((validateEntries_forall2 rest tail).mp ht)
      · intro h
        rcases h with _ | ⟨hR, htail⟩
        obtain ⟨hk, c, hl, hi⟩ := hR
        rename_i b l2
        obtain ⟨b1, b2⟩ := b
        unfold validateEntries
        rw [hl]
        show (do
            let w ← c.init v
            let tail ← validateEntries rest
            Except.ok ((k, w) :: tail)) = Except.ok ((b1, b2) :: l2)
        rw [hi, (validateEntries_forall2 rest l2).mpr htail]
        simp at hk
        rw [hk]
        rfl

theorem firstMissingMandatory_none (keys : List String) :
    firstMissingMandatory keys = Option.none ↔
      ∀ k ∈ ["creators", "title", "publisher", "publicationyear"],
        keys.contains k = true := by
  unfold firstMissingMandatory
  rw [Option.map_eq_none', List.find?_eq_none]
  simp [metadata_values, MVCreators_codec, MVTitle_codec, MVPublisher_codec,
    MVPublicationYear_codec, MVSubjects_codec, MVContributors_codec,
    MVDates_codec, MVResourceType_codec, MVAlternateIdentifiers_codec,
    MVRelatedIdentifiers_codec, MVSizes_codec, MVFormats_codec,
    MVVersion_codec, MVRights_codec, MVDescriptions_codec,
    MVGeoLocations_codec]

theorem firstMissingMandatory_some (keys : List String) (key : String)
    (h : firstMissingMandatory keys = some key) :
    key ∈ ["creators", "title", "publisher", "publicationyear"] ∧
    keys.contains key = false := by
  unfold firstMissingMandatory at h
  rcases hf : metadata_values.find?
      (fun p => p.2.mandatory && !(keys.contains p.1)) with _ | q <;>
    rw [hf] at h <;> simp at h
  have hq1 := List.find?_some hf
  have hq2 : q ∈ metadata_values := List.mem_of_find?_eq_some hf
  subst h
  simp only [Bool.and_eq_true, Bool.not_eq_true'] at hq1
  refine ⟨?_, hq1.2⟩
  unfold metadata_values at hq2
  rcases hq2 with _ | ⟨_, _ | ⟨_, _ | ⟨_, _ | ⟨_, _ | ⟨_, _ | ⟨_, _ | ⟨_,
    _ | ⟨_, _ | ⟨_, _ | ⟨_, _ | ⟨_, _ | ⟨_, _ | ⟨_, _ | ⟨_, _ | ⟨_, _ | ⟨_,
    hq⟩⟩⟩⟩⟩⟩⟩⟩⟩⟩⟩⟩⟩⟩⟩⟩
  · decide
  · decide
  · decide
  · decide
  · exact absurd hq1.1 (by decide)
  · exact absurd hq1.1 (by decide)
  · exact absurd hq1.1 (by decide)
  · exact absurd hq1.1 (by decide)
  · exact absurd hq1.1 (by decide)
  · exact absurd hq1.1 (by decide)
  · exact absurd hq1.1 (by decide)
  · exact absurd hq1.1 (by decide)
  · exact absurd hq1.1 (by decide)
  · exact absurd hq1.1 (by decide)
  · exact absurd hq1.1 (by decide)
  · exact absurd hq1.1 (by decide)
  · cases hq

theorem validateEntries_append_unknown :
    ∀ (pre : List (String × PyVal)) (kv : String × PyVal)
      (rest : List (String × PyVal)),
      (∀ p ∈ pre, ∃ c w, lookupCodec p.1 = some c ∧ c.init p.2 = .ok w) →
      lookupCodec kv.1 = Option.none →
      validateEntries (pre ++ kv :: rest) =
        .error (.valueError ("unknown metadata key \"" ++ kv.1 ++ "\""))
  | [], kv, rest, _, hk => by
      obtain ⟨k, v⟩ := kv
      rw [show ((k, v) : String × PyVal).1 = k from rfl] at hk
      rw [List.nil_append]
      show (match lookupCodec k with
        | Option.none =>
            Except.error (PyErr.valueError ("unknown metadata key \"" ++ k ++ "\""))
        | some c => do
            let w ← c.init v
            let tail ← validateEntries rest
            Except.ok ((k, w) :: tail)) =
        Except.error (.valueError ("unknown metadata key \"" ++ k ++ "\""))
      rw [hk]
  | p :: pre, kv, rest, hpre, hk => by
      obtain ⟨k0, v0⟩ := p
      obtain ⟨c, w, hc, hw⟩ := hpre (k0, v0) (by simp)
      rw [List.cons_append]
      unfold validateEntries
      rw [hc]
      show (do
          let w2 ← c.init v0
          let tail ← validateEntries (pre ++ kv :: rest)
          Except.ok ((k0, w2) :: tail)) = _
      rw [hw,
        validateEntries_append_unknown pre kv rest
          (fun q hq => hpre q (by simp [hq])) hk]
      rfl

/-- Claim C4 counterexample: a mapping whose keys are all recognized and
whose mandatory fields are all present can still fail: a non-string
title is rejected by the title codec constructor with a ValueError, so
the claimed case analysis (TypeError, unknown key, missing mandatory
key, otherwise success) is not exhaustive. -/
theorem validate_metadata_codec_error :
    validate_metadata (.dict [("creators", .list [.str "Jane Doe"]),
      ("title", .int 3), ("publisher", .str "P"),
      ("publicationyear", .str "1999")]) =
      .error (.valueError "value must be a basestring") ∧
    (["creators", "title", "publisher", "publicationyear"].all
      (fun k => (lookupCodec k).isSome) = true) := ⟨rfl, by decide⟩

/-- Claim C4 (amended): validate_metadata raises TypeError on every
non-mapping; on a mapping whose earlier entries pass their codec
constructors, an unrecognized key raises ValueError naming that key; on a
mapping all of whose entries pass, a missing mandatory key (creators,
title, publisher, publicationyear) raises ValueError naming a mandatory
key that is indeed absent; the mapping succeeds exactly when every entry
has a recognized key and a value accepted by that key's codec constructor
and every mandatory key is present, in which case the result maps each
input key, in order, to the canonical value produced by its codec
constructor; constructor failures of present values propagate, which the
original case analysis omitted. -/
theorem validate_metadata_characterization (v : PyVal) :
    ((∀ kvs, ¬(v = .dict kvs)) →
      validate_metadata v = .error (.typeError "metadata must be a dictionary")) ∧
    (∀ kvs md2, v = .dict kvs →
      (validate_metadata v = .ok (.dict md2) ↔
        (List.Forall₂ (fun kv kw => kv.1 = kw.1 ∧
            ∃ c, lookupCodec kv.1 = some c ∧ c.init kv.2 = .ok kw.2) kvs md2 ∧
         ∀ k ∈ ["creators", "title", "publisher", "publicationyear"],
           ((kvs.map Prod.fst).contains k = true)))) ∧
    (∀ pre kv rest, v = .dict (pre ++ kv :: rest) →
      (∀ p ∈ pre, ∃ c w, lookupCodec p.1 = some c ∧ c.init p.2 = .ok w) →
      lookupCodec kv.1 = Option.none →
      validate_metadata v =
        .error (.valueError ("unknown metadata key \"" ++ kv.1 ++ "\""))) ∧
    (∀ (kvs md2 : List (String × PyVal)) (key : String), v = .dict kvs →
      List.Forall₂ (fun kv kw => kv.1 = kw.1 ∧
        ∃ c, lookupCodec kv.1 = some c ∧ c.init kv.2 = .ok kw.2) kvs md2 →
      key ∈ ["creators", "title", "publisher", "publicationyear"] →
      (kvs.map Prod.fst).contains key = false →
      ∃ key2, key2 ∈ ["creators", "title", "publisher", "publicationyear"] ∧
        (kvs.map Prod.fst).contains key2 = false ∧
        validate_metadata v =
          .error (.valueError
            ("missing mandatory metadata key \"" ++ key2 ++ "\""))) ∧
    (metadata_values.filter (fun p => p.2.mandatory)).map Prod.fst =
      ["creators", "title", "publisher", "publicationyear"] := by
  refine ⟨?_, ?_, ?_, ?_, by rfl⟩
  · intro h
    rcases v with _ | _ | _ | _ | _ | kvs
    · rfl
    · rfl
    · rfl
    · rfl
    · rfl
    · exact absurd rfl (h kvs)
  · intro kvs md2 hv
    subst hv
    constructor
    · intro h
      replace h : (do
          let out ← validateEntries kvs
          match firstMissingMandatory (kvs.map Prod.fst) with
          | some key =>
              Except.error (PyErr.valueError
                ("missing mandatory metadata key \"" ++ key ++ "\""))
          | Option.none => Except.ok (PyVal.dict out)) =
          Except.ok (PyVal.dict md2) := h
      rcases he : validateEntries kvs with e | out <;> rw [he] at h
      · simp at h
      · simp only [except_bind_ok] at h
        rcases hm : firstMissingMandatory (kvs.map Prod.fst) with _ | key <;>
          rw [hm] at h
        · simp at h
          subst h
          exact ⟨(validateEntries_forall2 kvs _).mp he,
            (firstMissingMandatory_none _).mp hm⟩
        · simp at h
    · intro h
      obtain ⟨hf, hm⟩ := h
      have he := (validateEntries_forall2 kvs md2).mpr hf
      have hmm := (firstMissingMandatory_none (kvs.map Prod.fst)).mpr hm
      simp [validate_metadata, he, hmm]
  · intro pre kv rest hv hpre hk
    subst hv
    have he := validateEntries_append_unknown pre kv rest hpre hk
    simp [validate_metadata, he]
  · intro kvs md2 key hv hf hkey hmiss
    subst hv
    have he := (validateEntries_forall2 kvs md2).mpr hf
    rcases hfm : firstMissingMandatory (kvs.map Prod.fst) with _ | key2
    · have hall := (firstMissingMandatory_none _).mp hfm
      rw [hall key hkey] at hmiss
      exact Bool.noConfusion hmiss
    · obtain ⟨hmem2, hcon2⟩ := firstMissingMandatory_some _ _ hfm
      refine ⟨key2, hmem2, hcon2, ?_⟩
      simp [validate_metadata, he, hfm]

/-- Witness for claim C4: a non-mapping is rejected with TypeError, an
unknown key and a missing mandatory key are rejected with ValueErrors
naming the key, and a well-formed mapping normalizes to the canonical
values. -/
theorem validate_metadata_characterization_witness :
    validate_metadata (.int 3) =
      .error (.typeError "metadata must be a dictionary") ∧
    validate_metadata (.dict [("creators", .list [.str "Jane Doe"]),
      ("color", .str "red")]) =
      .error (.valueError "unknown metadata key \"color\"") ∧
    (∃ key2, key2 ∈ ["creators", "title", "publisher", "publicationyear"] ∧
      (([("title", PyVal.str "T")].map Prod.fst).contains key2 = false) ∧
      validate_metadata (.dict [("title", .str "T")]) =
        .error (.valueError
          ("missing mandatory metadata key \"" ++ key2 ++ "\""))) ∧
    validate_metadata (.dict [("creators", .list [.str "Jane Doe"]),
      ("title", .str "T"), ("publisher", .str "P"),
      ("publicationyear", .str "1999")]) =
      .ok (.dict [("creators", .list [.tuple [.str "Jane Doe", .none]]),
        ("title", .str "T"), ("publisher", .str "P"),
        ("publicationyear", .str "1999")]) := by
  have h1 := validate_metadata_characterization (.int 3)
  have h2 := validate_metadata_characterization
    (.dict [("creators", .list [.str "Jane Doe"]), ("title", .str "T"),
      ("publisher", .str "P"), ("publicationyear", .str "1999")])
  have h3 := validate_metadata_characterization
    (.dict [("creators", .list [.str "Jane Doe"]), ("color", .str "red")])
  have h4 := validate_metadata_characterization (.dict [("title", .str "T")])
  refine ⟨h1.1 (fun kvs h => PyVal.noConfusion h), ?_, ?_, ?_⟩
  · exact h3.2.2.1 [("creators", .list [.str "Jane Doe"])]
      ("color", .str "red") [] rfl
      (fun p hp => by
        simp at hp
        subst hp
        exact ⟨MVCreators_codec, .list [.tuple [.str "Jane Doe", .none]],
          rfl, rfl⟩)
      rfl
  · exact h4.2.2.2.1 [("title", .str "T")] [("title", .str "T")] "creators" rfl
      (List.Forall₂.cons ⟨rfl, MVTitle_codec, rfl, rfl⟩ List.Forall₂.nil)
      (by decide) (by decide)
  · refine (h2.2.1 _ _ rfl).mpr ⟨?_, by decide⟩
    refine List.Forall₂.cons ⟨rfl, MVCreators_codec, by rfl, by rfl⟩ ?_
    refine List.Forall₂.cons ⟨rfl, MVTitle_codec, by rfl, by rfl⟩ ?_
    refine List.Forall₂.cons ⟨rfl, MVPublisher_codec, by rfl, by rfl⟩ ?_
    exact List.Forall₂.cons ⟨rfl, MVPublicationYear_codec, by rfl, by rfl⟩
      List.Forall₂.nil

theorem str_empty_append (s : String) : "" ++ s = s := by
  cases s with
  | mk data => rfl

theorem xml_text_single (t : String) (a : List (String × String)) (d : String) :
    xml_text (.element t a [.text d]) = d := by
  simp [xml_text, str_empty_append]

/-- A raw metadata mapping carrying a bare-string subject, and its
canonical form after validation. -/
def c8raw : PyVal :=
  .dict [("creators", .list [.str "Jane Doe"]), ("title", .str "T"),
    ("publisher", .str "P"), ("publicationyear", .str "1999"),
    ("subjects", .list [.str "math"])]

/-- The canonical form of c8raw. -/
def c8md : List (String × PyVal) :=
  [("creators", .list [.tuple [.str "Jane Doe", .none]]), ("title", .str "T"),
   ("publisher", .str "P"), ("publicationyear", .str "1999"),
   ("subjects", .list [.tuple [.str "math", .none, .none]])]

/-- Claim C8 counterexample: a validated metadata mapping for which
rendering produces no document at all: the canonical subjects triple has
an absent scheme, which the subjects constructor, re-run by
create_datacite_xml on the canonical value, rejects. -/
theorem create_datacite_rejects_validated :
    validate_metadata c8raw = .ok (.dict c8md) ∧
    create_datacite_doc (some "10.5072/FK2abc") c8md =
      .error subjectsSeqErr ∧
    create_datacite_xml (some "10.5072/FK2abc") c8md =
      .error subjectsSeqErr := ⟨rfl, rfl, rfl⟩

/-- Claim C8 (amended): for every validated metadata mapping on which
rendering succeeds, the rendered document has exactly one identifier
element, whose text is the to-be-assigned sentinel (:tba) when the
identifier is absent and doi: followed by the identifier otherwise; on
some validated mappings rendering fails instead of producing a document. -/
theorem render_identifier_text (identifier : Option String) (raw : PyVal)
    (md : List (String × PyVal))
    (hval : validate_metadata raw = .ok (.dict md))
    (doc : XNode) (hdoc : create_datacite_doc identifier md = .ok doc) :
    ∃ el, elementsByTag "identifier" doc = [el] ∧
      xml_text el = idTextOf identifier ∧
      (identifier = Option.none → xml_text el = "(:tba)") ∧
      (∀ idStr, identifier = some idStr → xml_text el = "doi:" ++ idStr) := by
  have hmd := validate_MdCanon raw md hval
  have hsim := create_doc_ordered_sim identifier md hmd metadata_values
    (fun x hx => hx)
  unfold create_datacite_doc at hdoc
  rw [hsim.1] at hdoc
  rcases hfail : metadata_values.any (entryFailsB md) with _ | _ <;>
    rw [hfail] at hdoc <;> simp at hdoc
  have hok := hsim.2 hfail
  subst hdoc
  refine ⟨.element "identifier" [("identifierType", "DOI")]
    [.text (idTextOf identifier)],
    elementsByTag_applySlots_identifier _ _ hok.1, xml_text_single _ _ _,
    ?_, ?_⟩
  · intro h
    rw [xml_text_single, h]
    rfl
  · intro idStr h
    rw [xml_text_single, h]
    rfl

/-- The document rendered for the mandatory-only mapping. -/
def c8doc : XNode :=
  (create_datacite_doc (some "10.5072/FK2abc") c3Kvs).toOption.getD (.text "")

/-- Witness for claim C8 on a concrete validated mapping that renders. -/
theorem render_identifier_text_witness :
    validate_metadata c3Md = .ok (.dict c3Kvs) ∧
    create_datacite_doc (some "10.5072/FK2abc") c3Kvs = .ok c8doc ∧
    (∃ el, elementsByTag "identifier" c8doc = [el] ∧
      xml_text el = "doi:10.5072/FK2abc") := by
  have hval : validate_metadata c3Md = .ok (.dict c3Kvs) := by rfl
  have hdoc : create_datacite_doc (some "10.5072/FK2abc") c3Kvs = .ok c8doc := by
    rfl
  have h := render_identifier_text (some "10.5072/FK2abc") c3Md c3Kvs hval
    c8doc hdoc
  obtain ⟨el, h1, h2, h3, h4⟩ := h
  exact ⟨hval, hdoc, el, h1, h4 "10.5072/FK2abc" rfl⟩

/-- Claim C9: neither the rendered document nor its XML text nor the
parse of a rendered document depends on the iteration order of the
field-name-to-codec table: for every validated metadata mapping, any two
iteration orders of the table produce equal documents and equal
serialized text, and parse a rendered document identically, because each
codec operates only on its own uniquely-tagged container element. -/
theorem order_independence (identifier : Option String) (raw : PyVal)
    (md : List (String × PyVal)) (hval : validate_metadata raw = .ok (.dict md))
    (order1 order2 : List (String × FieldCodec))
    (h1 : order1.Perm metadata_values) (h2 : order2.Perm metadata_values) :
    create_datacite_doc_ordered order1 identifier md =
      create_datacite_doc_ordered order2 identifier md ∧
    (create_datacite_doc_ordered order1 identifier md).map toxml =
      (create_datacite_doc_ordered order2 identifier md).map toxml ∧
    (∀ doc, create_datacite_doc_ordered order1 identifier md = .ok doc →
      xml_to_metadata_doc_ordered order1 doc =
        xml_to_metadata_doc_ordered order2 doc) := by
  have hmd := validate_MdCanon raw md hval
  have hmem1 : ∀ x ∈ order1, x ∈ metadata_values := fun x hx => h1.mem_iff.mp hx
  have hmem2 : ∀ x ∈ order2, x ∈ metadata_values := fun x hx => h2.mem_iff.mp hx
  have hp12 : order1.Perm order2 := h1.trans h2.symm
  have hs1 := create_doc_ordered_sim identifier md hmd order1 hmem1
  have hs2 := create_doc_ordered_sim identifier md hmd order2 hmem2
  have hany : order1.any (entryFailsB md) = order2.any (entryFailsB md) :=
    any_perm _ hp12
  have heq : create_datacite_doc_ordered order1 identifier md =
      create_datacite_doc_ordered order2 identifier md := by
    rw [hs1.1, hs2.1, hany, foldl_foldStep_perm md hp12 hmem1 slotNil]
  refine ⟨heq, by rw [heq], ?_⟩
  intro doc hdoc
  rw [hs1.1] at hdoc
  rcases hfail : order1.any (entryFailsB md) with _ | _ <;>
    rw [hfail] at hdoc <;> simp at hdoc
  have hok := hs1.2 hfail
  subst hdoc
  have hd1 : ("descriptions", MVDescriptions_codec) ∈ order1 :=
    h1.mem_iff.mpr (by unfold metadata_values; simp)
  have hd2 : ("descriptions", MVDescriptions_codec) ∈ order2 :=
    h2.mem_iff.mpr (by unfold metadata_values; simp)
  rw [xml_to_metadata_ordered_err _ _ hok order1 hmem1 hd1,
    xml_to_metadata_ordered_err _ _ hok order2 hmem2 hd2]

/-- Witness for claim C9: the source order and its reverse render the
same document for a concrete validated mapping. -/
theorem order_independence_witness :
    validate_metadata c3Md = .ok (.dict c3Kvs) ∧
    create_datacite_doc_ordered metadata_values (some "10.5072/FK2abc") c3Kvs =
      create_datacite_doc_ordered metadata_values.reverse
        (some "10.5072/FK2abc") c3Kvs := by
  have h := order_independence (some "10.5072/FK2abc") c3Md c3Kvs (by rfl)
    metadata_values metadata_values.reverse (List.Perm.refl _)
    (List.reverse_perm _)
  exact ⟨by rfl, h.1⟩
